import Mathlib

/-!
# Nuzlocke external API: extraction pipeline

A shallow embedding of the pure helpers of `src/routes/api/external/+server.js`
(namespace `Route`) and `standalone-server.js` (namespace `Standalone`), over a
small model of the JavaScript values that `JSON.parse` can produce.

Conventions of the model:

* strings are sequences of Unicode scalar values (Lean `String`), not UTF-16
  code units;
* numbers are `NaN`, the two infinities, and the finite numbers, each given by its
  exact decimal value `m / 10 ^ k`; the conversions from text (the unary `+` and
  `JSON.parse`) round to the nearest IEEE 754 double, overflow to an infinity and
  underflow to zero, and `Number::toString` prints the shortest decimal that converts
  back to the double; the sign of zero is not modelled;
* an object is the list of its own enumerable properties in the order in which
  `Object.entries` lists them; properties inherited from a prototype are not
  modelled (the helpers below only ever read `.pokemon` from a looked-up value,
  which is `undefined` on every inherited value, as it is on a missing one);
* a thrown exception is `Except.error`.
-/

namespace Nuzlocke

/-- Exceptions the helpers can raise. -/
inductive JsError where
  | typeError
  | uriError
  | syntaxError
  deriving DecidableEq

/-- A JavaScript number: `NaN`, an infinity, or the finite number whose exact value is
the decimal `m / 10 ^ k` (every double has such a decimal). -/
inductive JsNum where
  | nan
  | inf (neg : Bool)
  | fin (m : Int) (k : Nat)
  deriving DecidableEq

/-- An integer as a JavaScript number. -/
def JsNum.ofInt (c : Int) : JsNum := .fin c 0

/-- The number is the integer `c` (in whichever decimal representation). -/
def JsNum.isInt (n : JsNum) (c : Int) : Bool :=
  match n with
  | .fin m k => m == c * 10 ^ k
  | _ => false

/-- ToBoolean on numbers: `NaN` and zero are falsy. -/
def JsNum.truthy : JsNum → Bool
  | .nan => false
  | .inf _ => true
  | .fin m _ => m != 0

/-- JavaScript values (the JSON fragment, plus `undefined`). -/
inductive JsVal where
  | undefined
  | null
  | bool (b : Bool)
  | num (n : JsNum)
  | str (s : String)
  | arr (xs : List JsVal)
  | obj (props : List (String × JsVal))

namespace JsVal

/-- The integer literal `c`. -/
def int (c : Int) : JsVal := .num (.ofInt c)

/-- ToBoolean. -/
def truthy : JsVal → Bool
  | .undefined => false
  | .null => false
  | .bool b => b
  | .num n => n.truthy
  | .str s => s != ""
  | .arr _ => true
  | .obj _ => true

/-- The expression `a || b`. -/
def or (a b : JsVal) : JsVal := if a.truthy then a else b

/-- The value is a number equal to the integer `c`: `v === c`, and also the test
that `[..].includes(v)` makes against a numeric element `c`. -/
def isInt (v : JsVal) (c : Int) : Bool :=
  match v with
  | .num n => n.isInt c
  | _ => false

/-- The value is `null` or `undefined`. -/
def nullish : JsVal → Bool
  | .undefined => true
  | .null => true
  | _ => false

end JsVal

/-- Own-property lookup in a property list. -/
def lookup (k : String) : List (String × JsVal) → Option JsVal
  | [] => none
  | (k', v) :: ps => if k' = k then some v else lookup k ps

/-- Decimal digits of a natural number, most significant first, by repeated division;
`fuel` bounds the number of digits produced. -/
def digitsAux : Nat → Nat → List Char → List Char
  | 0, _, acc => acc
  | fuel + 1, n, acc =>
    let acc' := Char.ofNat (48 + n % 10) :: acc
    if n / 10 = 0 then acc' else digitsAux fuel (n / 10) acc'

/-- Decimal digits of a natural number (`0` is `"0"`). -/
def natDigits (n : Nat) : List Char := digitsAux (n + 1) n []

/-- Value of a list of decimal digits. -/
def digitsVal (cs : List Char) : Nat :=
  cs.foldl (fun a c => 10 * a + (c.toNat - 48)) 0

/-- A canonical array index: the decimal string, without leading zeros, of an
integer below `2 ^ 32 - 1`. Such keys of an object are enumerated first, in
ascending order. -/
def arrayIndex? (k : String) : Option Nat :=
  let cs := k.data
  if cs ≠ [] ∧ cs.all Char.isDigit ∧ (cs.head? ≠ some '0' ∨ cs.length = 1)
      ∧ digitsVal cs < 2 ^ 32 - 1 then
    some (digitsVal cs)
  else none

/-- Cancel trailing zeros of the mantissa against the scale: `m / 10 ^ k` in lowest terms. -/
def normDec : Int → Nat → JsNum
  | m, 0 => .fin m 0
  | m, k + 1 => if m % 10 = 0 then normDec (m / 10) k else .fin m (k + 1)

/-- The integer part of the binary logarithm of `n`, by repeated halving; `fuel` bounds
the number of halvings. -/
def log2Fuel : Nat → Nat → Nat
  | 0, _ => 0
  | fuel + 1, n => if n < 2 then 0 else log2Fuel fuel (n / 2) + 1

/-- The integer part of the binary logarithm of `n` (`0` for `n = 0`). -/
def log2Floor (n : Nat) : Nat := log2Fuel n n

/-- The Number value for the ratio `num / den`, negated if `neg`: the IEEE 754 binary64
value nearest to it, ties to the even significand. The significand has 53 bits, the
least exponent is `-1074` (below it the value is subnormal, down to zero), and a
result of `2 ^ 1024` or more is an infinity. The result is the exact decimal of the
double; the sign of zero is not modelled. -/
def roundToDouble (neg : Bool) (num den : Nat) : JsNum :=
  if num = 0 ∨ den = 0 then .fin 0 0
  else
    -- `2 ^ 52 ≤ num / den / 2 ^ e0 < 2 ^ 54`
    let e0 : Int := (log2Floor num : Int) - (log2Floor den : Int) - 53
    let q0 : Nat := if 0 ≤ e0 then num / (den * 2 ^ e0.toNat) else num * 2 ^ (-e0).toNat / den
    let e1 : Int := if 2 ^ 53 ≤ q0 then e0 + 1 else e0
    let e : Int := max e1 (-1074)
    -- the quotient `N / D` is `num / den / 2 ^ e`
    let N : Nat := if 0 ≤ e then num else num * 2 ^ (-e).toNat
    let D : Nat := if 0 ≤ e then den * 2 ^ e.toNat else den
    let q : Nat := N / D
    let r : Nat := N % D
    let q' : Nat := if D < 2 * r ∨ (2 * r = D ∧ q % 2 = 1) then q + 1 else q
    let sign : Int := if neg then -1 else 1
    if 0 ≤ e then
      -- `2 ^ 1024 ≤ q' * 2 ^ e`, as `2 ^ 52 ≤ q' ≤ 2 ^ 53`
      if 971 < e ∨ (e = 971 ∧ 2 ^ 53 ≤ q') then .inf neg
      else .fin (sign * ((q' * 2 ^ e.toNat : Nat) : Int)) 0
    else normDec (sign * ((q' * 5 ^ (-e).toNat : Nat) : Int)) (-e).toNat

/-- The decimal `a / 10 ^ k` is the exact value of a double. -/
def isDouble (a k : Nat) : Bool :=
  match roundToDouble false a (10 ^ k) with
  | .fin m j => m * 10 ^ k == (a : Int) * 10 ^ j
  | _ => false

/-- The search of Number::toString for the digits of the double `a / 10 ^ k`, whose
numerator has `len` digits: the first number `d` of significant digits, from `d` on,
for which a decimal of `d` digits converts to that double; of the two decimals of `d`
digits next to the value, the one that converts to it, the closer one if both do, and
the even one if they are equally close. The result is the numerator over `10 ^ k`. -/
def shortestFrom (a k len : Nat) : Nat → Nat → Nat
  | 0, _ => a
  | fuel + 1, d =>
    if len ≤ d then a
    else
      let p := 10 ^ (len - d)
      let lo := a / p
      let rem := a % p
      let okLo := roundToDouble false (lo * p) (10 ^ k) == roundToDouble false a (10 ^ k)
      let okHi := roundToDouble false ((lo + 1) * p) (10 ^ k) == roundToDouble false a (10 ^ k)
      if okLo ∧ okHi then
        if 2 * rem < p ∨ (2 * rem = p ∧ lo % 2 = 0) then lo * p else (lo + 1) * p
      else if okLo then lo * p
      else if okHi then (lo + 1) * p
      else shortestFrom a k len fuel (d + 1)

/-- The numerator, over `10 ^ k`, of the decimal that Number::toString prints for the
positive number `a / 10 ^ k`: for a double, the decimal with the fewest significant
digits that converts to it (17 digits always suffice); a decimal that is not a double
is printed as it is. -/
def shortestDecimal (a k : Nat) : Nat :=
  if isDouble a k then shortestFrom a k (natDigits a).length 17 1 else a

/-- Strip trailing zero digits, counting them (`fuel` bounds the count). -/
def stripZeros : Nat → Nat → Nat → Nat × Nat
  | 0, s, z => (s, z)
  | fuel + 1, s, z => if s ≠ 0 ∧ s % 10 = 0 then stripZeros fuel (s / 10) (z + 1) else (s, z)

/-- Number::toString (radix 10) from the decimal `a / 10 ^ k` of the digits to print. -/
def posToString (a k : Nat) : List Char :=
  let (s, z) := stripZeros a a 0
  let ds := natDigits s
  let len : Int := ds.length
  let n : Int := len + z - k
  if len ≤ n ∧ n ≤ 21 then ds ++ List.replicate (n - len).toNat '0'
  else if 0 < n ∧ n ≤ 21 then ds.take n.toNat ++ '.' :: ds.drop n.toNat
  else if -6 < n ∧ n ≤ 0 then '0' :: '.' :: List.replicate (-n).toNat '0' ++ ds
  else
    let e := (if 0 ≤ n - 1 then '+' else '-') :: natDigits (n - 1).natAbs
    if ds.length = 1 then ds ++ 'e' :: e
    else ds.take 1 ++ '.' :: ds.drop 1 ++ 'e' :: e

/-- Number::toString. -/
def JsNum.toString : JsNum → String
  | .nan => "NaN"
  | .inf false => "Infinity"
  | .inf true => "-Infinity"
  | .fin m k =>
    if m = 0 then "0"
    else if m < 0 then ⟨'-' :: posToString (shortestDecimal m.natAbs k) k⟩
    else ⟨posToString (shortestDecimal m.natAbs k) k⟩

mutual
/-- ToString. An object whose own `toString` property shadows the inherited method
cannot be converted (no JSON value is callable) and raises a TypeError. -/
def JsVal.toStr : JsVal → Except JsError String
  | .undefined => .ok "undefined"
  | .null => .ok "null"
  | .bool b => .ok (if b then "true" else "false")
  | .num n => .ok n.toString
  | .str s => .ok s
  | .arr xs => JsVal.joinStr xs
  | .obj props =>
    match lookup "toString" props with
    | some _ => .error .typeError
    | none => .ok "[object Object]"
/-- The method `Array.prototype.join` with the separator `","`: `null` and `undefined`
elements contribute the empty string. -/
def JsVal.joinStr : List JsVal → Except JsError String
  | [] => .ok ""
  | [x] => if x.nullish then .ok "" else JsVal.toStr x
  | x :: y :: rest =>
    match (if x.nullish then .ok "" else JsVal.toStr x), JsVal.joinStr (y :: rest) with
    | .ok a, .ok b => .ok (a ++ "," ++ b)
    | .error e, _ => .error e
    | _, .error e => .error e
end

/-- The elements of an array as index-keyed entries, from index `i` on. -/
def indexed : Nat → List JsVal → List (String × JsVal)
  | _, [] => []
  | i, x :: xs => (⟨natDigits i⟩, x) :: indexed (i + 1) xs

/-- The function `Object.entries`: raises on `null` and `undefined`; a number or boolean has
no entries; a string and an array list their indexed elements. -/
def objectEntries : JsVal → Except JsError (List (String × JsVal))
  | .undefined => .error .typeError
  | .null => .error .typeError
  | .bool _ => .ok []
  | .num _ => .ok []
  | .str s => .ok (indexed 0 (s.data.map fun c => .str ⟨[c]⟩))
  | .arr xs => .ok (indexed 0 xs)
  | .obj props => .ok props

/-- Property read `v[k]` for a string key: raises on `null` and `undefined`; own
properties only (indexed elements and `length` for strings and arrays). -/
def getProp (v : JsVal) (k : String) : Except JsError JsVal :=
  match v with
  | .undefined => .error .typeError
  | .null => .error .typeError
  | .bool _ => .ok .undefined
  | .num _ => .ok .undefined
  | .str s =>
    if k = "length" then .ok (.int s.data.length)
    else match arrayIndex? k with
      | some i => .ok (match s.data.get? i with | some c => .str ⟨[c]⟩ | none => .undefined)
      | none => .ok .undefined
  | .arr xs =>
    if k = "length" then .ok (.int xs.length)
    else match arrayIndex? k with
      | some i => .ok ((xs.get? i).getD .undefined)
      | none => .ok .undefined
  | .obj props => .ok ((lookup k props).getD .undefined)

/-- Property read `v[key]` with a computed key. -/
def getIndex (v key : JsVal) : Except JsError JsVal :=
  match v with
  | .undefined => .error .typeError
  | .null => .error .typeError
  | _ => do
    let k ← key.toStr
    getProp v k

/-- The method `Array.prototype.filter` with a callback that may raise. -/
def filterE {α : Type} (p : α → Except JsError Bool) : List α → Except JsError (List α)
  | [] => .ok []
  | x :: xs =>
    match p x with
    | .error e => .error e
    | .ok b =>
      match filterE p xs with
      | .error e => .error e
      | .ok rest => .ok (if b then x :: rest else rest)

/-- The method `Array.prototype.map` with a callback that may raise. -/
def mapE {α β : Type} (f : α → Except JsError β) : List α → Except JsError (List β)
  | [] => .ok []
  | x :: xs =>
    match f x with
    | .error e => .error e
    | .ok y =>
      match mapE f xs with
      | .error e => .error e
      | .ok rest => .ok (y :: rest)

/-- The constant `NuzlockeGroups.Available`: Captured, Received, Traded, Shiny. -/
def NuzlockeGroups.Available : List Int := [1, 2, 3, 6]

/-- The test `NuzlockeGroups.Available.includes(status)`. -/
def availableIncludes (status : JsVal) : Bool :=
  NuzlockeGroups.Available.any fun c => status.isInt c

namespace Standalone

/-- The callback of `team.map` in `extractTeamData` (standalone-server.js 146-163). -/
def teamEntry (data locationId : JsVal) : Except JsError JsVal := do
  let pokemon ← getIndex data locationId
  if !pokemon.truthy then return .null
  let species ← getProp pokemon "pokemon"
  if !species.truthy then return .null
  return .obj [
    ("locationId", locationId),
    ("pokemon", species),
    ("name", (← getProp pokemon "name").or species),
    ("level", (← getProp pokemon "level").or (.int 1)),
    ("status", (← getProp pokemon "status").or (.int 1)),
    ("nature", ← getProp pokemon "nature"),
    ("ability", ← getProp pokemon "ability"),
    ("moves", (← getProp pokemon "moves").or (.arr [])),
    ("types", (← getProp pokemon "types").or (.arr [])),
    ("stats", (← getProp pokemon "stats").or (.obj [])),
    ("nickname", ← getProp pokemon "nickname")]

/-- The function `extractTeamData` of standalone-server.js (143-166). -/
def extractTeamData (data : JsVal) : Except JsError (List JsVal) := do
  let team := (← getProp data "__team").or (.arr [])
  match team with
  | .arr ids =>
    let mapped ← mapE (teamEntry data) ids
    let present := mapped.filter JsVal.truthy
    filterE (fun pokemon => do return !(← getProp pokemon "status").isInt 5) present
  | _ => .error .typeError

/-- The callback of the final `map` in `extractBoxData` (standalone-server.js 178-190). -/
def boxEntry (locationId : String) (pokemon : JsVal) : Except JsError JsVal := do
  let species ← getProp pokemon "pokemon"
  return .obj [
    ("locationId", .str locationId),
    ("pokemon", species),
    ("name", (← getProp pokemon "name").or species),
    ("level", (← getProp pokemon "level").or (.int 1)),
    ("status", (← getProp pokemon "status").or (.int 1)),
    ("nature", ← getProp pokemon "nature"),
    ("ability", ← getProp pokemon "ability"),
    ("moves", (← getProp pokemon "moves").or (.arr [])),
    ("types", (← getProp pokemon "types").or (.arr [])),
    ("stats", (← getProp pokemon "stats").or (.obj [])),
    ("nickname", ← getProp pokemon "nickname")]

/-- The function `extractBoxData` of standalone-server.js (168-191). -/
def extractBoxData (data : JsVal) : Except JsError (List JsVal) := do
  let entries ← objectEntries data
  let withSpecies ← filterE (fun e => do return (← getProp e.2 "pokemon").truthy) entries
  let available ← filterE (fun e => do return availableIncludes (← getProp e.2 "status"))
    withSpecies
  mapE (fun e => boxEntry e.1 e.2) available

/-- The callback of `map` in `extractDeadData` (standalone-server.js 196-209). -/
def deadEntry (locationId : String) (pokemon : JsVal) : Except JsError JsVal := do
  let species ← getProp pokemon "pokemon"
  return .obj [
    ("locationId", .str locationId),
    ("pokemon", species),
    ("name", (← getProp pokemon "name").or species),
    ("level", (← getProp pokemon "level").or (.int 1)),
    ("status", ← getProp pokemon "status"),
    ("nature", ← getProp pokemon "nature"),
    ("ability", ← getProp pokemon "ability"),
    ("moves", (← getProp pokemon "moves").or (.arr [])),
    ("types", (← getProp pokemon "types").or (.arr [])),
    ("stats", (← getProp pokemon "stats").or (.obj [])),
    ("nickname", ← getProp pokemon "nickname"),
    ("death", (← getProp pokemon "death").or .null)]

/-- The function `extractDeadData` of standalone-server.js (193-210). -/
def extractDeadData (data : JsVal) : Except JsError (List JsVal) := do
  let entries ← objectEntries data
  let dead ← filterE (fun e => do
    let species ← getProp e.2 "pokemon"
    if !species.truthy then return false
    return (← getProp e.2 "status").isInt 5) entries
  mapE (fun e => deadEntry e.1 e.2) dead

/-- The callback of `teams.map` in `extractBossTeams` (standalone-server.js 214-220). -/
def bossEntry (boss : JsVal) : Except JsError JsVal := do
  return .obj [
    ("id", ← getProp boss "id"),
    ("name", ← getProp boss "name"),
    ("type", ← getProp boss "type"),
    ("group", ← getProp boss "group"),
    ("team", (← getProp boss "team").or (.arr []))]

/-- The function `extractBossTeams` of standalone-server.js (212-221). -/
def extractBossTeams (data : JsVal) : Except JsError (List JsVal) := do
  let teams := (← getProp data "__teams").or (.arr [])
  match teams with
  | .arr bosses => mapE bossEntry bosses
  | _ => .error .typeError

end Standalone

namespace Route

/-- The callback of `team.map` in `extractTeamData` (+server.js 49-66). -/
def teamEntry (data locationId : JsVal) : Except JsError JsVal := do
  let pokemon ← getIndex data locationId
  if !pokemon.truthy then return .null
  let species ← getProp pokemon "pokemon"
  if !species.truthy then return .null
  return .obj [
    ("locationId", locationId),
    ("pokemon", species),
    ("name", (← getProp pokemon "name").or species),
    ("level", (← getProp pokemon "level").or (.int 1)),
    ("status", (← getProp pokemon "status").or (.int 1)),
    ("nature", ← getProp pokemon "nature"),
    ("ability", ← getProp pokemon "ability"),
    ("moves", (← getProp pokemon "moves").or (.arr [])),
    ("types", (← getProp pokemon "types").or (.arr [])),
    ("stats", (← getProp pokemon "stats").or (.obj [])),
    ("nickname", ← getProp pokemon "nickname")]

/-- The function `extractTeamData` of +server.js (46-68): no status filter. -/
def extractTeamData (data : JsVal) : Except JsError (List JsVal) := do
  let team := (← getProp data "__team").or (.arr [])
  match team with
  | .arr ids =>
    let mapped ← mapE (teamEntry data) ids
    return mapped.filter JsVal.truthy
  | _ => .error .typeError

/-- The callback of the final `map` in `extractBoxData` (+server.js 81-93). -/
def boxEntry (locationId : String) (pokemon : JsVal) : Except JsError JsVal := do
  let species ← getProp pokemon "pokemon"
  return .obj [
    ("locationId", .str locationId),
    ("pokemon", species),
    ("name", (← getProp pokemon "name").or species),
    ("level", (← getProp pokemon "level").or (.int 1)),
    ("status", (← getProp pokemon "status").or (.int 1)),
    ("nature", ← getProp pokemon "nature"),
    ("ability", ← getProp pokemon "ability"),
    ("moves", (← getProp pokemon "moves").or (.arr [])),
    ("types", (← getProp pokemon "types").or (.arr [])),
    ("stats", (← getProp pokemon "stats").or (.obj [])),
    ("nickname", ← getProp pokemon "nickname")]

/-- The function `extractBoxData` of +server.js (71-94). -/
def extractBoxData (data : JsVal) : Except JsError (List JsVal) := do
  let entries ← objectEntries data
  let withSpecies ← filterE (fun e => do return (← getProp e.2 "pokemon").truthy) entries
  let available ← filterE (fun e => do return availableIncludes (← getProp e.2 "status"))
    withSpecies
  mapE (fun e => boxEntry e.1 e.2) available

/-- The callback of `map` in `extractDeadData` (+server.js 100-112): no `death` field. -/
def deadEntry (locationId : String) (pokemon : JsVal) : Except JsError JsVal := do
  let species ← getProp pokemon "pokemon"
  return .obj [
    ("locationId", .str locationId),
    ("pokemon", species),
    ("name", (← getProp pokemon "name").or species),
    ("level", (← getProp pokemon "level").or (.int 1)),
    ("status", ← getProp pokemon "status"),
    ("nature", ← getProp pokemon "nature"),
    ("ability", ← getProp pokemon "ability"),
    ("moves", (← getProp pokemon "moves").or (.arr [])),
    ("types", (← getProp pokemon "types").or (.arr [])),
    ("stats", (← getProp pokemon "stats").or (.obj [])),
    ("nickname", ← getProp pokemon "nickname")]

/-- The function `extractDeadData` of +server.js (97-113). -/
def extractDeadData (data : JsVal) : Except JsError (List JsVal) := do
  let entries ← objectEntries data
  let dead ← filterE (fun e => do
    let species ← getProp e.2 "pokemon"
    if !species.truthy then return false
    return (← getProp e.2 "status").isInt 5) entries
  mapE (fun e => deadEntry e.1 e.2) dead

/-- The callback of `teams.map` in `extractBossTeams` (+server.js 118-124). -/
def bossEntry (boss : JsVal) : Except JsError JsVal := do
  return .obj [
    ("id", ← getProp boss "id"),
    ("name", ← getProp boss "name"),
    ("type", ← getProp boss "type"),
    ("group", ← getProp boss "group"),
    ("team", (← getProp boss "team").or (.arr []))]

/-- The function `extractBossTeams` of +server.js (116-125). -/
def extractBossTeams (data : JsVal) : Except JsError (List JsVal) := do
  let teams := (← getProp data "__teams").or (.arr [])
  match teams with
  | .arr bosses => mapE bossEntry bosses
  | _ => .error .typeError

end Route

/-! ## Built-ins used by `parseSavedGames` -/

/-- Split a character list at every occurrence of `sep` (never returns `[]`). -/
def splitChars (sep : Char) : List Char → List (List Char)
  | [] => [[]]
  | c :: cs =>
    match splitChars sep cs with
    | [] => if c = sep then [[], []] else [[c]]
    | w :: ws => if c = sep then [] :: w :: ws else (c :: w) :: ws

/-- The method `String.prototype.split` with a one-character separator. -/
def split (sep : Char) (s : String) : List String :=
  (splitChars sep s.data).map String.mk

/-- Value of a hexadecimal digit. -/
def hexVal? (c : Char) : Option Nat :=
  if '0' ≤ c ∧ c ≤ '9' then some (c.toNat - 48)
  else if 'a' ≤ c ∧ c ≤ 'f' then some (c.toNat - 87)
  else if 'A' ≤ c ∧ c ≤ 'F' then some (c.toNat - 55)
  else none

/-- Percent-decoding with UTF-8 validation. `cont` is the number of continuation
octets still expected, `cp` the code point bits read so far and `lo` the least code
point that the current sequence may legally encode. -/
def decodeAux : Nat → Nat → Nat → List Char → Except JsError (List Char)
  | 0, _, _, [] => .ok []
  | _ + 1, _, _, [] => .error .uriError
  | 0, _, _, c :: cs =>
    if c ≠ '%' then
      match decodeAux 0 0 0 cs with
      | .ok out => .ok (c :: out)
      | .error e => .error e
    else
      match cs with
      | h1 :: h2 :: rest =>
        match hexVal? h1, hexVal? h2 with
        | some a, some b =>
          let B := 16 * a + b
          if B < 0x80 then
            match decodeAux 0 0 0 rest with
            | .ok out => .ok (Char.ofNat B :: out)
            | .error e => .error e
          else if B < 0xC0 then .error .uriError
          else if B < 0xE0 then decodeAux 1 (B - 0xC0) 0x80 rest
          else if B < 0xF0 then decodeAux 2 (B - 0xE0) 0x800 rest
          else if B < 0xF8 then decodeAux 3 (B - 0xF0) 0x10000 rest
          else .error .uriError
        | _, _ => .error .uriError
      | _ => .error .uriError
  | n + 1, cp, lo, c :: cs =>
    if c ≠ '%' then .error .uriError
    else
      match cs with
      | h1 :: h2 :: rest =>
        match hexVal? h1, hexVal? h2 with
        | some a, some b =>
          let B := 16 * a + b
          if B < 0x80 ∨ 0xC0 ≤ B then .error .uriError
          else
            let cp' := cp * 64 + (B - 0x80)
            if n = 0 then
              if cp' < lo ∨ 0x10FFFF < cp' ∨ (0xD800 ≤ cp' ∧ cp' ≤ 0xDFFF) then .error .uriError
              else
                match decodeAux 0 0 0 rest with
                | .ok out => .ok (Char.ofNat cp' :: out)
                | .error e => .error e
            else decodeAux n cp' lo rest
        | _, _ => .error .uriError
      | _ => .error .uriError

/-- The function `decodeURIComponent` on a string. -/
def decodeURIComponent (s : String) : Except JsError String :=
  match decodeAux 0 0 0 s.data with
  | .ok out => .ok ⟨out⟩
  | .error e => .error e

/-- White space and line terminators stripped by the string-to-number conversion. -/
def isStrWhiteSpace (c : Char) : Bool :=
  let n := c.toNat
  n = 9 ∨ n = 10 ∨ n = 11 ∨ n = 12 ∨ n = 13 ∨ n = 32 ∨ n = 0xA0 ∨ n = 0x1680
    ∨ (0x2000 ≤ n ∧ n ≤ 0x200A) ∨ n = 0x2028 ∨ n = 0x2029 ∨ n = 0x202F ∨ n = 0x205F
    ∨ n = 0x3000 ∨ n = 0xFEFF

/-- Remove leading and trailing white space. -/
def trimWhiteSpace (cs : List Char) : List Char :=
  ((cs.dropWhile isStrWhiteSpace).reverse.dropWhile isStrWhiteSpace).reverse

/-- Value of a list of digits in the given radix, `none` if a digit is out of range
or the list is empty. -/
def radixVal? (radix : Nat) (cs : List Char) : Option Nat :=
  if cs = [] then none
  else cs.foldl (fun acc c =>
    match acc, hexVal? c with
    | some a, some d => if d < radix then some (radix * a + d) else none
    | _, _ => none) (some 0)

/-- The Number value for `m * 10 ^ e`. -/
def mkDec (m : Int) (e : Int) : JsNum :=
  if 0 ≤ e then roundToDouble (decide (m < 0)) (m.natAbs * 10 ^ e.toNat) 1
  else roundToDouble (decide (m < 0)) m.natAbs (10 ^ (-e).toNat)

/-- An optional exponent part `e[+-]digits` covering the whole rest of the literal. -/
def exponent? : List Char → Option Int
  | [] => some 0
  | c :: cs =>
    if c = 'e' ∨ c = 'E' then
      let (neg, ds) : Bool × List Char :=
        match cs with
        | '+' :: r => (false, r)
        | '-' :: r => (true, r)
        | r => (false, r)
      if ds ≠ [] ∧ ds.all Char.isDigit then
        some (if neg then -(digitsVal ds : Int) else (digitsVal ds : Int))
      else none
    else none

/-- StrUnsignedDecimalLiteral other than `Infinity`: `digits[.digits?][exp]` or
`.digits[exp]`; `none` when the text is not such a literal. The result is the
mantissa and the decimal exponent. -/
def unsignedDecimal? (cs : List Char) : Option (Nat × Int) :=
  let ip := cs.takeWhile Char.isDigit
  let r1 := cs.dropWhile Char.isDigit
  let (fp, r2) : List Char × List Char :=
    match r1 with
    | '.' :: r => (r.takeWhile Char.isDigit, r.dropWhile Char.isDigit)
    | r => ([], r)
  if ip = [] ∧ fp = [] then none
  else
    match exponent? r2 with
    | some e => some (digitsVal (ip ++ fp), e - fp.length)
    | none => none

/-- StringToNumber: the unary `+` applied to a string. The value of the literal is
rounded to the nearest double, also beyond 20 significant digits, where the standard
leaves the last digit to the engine. -/
def stringToNumber (s : String) : JsNum :=
  match trimWhiteSpace s.data with
  | [] => .fin 0 0
  | '0' :: 'x' :: hs =>
    match radixVal? 16 hs with
    | some n => roundToDouble false n 1
    | none => .nan
  | '0' :: 'X' :: hs =>
    match radixVal? 16 hs with
    | some n => roundToDouble false n 1
    | none => .nan
  | '0' :: 'o' :: hs =>
    match radixVal? 8 hs with
    | some n => roundToDouble false n 1
    | none => .nan
  | '0' :: 'O' :: hs =>
    match radixVal? 8 hs with
    | some n => roundToDouble false n 1
    | none => .nan
  | '0' :: 'b' :: hs =>
    match radixVal? 2 hs with
    | some n => roundToDouble false n 1
    | none => .nan
  | '0' :: 'B' :: hs =>
    match radixVal? 2 hs with
    | some n => roundToDouble false n 1
    | none => .nan
  | cs =>
    let (neg, body) : Bool × List Char :=
      match cs with
      | '+' :: r => (false, r)
      | '-' :: r => (true, r)
      | r => (false, r)
    if body = "Infinity".data then .inf neg
    else
      match unsignedDecimal? body with
      | some (m, e) => mkDec (if neg then -(m : Int) else (m : Int)) e
      | none => .nan

/-! ## Object construction -/

/-- Replace the value of the first property named `k`. -/
def replaceProp (k : String) (v : JsVal) : List (String × JsVal) → List (String × JsVal)
  | [] => []
  | (k', v') :: ps => if k' = k then (k', v) :: ps else (k', v') :: replaceProp k v ps

/-- Insert a new property whose key is the array index `i`: array-index keys come first,
in ascending order. -/
def insertIndexKey (i : Nat) (k : String) (v : JsVal) :
    List (String × JsVal) → List (String × JsVal)
  | [] => [(k, v)]
  | (k', v') :: ps =>
    match arrayIndex? k' with
    | some j => if j < i then (k', v') :: insertIndexKey i k v ps else (k, v) :: (k', v') :: ps
    | none => (k, v) :: (k', v') :: ps

/-- Define the own data property `k` of an object: an existing property keeps its
place, a new array-index key is put in ascending position among the index keys, any
other new key goes to the end. -/
def setProp (props : List (String × JsVal)) (k : String) (v : JsVal) : List (String × JsVal) :=
  match lookup k props with
  | some _ => replaceProp k v props
  | none =>
    match arrayIndex? k with
    | some i => insertIndexKey i k v props
    | none => props ++ [(k, v)]

/-- The method `Array.prototype.reduce` with an initial value and a callback that may raise. -/
def reduceE {α β : Type} (f : β → α → Except JsError β) : β → List α → Except JsError β
  | acc, [] => .ok acc
  | acc, x :: xs =>
    match f acc x with
    | .error e => .error e
    | .ok acc' => reduceE f acc' xs

/-- An array element read by destructuring: `undefined` past the end. -/
def fieldAt (fields : List String) (i : Nat) : JsVal :=
  match fields.get? i with
  | some s => .str s
  | none => .undefined

/-! ## `parseSavedGames` (identical in +server.js 10-32 and standalone-server.js 109-131) -/

/-- The reducer of `parseSavedGames`: the callback
`(acc, [id, time, name, game, settings, attempts = 1]) => ({...acc, [id]: {...}})`. -/
def savedGame (acc : List (String × JsVal)) (fields : List String) :
    Except JsError (List (String × JsVal)) := do
  let id := fieldAt fields 0
  let time := fieldAt fields 1
  let name := fieldAt fields 2
  let game := fieldAt fields 3
  let settings := fieldAt fields 4
  -- `attempts = 1`: the default applies when the sixth element is absent
  let attempts : JsVal :=
    match fields.get? 5 with
    | some s => .str s
    | none => .int 1
  -- `const [created, updated] = time.split('>')`
  let parts ←
    match time with
    | .str t => pure (split '>' t)
    | _ => throw JsError.typeError
  let created := fieldAt parts 0
  let updated := fieldAt parts 1
  let key ← id.toStr
  let decoded ← decodeURIComponent (← name.toStr)
  -- `+attempts || 1`
  let count : JsNum :=
    match attempts with
    | .str s => stringToNumber s
    | .num n => n
    | _ => .nan
  return setProp acc key (.obj (
    [("id", id), ("created", created)]
      ++ (if updated.truthy then [("updated", updated)] else [])
      ++ [("name", .str decoded), ("game", game), ("settings", settings),
          ("attempts", (JsVal.num count).or (.int 1))]))

/-- The function `parseSavedGames`. -/
def parseSavedGames (gameData : String) : Except JsError JsVal := do
  if gameData = "" then return .obj []
  let segments := (split ',' gameData).filter fun i => i.data.length ≠ 0
  let acc ← reduceE savedGame [] (segments.map (split '|'))
  return .obj acc

/-! ## `JSON.parse` -/

namespace JSON

/-- Tokens of the JSON grammar. -/
inductive Tok where
  | lbrace | rbrace | lbrack | rbrack | colon | comma
  | str (s : String)
  | num (n : JsNum)
  | true | false | null

/-- Lexer modes: between tokens, or inside a string, a number or a literal name, with
the characters read so far (most recent first); inside a string also the high
surrogate, if any, that the escape just read denotes. -/
inductive LexMode where
  | top
  | str (acc : List Char) (hi : Option Nat)
  | num (acc : List Char)
  | word (acc : List Char)

/-- A JSON number `-?(0|[1-9][0-9]*)(.[0-9]+)?([eE][+-]?[0-9]+)?`. -/
def number? (cs : List Char) : Option JsNum :=
  let (neg, body) : Bool × List Char :=
    match cs with
    | '-' :: r => (true, r)
    | r => (false, r)
  let ip := body.takeWhile Char.isDigit
  let r1 := body.dropWhile Char.isDigit
  if ip = [] ∨ (ip.head? = some '0' ∧ ip.length ≠ 1) then none
  else
    let frac : Option (List Char × List Char) :=
      match r1 with
      | '.' :: r =>
        if r.takeWhile Char.isDigit = [] then none
        else some (r.takeWhile Char.isDigit, r.dropWhile Char.isDigit)
      | r => some ([], r)
    match frac with
    | none => none
    | some (fp, r2) =>
      match exponent? r2 with
      | some e =>
        let m : Int := digitsVal (ip ++ fp)
        some (mkDec (if neg then -m else m) (e - fp.length))
      | none => none

/-- The literal names. -/
def word? (cs : List Char) : Option Tok :=
  if cs = "true".data then some .true
  else if cs = "false".data then some .false
  else if cs = "null".data then some .null
  else none

/-- The character may continue a number token. -/
def isNumChar (c : Char) : Bool :=
  c.isDigit ∨ c = '.' ∨ c = 'e' ∨ c = 'E' ∨ c = '+' ∨ c = '-'

/-- One character read between tokens: white space is skipped, punctuation is a token,
anything else opens a string, a number or a literal name. -/
def startTok (c : Char) : Except JsError (List Tok × LexMode) :=
  if c = ' ' ∨ c = '\t' ∨ c = '\n' ∨ c = '\r' then .ok ([], .top)
  else if c = '{' then .ok ([.lbrace], .top)
  else if c = '}' then .ok ([.rbrace], .top)
  else if c = '[' then .ok ([.lbrack], .top)
  else if c = ']' then .ok ([.rbrack], .top)
  else if c = ':' then .ok ([.colon], .top)
  else if c = ',' then .ok ([.comma], .top)
  else if c = '"' then .ok ([], .str [] none)
  else if c = '-' ∨ c.isDigit then .ok ([], .num [c])
  else if c.isLower then .ok ([], .word [c])
  else .error .syntaxError

/-- The character denoted by a one-letter escape. -/
def escape? (c : Char) : Option Char :=
  if c = '"' then some '"'
  else if c = '\\' then some '\\'
  else if c = '/' then some '/'
  else if c = 'b' then some (Char.ofNat 8)
  else if c = 'f' then some (Char.ofNat 12)
  else if c = 'n' then some '\n'
  else if c = 'r' then some '\r'
  else if c = 't' then some '\t'
  else none

/-- Value of four hexadecimal digits. -/
def hex4? (a b c d : Char) : Option Nat :=
  match hexVal? a, hexVal? b, hexVal? c, hexVal? d with
  | some w, some x, some y, some z => some (((w * 16 + x) * 16 + y) * 16 + z)
  | _, _, _, _ => none

/-- The lexer. Inside a string, `hi` is a high surrogate given by the `\u` escape just
read: a `\u` escape of a low surrogate directly after it completes the code point the
two encode. An unpaired surrogate escape, which a sequence of scalar values cannot
hold, is read as U+FFFD. -/
def lex : LexMode → List Char → Except JsError (List Tok)
  | .top, [] => .ok []
  | .top, c :: cs =>
    match startTok c with
    | .error e => .error e
    | .ok (ts, m) =>
      match lex m cs with
      | .error e => .error e
      | .ok rest => .ok (ts ++ rest)
  | .str _ _, [] => .error .syntaxError
  | .str acc hi, c :: cs =>
    let acc' := if hi.isSome then Char.ofNat 0xFFFD :: acc else acc
    if c = '"' then
      match lex .top cs with
      | .error e => .error e
      | .ok rest => .ok (.str ⟨acc'.reverse⟩ :: rest)
    else if c = '\\' then
      match cs with
      | 'u' :: h1 :: h2 :: h3 :: h4 :: rest =>
        match hex4? h1 h2 h3 h4 with
        | none => .error .syntaxError
        | some u =>
          if 0xD800 ≤ u ∧ u ≤ 0xDBFF then lex (.str acc' (some u)) rest
          else if 0xDC00 ≤ u ∧ u ≤ 0xDFFF then
            match hi with
            | some h =>
              lex (.str (Char.ofNat (0x10000 + (h - 0xD800) * 0x400 + (u - 0xDC00)) :: acc) none)
                rest
            | none => lex (.str (Char.ofNat 0xFFFD :: acc) none) rest
          else lex (.str (Char.ofNat u :: acc') none) rest
      | e :: rest =>
        match escape? e with
        | none => .error .syntaxError
        | some x => lex (.str (x :: acc') none) rest
      | [] => .error .syntaxError
    else if c.toNat < 0x20 then .error .syntaxError
    else lex (.str (c :: acc') none) cs
  | .num acc, [] =>
    match number? acc.reverse with
    | some n => .ok [.num n]
    | none => .error .syntaxError
  | .num acc, c :: cs =>
    if isNumChar c then lex (.num (c :: acc)) cs
    else
      match number? acc.reverse, startTok c with
      | some n, .ok (ts, m) =>
        match lex m cs with
        | .error e => .error e
        | .ok rest => .ok (.num n :: ts ++ rest)
      | _, _ => .error .syntaxError
  | .word acc, [] =>
    match word? acc.reverse with
    | some t => .ok [t]
    | none => .error .syntaxError
  | .word acc, c :: cs =>
    if c.isLower then lex (.word (c :: acc)) cs
    else
      match word? acc.reverse, startTok c with
      | some t, .ok (ts, m) =>
        match lex m cs with
        | .error e => .error e
        | .ok rest => .ok (t :: ts ++ rest)
      | _, _ => .error .syntaxError

/-- An enclosing container under construction: the elements of an array read so far,
or the members of an object read so far together with the key whose value is open. -/
inductive Frame where
  | arr (elems : List JsVal)
  | obj (members : List (String × JsVal)) (key : String)

/-- Parser states: what may come next, with the enclosing containers. -/
inductive PState where
  | value (stack : List Frame)
  | arrStart (stack : List Frame)
  | arrNext (elems : List JsVal) (stack : List Frame)
  | objStart (stack : List Frame)
  | objKey (members : List (String × JsVal)) (stack : List Frame)
  | objColon (members : List (String × JsVal)) (key : String) (stack : List Frame)
  | objNext (members : List (String × JsVal)) (stack : List Frame)
  | done (v : JsVal)

/-- A value is complete: it is the result, or goes into the innermost container. -/
def complete (v : JsVal) : List Frame → PState
  | [] => .done v
  | .arr elems :: stack => .arrNext (elems ++ [v]) stack
  | .obj members key :: stack => .objNext (setProp members key v) stack

/-- A token where a value must start. -/
def startValue (stack : List Frame) : Tok → Except JsError PState
  | .str s => .ok (complete (.str s) stack)
  | .num n => .ok (complete (.num n) stack)
  | .true => .ok (complete (.bool Bool.true) stack)
  | .false => .ok (complete (.bool Bool.false) stack)
  | .null => .ok (complete .null stack)
  | .lbrack => .ok (.arrStart stack)
  | .lbrace => .ok (.objStart stack)
  | _ => .error .syntaxError

/-- One parser step. -/
def step : PState → Tok → Except JsError PState
  | .value stack, t => startValue stack t
  | .arrStart stack, .rbrack => .ok (complete (.arr []) stack)
  | .arrStart stack, t => startValue (.arr [] :: stack) t
  | .arrNext elems stack, .comma => .ok (.value (.arr elems :: stack))
  | .arrNext elems stack, .rbrack => .ok (complete (.arr elems) stack)
  | .objStart stack, .rbrace => .ok (complete (.obj []) stack)
  | .objStart stack, .str k => .ok (.objColon [] k stack)
  | .objKey members stack, .str k => .ok (.objColon members k stack)
  | .objColon members k stack, .colon => .ok (.value (.obj members k :: stack))
  | .objNext members stack, .comma => .ok (.objKey members stack)
  | .objNext members stack, .rbrace => .ok (complete (.obj members) stack)
  | _, _ => .error .syntaxError

/-- The function `JSON.parse` (without reviver): a SyntaxError unless the text is
exactly one JSON value. -/
def parse (text : String) : Except JsError JsVal :=
  match lex .top text.data with
  | .error e => .error e
  | .ok toks =>
    match reduceE step (.value []) toks with
    | .ok (.done v) => .ok v
    | _ => .error .syntaxError

end JSON

/-! ## `readGameData` (identical in +server.js 35-43 and standalone-server.js 133-141) -/

/-- The function `readGameData`: `{}` for a falsy payload, for a payload that is not a
string and for text that `JSON.parse` rejects. -/
def readGameData (payload : JsVal) : JsVal :=
  if !payload.truthy then .obj []
  else
    match payload with
    | .str s =>
      match JSON.parse s with
      | .ok v => v
      | .error _ => .obj []
    | _ => .obj []

/-! ## Vocabulary of the statements -/

/-- Property read that yields `undefined` where `getProp` raises. -/
def propOf (v : JsVal) (k : String) : JsVal :=
  match getProp v k with
  | .ok x => x
  | .error _ => .undefined

/-- The entry has a species: its `pokemon` is truthy. -/
def hasSpecies (entry : JsVal) : Bool := (propOf entry "pokemon").truthy

/-- The entry's `status` is the number `c`. -/
def statusIs (entry : JsVal) (c : Int) : Bool := (propOf entry "status").isInt c

/-- The location id `id` resolves, in the location map, to an entry that has a species
and is not dead. -/
def teamEligible (props : List (String × JsVal)) (id : String) : Bool :=
  match lookup id props with
  | some entry => hasSpecies entry && !statusIs entry 5
  | none => false

/-- The record `r` of a view is listed under the location id `id`. -/
def listedAs (r : JsVal) (id : String) : Prop := propOf r "locationId" = .str id

/-- The value, the same in both files, that the `team.map` callback returns for the
location id `id` of the snapshot `props`. -/
def teamRecord (props : List (String × JsVal)) (id : String) : JsVal :=
  let pokemon := (lookup id props).getD .undefined
  if hasSpecies pokemon then
    .obj [
      ("locationId", .str id),
      ("pokemon", propOf pokemon "pokemon"),
      ("name", (propOf pokemon "name").or (propOf pokemon "pokemon")),
      ("level", (propOf pokemon "level").or (.int 1)),
      ("status", (propOf pokemon "status").or (.int 1)),
      ("nature", propOf pokemon "nature"),
      ("ability", propOf pokemon "ability"),
      ("moves", (propOf pokemon "moves").or (.arr [])),
      ("types", (propOf pokemon "types").or (.arr [])),
      ("stats", (propOf pokemon "stats").or (.obj [])),
      ("nickname", propOf pokemon "nickname")]
  else .null

/-! ## Sample snapshots -/

/-- A snapshot with two listed locations, the second of them dead, and a missed one:
`{"__team":["a","b","c"], "a":{…status:1}, "b":{…status:5, death:{…}}, "c":{…status:4}}`. -/
def sampleSnapshot : List (String × JsVal) := [
  ("__team", .arr [.str "a", .str "b", .str "c"]),
  ("a", .obj [("pokemon", .str "mudkip"), ("status", .int 1)]),
  ("b", .obj [("pokemon", .str "zigzagoon"), ("status", .int 5),
    ("death", .obj [("type", .str "boss")])]),
  ("c", .obj [("pokemon", .str "wurmple"), ("status", .int 4)])]

/-- The snapshot of the spec's example: `__team = ["a","b"]`, `a` at status 1 and `b` at
status 5. -/
def deadInTeam : JsVal := .obj [
  ("__team", .arr [.str "a", .str "b"]),
  ("a", .obj [("pokemon", .str "mudkip"), ("status", .int 1)]),
  ("b", .obj [("pokemon", .str "zigzagoon"), ("status", .int 5)])]

/-- The entry's status is one of the `Available` codes 1, 2, 3, 6. -/
def statusAvailable (entry : JsVal) : Prop :=
  statusIs entry 1 = true ∨ statusIs entry 2 = true ∨ statusIs entry 3 = true ∨
    statusIs entry 6 = true

/-- The outcome `view` of a Box extraction over the snapshot `props` is a sequence that
lists a location id if and only if the id's map entry has a species and an `Available`
status. -/
def ListsExactlyAvailable (view : Except JsError (List JsVal)) (props : List (String × JsVal)) :
    Prop :=
  ∃ rs, view = .ok rs ∧ ∀ id : String,
    ((∃ r ∈ rs, listedAs r id) ↔
      ∃ entry, (id, entry) ∈ props ∧ hasSpecies entry = true ∧ statusAvailable entry)

/-- The record list `rs` of a view lists the location id `id`. -/
def Lists (rs : List JsVal) (id : String) : Prop := ∃ r ∈ rs, listedAs r id

/-- Status-code partitioning of the Box outcome `box` and the Graveyard outcome `dead`
over the snapshot `props`: both are sequences; an entry with a species and status 5 is
in the Graveyard and not in the Box; the Graveyard holds only entries of status 5; no
location id is in both. -/
def PartitionsBoxAndGraveyard (box dead : Except JsError (List JsVal))
    (props : List (String × JsVal)) : Prop :=
  ∃ bs ds, box = .ok bs ∧ dead = .ok ds ∧
    (∀ id entry, (id, entry) ∈ props → hasSpecies entry = true → statusIs entry 5 = true →
      Lists ds id ∧ ¬ Lists bs id) ∧
    (∀ id, Lists ds id → ∃ entry, (id, entry) ∈ props ∧ statusIs entry 5 = true) ∧
    (∀ id, ¬ (Lists bs id ∧ Lists ds id))

/-- Placement of the location id `id`, whose entry is `entry`, in the outcomes of the
three views of one file over a snapshot whose `__team` is `ids`: all three are
sequences; the id is in neither the Box nor the Graveyard; it is in the Team exactly
when it is listed in `__team` and its entry has a species. -/
def OnlyInTeamIfListed (team box dead : Except JsError (List JsVal)) (ids : List String)
    (id : String) (entry : JsVal) : Prop :=
  ∃ ts bs ds, team = .ok ts ∧ box = .ok bs ∧ dead = .ok ds ∧
    ¬ Lists bs id ∧ ¬ Lists ds id ∧ (Lists ts id ↔ id ∈ ids ∧ hasSpecies entry = true)

/-- The part of a time field before its first `>` (all of it when there is none). -/
def createdPart (time : String) : String := ⟨time.data.takeWhile (· != '>')⟩

/-- The part of a time field between its first `>` and the next one, or the end (empty
when there is no `>`). -/
def updatedPart (time : String) : String :=
  ⟨((time.data.dropWhile (· != '>')).drop 1).takeWhile (· != '>')⟩

/-- The run-index entry with the six given fields. -/
def runEntry (id time name game settings attempts : String) : String :=
  id ++ "|" ++ time ++ "|" ++ name ++ "|" ++ game ++ "|" ++ settings ++ "|" ++ attempts

/-- The field contains neither a comma nor a pipe. -/
@[reducible]
def plainField (f : String) : Prop := ',' ∉ f.data ∧ '|' ∉ f.data

/-- The record that `parseSavedGames` stores for an entry whose name decodes to
`decoded` and whose `attempts` evaluates to `attempts`: `updated` is present only when
the text after the first `>` of the time field is not empty. -/
def savedRecord (id time decoded : String) (game settings attempts : JsVal) : JsVal :=
  .obj ([("id", .str id), ("created", .str (createdPart time))]
    ++ (if updatedPart time = "" then [] else [("updated", .str (updatedPart time))])
    ++ [("name", .str decoded), ("game", game), ("settings", settings),
        ("attempts", attempts)])

/-- The run-index entry with five fields, the `attempts` field being omitted. -/
def runEntryNoAttempts (id time name game settings : String) : String :=
  id ++ "|" ++ time ++ "|" ++ name ++ "|" ++ game ++ "|" ++ settings

/-- The run index that consists of the one entry `entry` parses to a mapping with the
single key `id`, whose record has `attempts` equal to `a`. -/
def AttemptsOf (entry id : String) (a : JsVal) : Prop :=
  ∃ r, parseSavedGames entry = .ok (.obj [(id, r)]) ∧ propOf r "attempts" = a

/-- The non-empty comma-delimited segments of a run index. -/
def segments (s : String) : List String :=
  (split ',' s).filter fun i => i.data.length ≠ 0

/-- The text that `decodeURIComponent` receives for the fields of a segment: the third
field, or `"undefined"` when there is none. -/
def nameText (fields : List String) : String :=
  match fields.get? 2 with
  | some n => n
  | none => "undefined"

/-- The fields are those of a segment that the reducer accepts: there is a time field
(the segment contains a `|`) and the name percent-decodes. -/
def acceptedFields (fields : List String) : Bool :=
  decide (2 ≤ fields.length) &&
    match decodeURIComponent (nameText fields) with
    | .ok _ => true
    | .error _ => false

/-- The segment is one that the reducer accepts. -/
def accepted (seg : String) : Bool := acceptedFields (split '|' seg)

/-- The id of a segment: its first field. -/
def segmentId (seg : String) : String := ((split '|' seg).head?).getD ""

/-- The snapshot is a mapping on which the views do not raise: no entry is null or
undefined, `__team` is falsy or a list of location ids, and `__teams` is falsy or a
list without null or undefined elements. -/
def WellShaped (props : List (String × JsVal)) : Prop :=
  (∀ e ∈ props, e.2.nullish = false) ∧
  ((propOf (.obj props) "__team").truthy = false ∨
    ∃ ids : List String, lookup "__team" props = some (.arr (ids.map JsVal.str))) ∧
  ((propOf (.obj props) "__teams").truthy = false ∨
    ∃ bosses : List JsVal, lookup "__teams" props = some (.arr bosses) ∧
      ∀ b ∈ bosses, b.nullish = false)

/-- Each of the four views, in both files, returns a sequence on `data`. -/
def ViewsReturn (data : JsVal) : Prop :=
  (∃ rs, Route.extractTeamData data = .ok rs) ∧
  (∃ rs, Route.extractBoxData data = .ok rs) ∧
  (∃ rs, Route.extractDeadData data = .ok rs) ∧
  (∃ rs, Route.extractBossTeams data = .ok rs) ∧
  (∃ rs, Standalone.extractTeamData data = .ok rs) ∧
  (∃ rs, Standalone.extractBoxData data = .ok rs) ∧
  (∃ rs, Standalone.extractDeadData data = .ok rs) ∧
  (∃ rs, Standalone.extractBossTeams data = .ok rs)

/-- Each of the four views, in both files, returns the empty sequence on `data`. -/
def ViewsEmpty (data : JsVal) : Prop :=
  Route.extractTeamData data = .ok [] ∧ Route.extractBoxData data = .ok [] ∧
  Route.extractDeadData data = .ok [] ∧ Route.extractBossTeams data = .ok [] ∧
  Standalone.extractTeamData data = .ok [] ∧ Standalone.extractBoxData data = .ok [] ∧
  Standalone.extractDeadData data = .ok [] ∧ Standalone.extractBossTeams data = .ok []

/-! ## `JSON.stringify` -/

namespace JSON

/-- The lower-case hexadecimal digit of a number below 16. -/
def hexDigit (n : Nat) : Char :=
  if n < 10 then Char.ofNat (48 + n) else Char.ofNat (87 + n)

/-- QuoteJSONString on one character: the quote, the backslash and the control
characters are escaped. -/
def escapeChar (c : Char) : List Char :=
  if c = '"' then ['\\', '"']
  else if c = '\\' then ['\\', '\\']
  else if c.toNat = 8 then ['\\', 'b']
  else if c.toNat = 9 then ['\\', 't']
  else if c.toNat = 10 then ['\\', 'n']
  else if c.toNat = 12 then ['\\', 'f']
  else if c.toNat = 13 then ['\\', 'r']
  else if c.toNat < 0x20 then
    ['\\', 'u', '0', '0', hexDigit (c.toNat / 16), hexDigit (c.toNat % 16)]
  else [c]

/-- The escaped characters of a string. -/
def escape : List Char → List Char
  | [] => []
  | c :: cs => escapeChar c ++ escape cs

/-- QuoteJSONString. -/
def quote (s : String) : List Char := '"' :: (escape s.data ++ ['"'])

/-- Join texts with commas. -/
def commaJoin : List (List Char) → List Char
  | [] => []
  | [t] => t
  | t :: u :: rest => t ++ ',' :: commaJoin (u :: rest)

mutual
/-- SerializeJSONProperty without indentation: `none` stands for `undefined`. A
number that is not finite is written `null`. -/
def serialize : JsVal → Option (List Char)
  | .undefined => none
  | .null => some "null".data
  | .bool b => some (if b then "true".data else "false".data)
  | .num n =>
    match n with
    | .fin _ _ => some n.toString.data
    | _ => some "null".data
  | .str s => some (quote s)
  | .arr xs => some ('[' :: (commaJoin (serializeElems xs) ++ [']']))
  | .obj props => some ('{' :: (commaJoin (serializeMembers props) ++ ['}']))
/-- The texts of the elements of an array: `undefined` is written `null`. -/
def serializeElems : List JsVal → List (List Char)
  | [] => []
  | x :: xs => (serialize x).getD "null".data :: serializeElems xs
/-- The texts `"key":value` of the properties of an object: a property whose value is
`undefined` is left out. -/
def serializeMembers : List (String × JsVal) → List (List Char)
  | [] => []
  | (k, v) :: ps =>
    match serialize v with
    | some t => (quote k ++ ':' :: t) :: serializeMembers ps
    | none => serializeMembers ps
end

/-- The function `JSON.stringify` with one argument: a string, or `undefined`. -/
def stringify (v : JsVal) : JsVal :=
  match serialize v with
  | some t => .str ⟨t⟩
  | none => .undefined

end JSON

/-- Strict equality `a === b`. Objects and arrays are equal only to themselves by
identity, which this model does not track: the embedded code never compares them. -/
def strictEq : JsVal → JsVal → Bool
  | .undefined, .undefined => true
  | .null, .null => true
  | .bool a, .bool b => a == b
  | .num a, .num b =>
    match a, b with
    | .fin m k, .fin m' k' => m * 10 ^ k' == m' * 10 ^ k
    | .inf s, .inf s' => s == s'
    | _, _ => false
  | .str a, .str b => a == b
  | _, _ => false

/-! ## Request handling -/

/-- What a handler answers: `json(body, { status })`, or the status-500 reply
`{ error: 'Internal server error', message: error.message }` of the `catch` block for
the exception `e` (the text of `error.message` is the engine's and is not modelled). -/
inductive Reply where
  | json (status : Nat) (body : JsVal)
  | internalError (e : JsError)

/-- The function `Object.keys`. -/
def objectKeys (v : JsVal) : Except JsError (List JsVal) :=
  match objectEntries v with
  | .ok entries => .ok (entries.map fun e => .str e.1)
  | .error e => .error e

/-- The function `Object.values`. -/
def objectValues (v : JsVal) : Except JsError (List JsVal) :=
  match objectEntries v with
  | .ok entries => .ok (entries.map fun e => e.2)
  | .error e => .error e

/-- A property that a plain object inherits from `Object.prototype`, as far as the
handlers read it: a method is seen through its `name` only, and `__proto__` is the
prototype object, which has none of the properties read. -/
def inheritedProp (k : String) : Option JsVal :=
  if k = "constructor" then some (.obj [("name", .str "Object")])
  else if k = "__proto__" then some (.obj [])
  else if k ∈ ["__defineGetter__", "__defineSetter__", "hasOwnProperty", "__lookupGetter__",
      "__lookupSetter__", "isPrototypeOf", "propertyIsEnumerable", "toString", "valueOf",
      "toLocaleString"] then
    some (.obj [("name", .str k)])
  else none

/-- The read `savesData[activeGameId]` on the plain object that `parseSavedGames`
returns: an own property, else an inherited one, else `undefined`. -/
def lookupRun (savesData key : JsVal) : Except JsError JsVal := do
  let k ← key.toStr
  match savesData with
  | .obj props =>
    match lookup k props with
    | some v => return v
    | none => return (inheritedProp k).getD .undefined
  | v => getProp v k

/-- The expression `searchParams.get('endpoint') || 'status'`. -/
def endpointOf (param : Option String) : String :=
  match param with
  | some e => if e = "" then "status" else e
  | none => "status"

/-- A request parameter or header that may be absent (`null`). -/
def optStr : Option String → JsVal
  | some s => .str s
  | none => .null

/-- The callback `p => p.pokemon && [1, 2, 3, 6].includes(p.status)` of the
`totalCaught` statistic, as `filter` reads it. -/
def caughtTest (p : JsVal) : Except JsError Bool := do
  let species ← getProp p "pokemon"
  if !species.truthy then return false
  let status ← getProp p "status"
  return ([1, 2, 3, 6] : List Int).any fun c => status.isInt c

namespace Route

/-- The object of `case 'status'` (+server.js 169-181). -/
def statusBody (activeGameId gameMetadata gameData : JsVal) : Except JsError JsVal := do
  return .obj [
    ("gameId", activeGameId),
    ("gameName", ← getProp gameMetadata "name"),
    ("gameVersion", ← getProp gameMetadata "game"),
    ("created", ← getProp gameMetadata "created"),
    ("updated", ← getProp gameMetadata "updated"),
    ("attempts", ← getProp gameMetadata "attempts"),
    ("team", .arr (← extractTeamData gameData)),
    ("teamCount", ← getProp ((← getProp gameData "__team").or (.arr [])) "length"),
    ("boxCount", .int (← extractBoxData gameData).length),
    ("deadCount", .int (← extractDeadData gameData).length),
    ("starter", (← getProp gameData "__starter").or (.str "unknown"))]

/-- The object `stats` of `case 'full'` (+server.js 220-225). -/
def statsBody (gameData : JsVal) : Except JsError JsVal := do
  return .obj [
    ("teamCount", ← getProp ((← getProp gameData "__team").or (.arr [])) "length"),
    ("boxCount", .int (← extractBoxData gameData).length),
    ("deadCount", .int (← extractDeadData gameData).length),
    ("totalCaught", .int (← filterE caughtTest (← objectValues gameData)).length)]

/-- The object of `case 'full'` (+server.js 208-226). -/
def fullBody (activeGameId gameMetadata gameData : JsVal) : Except JsError JsVal := do
  return .obj [
    ("gameId", activeGameId),
    ("gameName", ← getProp gameMetadata "name"),
    ("gameVersion", ← getProp gameMetadata "game"),
    ("created", ← getProp gameMetadata "created"),
    ("updated", ← getProp gameMetadata "updated"),
    ("attempts", ← getProp gameMetadata "attempts"),
    ("starter", (← getProp gameData "__starter").or (.str "unknown")),
    ("team", .arr (← extractTeamData gameData)),
    ("box", .arr (← extractBoxData gameData)),
    ("dead", .arr (← extractDeadData gameData)),
    ("bosses", .arr (← extractBossTeams gameData)),
    ("stats", ← statsBody gameData)]

/-- The object that the `switch` statement (+server.js 167-233) passes to `json` for a
valid endpoint, `none` for any other endpoint. -/
def endpointBody (activeGameId gameMetadata gameData : JsVal) (endpoint : String) :
    Option (Except JsError JsVal) :=
  if endpoint = "status" then some (statusBody activeGameId gameMetadata gameData)
  else if endpoint = "team" then some (do
    return .obj [
      ("gameId", activeGameId),
      ("team", .arr (← extractTeamData gameData))])
  else if endpoint = "box" then some (do
    return .obj [
      ("gameId", activeGameId),
      ("box", .arr (← extractBoxData gameData))])
  else if endpoint = "dead" then some (do
    return .obj [
      ("gameId", activeGameId),
      ("dead", .arr (← extractDeadData gameData))])
  else if endpoint = "bosses" then some (do
    return .obj [
      ("gameId", activeGameId),
      ("bosses", .arr (← extractBossTeams gameData))])
  else if endpoint = "full" then some (fullBody activeGameId gameMetadata gameData)
  else none

/-- The `switch` statement of `GET` (+server.js 167-233). -/
def switchEndpoint (activeGameId gameMetadata gameData : JsVal) (endpoint : String) :
    Except JsError Reply :=
  match endpointBody activeGameId gameMetadata gameData endpoint with
  | some body =>
    match body with
    | .ok object => .ok (.json 200 object)
    | .error e => .error e
  | none =>
    .ok (.json 400 (.obj [
      ("error", .str "Invalid endpoint"),
      ("availableEndpoints", .arr [.str "status", .str "team", .str "box", .str "dead",
        .str "bosses", .str "full"])]))

/-- The `try` block of `GET` (+server.js 151-233). -/
def tryBlock (gameId : JsVal) (endpoint gameDataHeader savesDataHeader : String) :
    Except JsError Reply := do
  let gameData := readGameData (.str gameDataHeader)
  let savesData ← parseSavedGames savesDataHeader
  let keys ← objectKeys savesData
  let activeGameId := gameId.or (keys.head?.getD .undefined)
  let gameMetadata ← lookupRun savesData activeGameId
  if !gameMetadata.truthy then
    return .json 404 (.obj [
      ("error", .str "Game not found"),
      ("availableGames", .arr keys)])
  switchEndpoint activeGameId gameMetadata gameData endpoint

/-- The handler `GET` (+server.js 127-242), from the two query parameters and the two
headers, each of which may be absent. -/
def GET (gameId endpointParam gameDataHeader savesDataHeader : Option String) : Reply :=
  let endpoint := endpointOf endpointParam
  if !(optStr gameDataHeader).truthy || !(optStr savesDataHeader).truthy then
    .json 400 (.obj [
      ("error", .str "Missing game data. Please provide x-game-data and x-saves-data headers."),
      ("help", .str "These headers should contain the localStorage data for the active game.")])
  else
    match tryBlock (optStr gameId) endpoint (gameDataHeader.getD "") (savesDataHeader.getD "") with
    | .ok reply => reply
    | .error e => .internalError e

end Route

namespace Standalone

/-- The variable `realTimeData` of standalone-server.js (17-22). -/
structure RealTimeData where
  gameData : JsVal
  savesData : JsVal
  lastUpdate : JsVal
  lastDataHash : JsVal

/-- The initial value of `realTimeData`. -/
def RealTimeData.initial : RealTimeData :=
  { gameData := .null, savesData := .null, lastUpdate := .null, lastDataHash := .null }

/-- The object literal serialized into `fallbackGameData` (standalone-server.js 36-104). -/
def mockGameData : JsVal := .obj [
  ("__team", .arr [.str "route_103", .str "route_102"]),
  ("__teams", .arr [.obj [
    ("id", .str "gym_1"),
    ("name", .str "Roxanne"),
    ("type", .str "rock"),
    ("group", .str "gym"),
    ("team", .arr [
      .obj [("sprite", .str "geodude"), ("id", .str "route_103")],
      .obj [("sprite", .str "nosepass"), ("id", .str "route_102")]])]]),
  ("__starter", .str "fire"),
  ("__custom", .arr []),
  ("route_103", .obj [
    ("pokemon", .str "blaziken"),
    ("name", .str "Blaziken"),
    ("level", .int 45),
    ("status", .int 1),
    ("nature", .str "adamant"),
    ("ability", .str "blaze"),
    ("moves", .arr [.str "flamethrower", .str "sky_uppercut", .str "slash", .str "focus_energy"]),
    ("types", .arr [.str "fire", .str "fighting"]),
    ("stats", .obj [("hp", .int 156), ("atk", .int 142), ("def", .int 89), ("spa", .int 120),
      ("spd", .int 89), ("spe", .int 100)]),
    ("nickname", .str "Flamebird")]),
  ("route_102", .obj [
    ("pokemon", .str "swellow"),
    ("name", .str "Swellow"),
    ("level", .int 42),
    ("status", .int 1),
    ("types", .arr [.str "normal", .str "flying"])]),
  ("route_104", .obj [
    ("pokemon", .str "gardevoir"),
    ("name", .str "Gardevoir"),
    ("level", .int 44),
    ("status", .int 5),
    ("types", .arr [.str "psychic", .str "fairy"]),
    ("death", .obj [
      ("type", .str "boss"),
      ("trainer", .obj [("name", .str "Norman"), ("type", .str "Gym Leader"),
        ("speciality", .str "normal")]),
      ("opponent", .obj [("name", .str "Slaking"), ("types", .arr [.str "normal"])]),
      ("attack", .obj [("name", .str "Facade"), ("type", .str "normal")]),
      ("location", .obj [("name", .str "Petalburg Gym")])])]),
  ("route_105", .obj [
    ("pokemon", .str "pikachu"),
    ("name", .str "Pikachu"),
    ("level", .int 25),
    ("status", .int 6),
    ("types", .arr [.str "electric"])])]

/-- The constant `fallbackGameData`. -/
def fallbackGameData : JsVal := JSON.stringify mockGameData

/-- The constant `fallbackSavesData`. -/
def fallbackSavesData : JsVal :=
  .str "abc123|1640995200000>1640999999000|My%20Emerald%20Nuzlocke|emerald|settings|1"

/-- The call `parseSavedGames(savesDataSource)` on whatever value the server holds: a
truthy value that is not a string has no `split` method. -/
def parseSavesSource (source : JsVal) : Except JsError JsVal :=
  if !source.truthy then .ok (.obj [])
  else
    match source with
    | .str s => parseSavedGames s
    | _ => .error .typeError

/-- The field `_meta` of every response. -/
def metaInfo (realTimeData : RealTimeData) : JsVal :=
  .obj [
    ("dataSource", if !strictEq realTimeData.gameData .null then .str "real" else .str "mock"),
    ("lastUpdate", realTimeData.lastUpdate)]

/-- The object of `case 'status'` (standalone-server.js 312-328). -/
def statusBody (realTimeData : RealTimeData) (activeGameId gameMetadata gameData : JsVal) :
    Except JsError JsVal := do
  return .obj [
    ("gameId", activeGameId),
    ("gameName", ← getProp gameMetadata "name"),
    ("gameVersion", ← getProp gameMetadata "game"),
    ("created", ← getProp gameMetadata "created"),
    ("updated", ← getProp gameMetadata "updated"),
    ("attempts", ← getProp gameMetadata "attempts"),
    ("team", .arr (← extractTeamData gameData)),
    ("teamCount", ← getProp ((← getProp gameData "__team").or (.arr [])) "length"),
    ("boxCount", .int (← extractBoxData gameData).length),
    ("deadCount", .int (← extractDeadData gameData).length),
    ("starter", (← getProp gameData "__starter").or (.str "unknown")),
    ("_meta", metaInfo realTimeData)]

/-- The object `stats` of `case 'full'` (standalone-server.js 388-393). -/
def statsBody (gameData : JsVal) : Except JsError JsVal := do
  return .obj [
    ("teamCount", ← getProp ((← getProp gameData "__team").or (.arr [])) "length"),
    ("boxCount", .int (← extractBoxData gameData).length),
    ("deadCount", .int (← extractDeadData gameData).length),
    ("totalCaught", .int (← filterE caughtTest (← objectValues gameData)).length)]

/-- The object of `case 'full'` (standalone-server.js 376-398). -/
def fullBody (realTimeData : RealTimeData) (activeGameId gameMetadata gameData : JsVal) :
    Except JsError JsVal := do
  return .obj [
    ("gameId", activeGameId),
    ("gameName", ← getProp gameMetadata "name"),
    ("gameVersion", ← getProp gameMetadata "game"),
    ("created", ← getProp gameMetadata "created"),
    ("updated", ← getProp gameMetadata "updated"),
    ("attempts", ← getProp gameMetadata "attempts"),
    ("starter", (← getProp gameData "__starter").or (.str "unknown")),
    ("team", .arr (← extractTeamData gameData)),
    ("box", .arr (← extractBoxData gameData)),
    ("dead", .arr (← extractDeadData gameData)),
    ("bosses", .arr (← extractBossTeams gameData)),
    ("stats", ← statsBody gameData),
    ("_meta", metaInfo realTimeData)]

/-- The `switch` statement of the API branch (standalone-server.js 310-407): the value it
gives to `response`. -/
def switchEndpoint (realTimeData : RealTimeData) (activeGameId gameMetadata gameData : JsVal)
    (endpoint : String) : Except JsError JsVal :=
  if endpoint = "status" then statusBody realTimeData activeGameId gameMetadata gameData
  else if endpoint = "team" then do
    return .obj [
      ("gameId", activeGameId),
      ("team", .arr (← extractTeamData gameData)),
      ("_meta", metaInfo realTimeData)]
  else if endpoint = "box" then do
    return .obj [
      ("gameId", activeGameId),
      ("box", .arr (← extractBoxData gameData)),
      ("_meta", metaInfo realTimeData)]
  else if endpoint = "dead" then do
    return .obj [
      ("gameId", activeGameId),
      ("dead", .arr (← extractDeadData gameData)),
      ("_meta", metaInfo realTimeData)]
  else if endpoint = "bosses" then do
    return .obj [
      ("gameId", activeGameId),
      ("bosses", .arr (← extractBossTeams gameData)),
      ("_meta", metaInfo realTimeData)]
  else if endpoint = "full" then fullBody realTimeData activeGameId gameMetadata gameData
  else
    return .obj [
      ("error", .str "Invalid endpoint"),
      ("availableEndpoints", .arr [.str "status", .str "team", .str "box", .str "dead",
        .str "bosses", .str "full"])]

/-- The value of `response` that the API branch of the request handler builds
(standalone-server.js 295-407), or the exception that takes it to the `catch` block.
What the handler then writes to the socket is not modelled. -/
def response (realTimeData : RealTimeData) (endpointParam : Option String) :
    Except JsError JsVal := do
  let endpoint := endpointOf endpointParam
  let gameDataSource := realTimeData.gameData.or fallbackGameData
  let savesDataSource := realTimeData.savesData.or fallbackSavesData
  let gameData := readGameData gameDataSource
  let savesData ← parseSavesSource savesDataSource
  let keys ← objectKeys savesData
  let activeGameId := keys.head?.getD .undefined
  let gameMetadata ← lookupRun savesData activeGameId
  switchEndpoint realTimeData activeGameId gameMetadata gameData endpoint

/-- The handler of `POST /api/update-data` (standalone-server.js 262-291) on a request
body, at the time stamp `now`: the new value of `realTimeData` and the reply. -/
def updateData (realTimeData : RealTimeData) (now body : String) : RealTimeData × Reply :=
  let fields : Except JsError (JsVal × JsVal) := do
    let parsed ← JSON.parse body
    let gameData ← getProp parsed "gameData"
    let savesData ← getProp parsed "savesData"
    return (gameData, savesData)
  match fields with
  | .error _ => (realTimeData, .json 400 (.obj [("error", .str "Invalid JSON data")]))
  | .ok (gameData, savesData) =>
    let newDataHash := JSON.stringify (.obj [("gameData", gameData), ("savesData", savesData)])
    let next : RealTimeData :=
      if !strictEq newDataHash realTimeData.lastDataHash then
        { gameData := gameData, savesData := savesData, lastUpdate := .str now,
          lastDataHash := newDataHash }
      else realTimeData
    (next, .json 200 (.obj [("success", .bool true), ("timestamp", next.lastUpdate)]))

end Standalone

/-! ## The browser bridge (external-bridge.js) -/

namespace Bridge

/-- The browser as the bridge sees it: whether `window` is defined, and
`localStorage.getItem`. -/
structure Browser where
  window : Bool
  getItem : String → Option String

/-- The constant `IDS.active`. -/
def IDS.active : String := "nuzlocke"

/-- The constant `IDS.saves`. -/
def IDS.saves : String := "nuzlocke.saves"

/-- The function `IDS.game`: the template string converts an absent id to `"null"`. -/
def IDS.game (id : Option String) : String := "nuzlocke." ++ id.getD "null"

/-- The object that `getCurrentGameData` returns. -/
structure GameData where
  activeGameId : String
  savesData : String
  gameData : String
  parsedGameData : JsVal

/-- The function `getCurrentGameData` (external-bridge.js 21-43): `none` stands for
`null`. -/
def getCurrentGameData (browser : Browser) : Option GameData :=
  if !browser.window then none
  else
    let activeGameId := browser.getItem IDS.active
    let savesData := browser.getItem IDS.saves
    let gameData := browser.getItem (IDS.game activeGameId)
    if !(optStr activeGameId).truthy || !(optStr savesData).truthy || !(optStr gameData).truthy
    then none
    else
      match JSON.parse (gameData.getD "") with
      | .ok parsed =>
        some { activeGameId := activeGameId.getD "", savesData := savesData.getD "",
               gameData := gameData.getD "", parsedGameData := parsed }
      | .error _ => none

/-- A call of `fetch` with the method `POST`. -/
structure Push where
  url : String
  body : JsVal

/-- How a `fetch` settles, as far as `sendToStandaloneServer` reads it: a response with
`response.ok` whose body parses or does not parse as JSON, a response without
`response.ok`, or a rejection. -/
inductive FetchOutcome where
  | ok (bodyParses : Bool)
  | notOk
  | rejected

/-- The function `sendToStandaloneServer` (external-bridge.js 48-83): the `fetch` it
issues, if any, and the boolean it resolves to. -/
def sendToStandaloneServer (browser : Browser) (serverUrl : String) (outcome : FetchOutcome) :
    Option Push × Bool :=
  if !browser.window then (none, false)
  else
    match getCurrentGameData browser with
    | none => (none, false)
    | some data =>
      let push : Push :=
        { url := serverUrl ++ "/api/update-data",
          body := JSON.stringify (.obj [
            ("gameData", .str data.gameData),
            ("savesData", .str data.savesData)]) }
      match outcome with
      | .ok true => (some push, true)
      | _ => (some push, false)

/-- One run of `syncData` in `startStandaloneSync` (external-bridge.js 96-111), from the
value of `lastDataHash`: its new value and the `fetch` issued, if any. -/
def syncData (browser : Browser) (serverUrl : String) (outcome : FetchOutcome)
    (lastDataHash : JsVal) : JsVal × Option Push :=
  match getCurrentGameData browser with
  | none => (lastDataHash, none)
  | some data =>
    let currentDataHash := JSON.stringify (.obj [
      ("gameData", .str data.gameData),
      ("savesData", .str data.savesData)])
    if strictEq currentDataHash lastDataHash then (lastDataHash, none)
    else (currentDataHash, (sendToStandaloneServer browser serverUrl outcome).1)

/-- The runs of `syncData` that `startStandaloneSync` (external-bridge.js 88-128) makes,
the initial one and one per timer tick: each tick is the browser at that time and the
way the `fetch` of that tick, if one is issued, settles. The result lists, tick by tick,
the `fetch` issued. -/
def syncTicks (serverUrl : String) : JsVal → List (Browser × FetchOutcome) → List (Option Push)
  | _, [] => []
  | lastDataHash, (browser, outcome) :: ticks =>
    let step := syncData browser serverUrl outcome lastDataHash
    step.2 :: syncTicks serverUrl step.1 ticks

/-- The function `startStandaloneSync`, over the ticks of its timer: `lastDataHash`
starts as `null`. -/
def startStandaloneSync (serverUrl : String) (ticks : List (Browser × FetchOutcome)) :
    List (Option Push) :=
  syncTicks serverUrl .null ticks

/-- An event dispatched by the emitter: a `CustomEvent` with its type and detail; the
detail of an `error` event is the exception caught. -/
inductive Event where
  | custom (type : String) (detail : JsVal)
  | error (e : JsError)

/-- The method `NuzlockeDataEmitter.checkForUpdates` (external-bridge.js 185-205), from
the value of `this.lastData` and from what `await getExternalData('full')` gives (a
value, `null` when there is no active run, or the exception of a rejection): the new
value of `this.lastData` and the events dispatched, in order. -/
def checkForUpdates (lastData : JsVal) (awaited : Except JsError JsVal) : JsVal × List Event :=
  match awaited with
  | .error e => (lastData, [.error e])
  | .ok currentData =>
    if !currentData.truthy then (lastData, [])
    else
      let dataString := JSON.stringify currentData
      if !strictEq dataString lastData then
        (dataString, [
          .custom "dataUpdate" currentData,
          .custom "teamUpdate" (propOf currentData "team"),
          .custom "statsUpdate" (propOf currentData "stats")])
      else (lastData, [])

/-- A sequence of runs of `checkForUpdates` on a fresh emitter or on one that holds
`lastData`: the events of each run. -/
def observe : JsVal → List (Except JsError JsVal) → List (List Event)
  | _, [] => []
  | lastData, awaited :: rest =>
    let step := checkForUpdates lastData awaited
    step.2 :: observe step.1 rest

end Bridge

/-- The change fingerprint of the sync loop and of the push endpoint:
`JSON.stringify({ gameData, savesData })` on the two raw strings. -/
def fingerprint (gameData savesData : String) : JsVal :=
  JSON.stringify (.obj [("gameData", .str gameData), ("savesData", .str savesData)])

/-- Reading back an escaped string up to its closing quote: the characters it stands
for, and the text after the quote. -/
def unescape : List Char → Option (List Char × List Char)
  | [] => none
  | c :: rest =>
    if c = '"' then some ([], rest)
    else if c = '\\' then
      match rest with
      | [] => none
      | e :: rest' =>
        if e = 'u' then
          match rest' with
          | h1 :: h2 :: h3 :: h4 :: rest'' =>
            match JSON.hex4? h1 h2 h3 h4, unescape rest'' with
            | some n, some (s, r) => some (Char.ofNat n :: s, r)
            | _, _ => none
          | _ => none
        else
          match JSON.escape? e, unescape rest' with
          | some x, some (s, r) => some (x :: s, r)
          | _, _ => none
    else
      match unescape rest with
      | some (s, r) => some (c :: s, r)
      | none => none

namespace Bridge

/-- The raw payload that a tick finds: the pair `(gameData, savesData)` of raw strings,
or nothing when no raw data is available. -/
def payloadOf (browser : Browser) : Option (String × String) :=
  (getCurrentGameData browser).map fun data => (data.gameData, data.savesData)

/-- The claim's rule for the sync loop, stated on payloads: given the payload of the
most recent tick that pushed (`none` before the first push), a tick pushes exactly when
it finds a payload and that payload differs from the remembered one, which it then
replaces. The result tells, tick by tick, whether a push is issued. -/
def pushesSpec : Option (String × String) → List (Option (String × String)) → List Bool
  | _, [] => []
  | last, none :: rest => false :: pushesSpec last rest
  | last, some p :: rest =>
    if last = some p then false :: pushesSpec last rest
    else true :: pushesSpec (some p) rest

/-- The push that carries the payload `p` to the server at `serverUrl`. -/
def CarriesPayload (serverUrl : String) (p : String × String) (push : Push) : Prop :=
  push.url = serverUrl ++ "/api/update-data" ∧ push.body = fingerprint p.1 p.2

end Bridge

namespace Bridge

/-- The value of `lastDataHash` once the payload `last` has been pushed: `null` before
the first push. -/
def hashOf (last : Option (String × String)) : JsVal :=
  match last with
  | none => .null
  | some p => fingerprint p.1 p.2

end Bridge

namespace Bridge

/-- A browser whose storage holds the active run `run1` with the given raw strings. -/
def browserWith (gameData savesData : String) : Browser :=
  { window := true,
    getItem := fun key =>
      if key = "nuzlocke" then some "run1"
      else if key = "nuzlocke.saves" then some savesData
      else if key = "nuzlocke.run1" then some gameData
      else none }

/-- A browser whose storage is empty. -/
def emptyBrowser : Browser := { window := true, getItem := fun _ => none }

/-- An observation of the emitter: what `getExternalData('full')` resolves to, namely
`null` (here `none`) when there is no active run and otherwise the JSON object of the
response. -/
def observed : Option (List (String × JsVal)) → JsVal
  | none => .null
  | some props => .obj props

/-- The serialized data of an observed object: the text of `JSON.stringify`. -/
def serialized (props : List (String × JsVal)) : String :=
  ⟨'{' :: (JSON.commaJoin (JSON.serializeMembers props) ++ ['}'])⟩

/-- The three events of one delivery, in order. -/
def delivery (props : List (String × JsVal)) : List Event :=
  [.custom "dataUpdate" (.obj props),
   .custom "teamUpdate" (propOf (.obj props) "team"),
   .custom "statsUpdate" (propOf (.obj props) "stats")]

/-- The claim's rule for the emitter, stated on serialized data: given the data last
delivered (`none` on a fresh emitter), an observation is delivered exactly when it is
not `null` and its serialized data differs from the data last delivered, which it then
replaces. The result lists the events of each observation. -/
def deliveriesSpec : Option String → List (Option (List (String × JsVal))) → List (List Event)
  | _, [] => []
  | last, none :: rest => [] :: deliveriesSpec last rest
  | last, some props :: rest =>
    if last = some (serialized props) then [] :: deliveriesSpec last rest
    else delivery props :: deliveriesSpec (some (serialized props)) rest

/-- The value of `this.lastData` once `last` has been delivered: `null` on a fresh
emitter. -/
def lastDataOf (last : Option String) : JsVal :=
  match last with
  | none => .null
  | some text => .str text

end Bridge

/-- The six endpoint tags, in the order in which the `default` case lists them. -/
def endpointTags : List String := ["status", "team", "box", "dead", "bosses", "full"]

namespace Route

/-- The request resolves to an existing run: the run index of the `x-saves-data`
header parses, and the run id (the `gameId` parameter if it is truthy, else the first
key of the index) names a truthy value `gameMetadata` of it. -/
def Resolves (gameId : Option String) (savesDataHeader : String)
    (activeGameId gameMetadata : JsVal) : Prop :=
  ∃ savesData keys, parseSavedGames savesDataHeader = .ok savesData ∧
    objectKeys savesData = .ok keys ∧
    activeGameId = (optStr gameId).or (keys.head?.getD .undefined) ∧
    lookupRun savesData activeGameId = .ok gameMetadata ∧
    gameMetadata.truthy = true

end Route

namespace Standalone

/-- The request resolves to an existing run: the run index that the server holds (else
the fallback index) parses, and its first key names a truthy value `gameMetadata`. -/
def Resolves (realTimeData : RealTimeData) (activeGameId gameMetadata : JsVal) : Prop :=
  ∃ savesData keys,
    parseSavesSource (realTimeData.savesData.or fallbackSavesData) = .ok savesData ∧
    objectKeys savesData = .ok keys ∧
    activeGameId = keys.head?.getD .undefined ∧
    lookupRun savesData activeGameId = .ok gameMetadata ∧
    gameMetadata.truthy = true

end Standalone

/-- The text of a snapshot with one creature, which is in the team. -/
def sampleGameText : String :=
  "\x7b\"__team\":[\"a\"],\"a\":\x7b\"pokemon\":\"mudkip\",\"status\":1\x7d\x7d"

/-- The snapshot that `sampleGameText` decodes to. -/
def sampleGame : List (String × JsVal) :=
  [("__team", .arr [.str "a"]), ("a", .obj [("pokemon", .str "mudkip"), ("status", .int 1)])]

/-- The text of a run index with the single run `abc`. -/
def sampleSavesText : String := "abc|1000|My%20Run|emerald|cfg|3"

/-- The record of the run `abc` of `sampleSavesText`. -/
def sampleRun : JsVal :=
  .obj [("id", .str "abc"), ("created", .str "1000"), ("name", .str "My Run"),
    ("game", .str "emerald"), ("settings", .str "cfg"), ("attempts", .int 3)]

/-- The state of the standalone server after it has received the sample texts. -/
def sampleRealTime : Standalone.RealTimeData :=
  { gameData := .str sampleGameText, savesData := .str sampleSavesText,
    lastUpdate := .str "2024-01-01T00:00:00.000Z",
    lastDataHash := fingerprint sampleGameText sampleSavesText }

/-- The text of a snapshot whose only entry has the status 1 and no species. -/
def specieslessText : String := "\x7b\"x\":\x7b\"status\":1\x7d\x7d"

/-- The state of the standalone server after it has received `specieslessText`. -/
def specieslessRealTime : Standalone.RealTimeData :=
  { gameData := .str specieslessText, savesData := .str sampleSavesText,
    lastUpdate := .str "2024-01-01T00:00:00.000Z",
    lastDataHash := fingerprint specieslessText sampleSavesText }

/-- A location map with a caught creature, an entry that has a status and no species,
and a dead creature. -/
def mixedEntries : List (String × JsVal) :=
  [("a", .obj [("pokemon", .str "mudkip"), ("status", .int 1)]),
    ("x", .obj [("status", .int 1)]),
    ("b", .obj [("pokemon", .str "zigzagoon"), ("status", .int 5)])]

/-! ## General lemmas -/

theorem getProp_of_not_nullish {v : JsVal} (h : v.nullish = false) (k : String) :
    getProp v k = .ok (propOf v k) := by
  have hok : ∃ x, getProp v k = .ok x := by
    cases v with
    | undefined => simp [JsVal.nullish] at h
    | null => simp [JsVal.nullish] at h
    | bool b => exact ⟨_, rfl⟩
    | num n => exact ⟨_, rfl⟩
    | str s =>
      simp only [getProp]
      split
      · exact ⟨_, rfl⟩
      · split <;> exact ⟨_, rfl⟩
    | arr xs =>
      simp only [getProp]
      split
      · exact ⟨_, rfl⟩
      · split <;> exact ⟨_, rfl⟩
    | obj props => exact ⟨_, rfl⟩
  obtain ⟨x, hx⟩ := hok
  simp [propOf, hx]

theorem not_nullish_of_truthy {v : JsVal} (h : v.truthy = true) : v.nullish = false := by
  cases v <;> simp_all [JsVal.nullish, JsVal.truthy]

theorem propOf_obj (props : List (String × JsVal)) (k : String) :
    propOf (.obj props) k = (lookup k props).getD .undefined := rfl

theorem filterE_ok {α : Type} {p : α → Except JsError Bool} (q : α → Bool) :
    ∀ xs : List α, (∀ x ∈ xs, p x = .ok (q x)) → filterE p xs = .ok (xs.filter q)
  | [], _ => rfl
  | x :: xs, h => by
    have hx := h x (List.mem_cons_self _ _)
    have ih := filterE_ok q xs fun y hy => h y (List.mem_cons_of_mem _ hy)
    simp only [filterE, hx, ih, List.filter_cons]

theorem mapE_ok {α β : Type} {f : α → Except JsError β} (g : α → β) :
    ∀ xs : List α, (∀ x ∈ xs, f x = .ok (g x)) → mapE f xs = .ok (xs.map g)
  | [], _ => rfl
  | x :: xs, h => by
    have hx := h x (List.mem_cons_self _ _)
    have ih := mapE_ok g xs fun y hy => h y (List.mem_cons_of_mem _ hy)
    simp only [mapE, hx, ih, List.map_cons]

theorem hasSpecies_of_falsy {v : JsVal} (h : v.truthy = false) : hasSpecies v = false := by
  cases v with
  | str s =>
    have hs : s = "" := by simpa [JsVal.truthy] using h
    rw [hs]; rfl
  | arr xs => simp [JsVal.truthy] at h
  | obj ps => simp [JsVal.truthy] at h
  | _ => rfl

theorem mapE_map {α β γ : Type} (f : β → Except JsError γ) (h : α → β) :
    ∀ xs : List α, mapE f (xs.map h) = mapE (fun x => f (h x)) xs
  | [] => rfl
  | x :: xs => by simp only [List.map_cons, mapE, mapE_map f h xs]

theorem standalone_teamEntry_eq (props : List (String × JsVal)) (id : String) :
    Standalone.teamEntry (.obj props) (.str id) = .ok (teamRecord props id) := by
  have hget : getIndex (.obj props) (.str id) = .ok ((lookup id props).getD .undefined) := rfl
  unfold Standalone.teamEntry teamRecord
  simp only [hget, bind, Except.bind, pure, Except.pure]
  cases h : ((lookup id props).getD JsVal.undefined).truthy
  · simp [hasSpecies_of_falsy h]
  · have hn := not_nullish_of_truthy h
    simp only [getProp_of_not_nullish hn]
    cases hs : hasSpecies ((lookup id props).getD JsVal.undefined) <;>
      simp [hasSpecies] at hs <;> simp [hasSpecies, hs]

theorem route_teamEntry_eq (props : List (String × JsVal)) (id : String) :
    Route.teamEntry (.obj props) (.str id) = .ok (teamRecord props id) := by
  have hget : getIndex (.obj props) (.str id) = .ok ((lookup id props).getD .undefined) := rfl
  unfold Route.teamEntry teamRecord
  simp only [hget, bind, Except.bind, pure, Except.pure]
  cases h : ((lookup id props).getD JsVal.undefined).truthy
  · simp [hasSpecies_of_falsy h]
  · have hn := not_nullish_of_truthy h
    simp only [getProp_of_not_nullish hn]
    cases hs : hasSpecies ((lookup id props).getD JsVal.undefined) <;>
      simp [hasSpecies] at hs <;> simp [hasSpecies, hs]

/-- A falsy value is not the number `c` unless `c = 0`. -/
theorem isInt_of_falsy {v : JsVal} (h : v.truthy = false) {c : Int} (hc : c ≠ 0) :
    v.isInt c = false := by
  cases v with
  | num n =>
    cases n with
    | fin m k =>
      have hm : m = 0 := by simpa [JsVal.truthy, JsNum.truthy] using h
      have hp : (10 : Int) ^ k ≠ 0 := pow_ne_zero _ (by norm_num)
      simp [JsVal.isInt, JsNum.isInt, hm]
      exact hc
    | _ => rfl
  | _ => rfl

theorem or_isInt (v : JsVal) {c : Int} (hc : c ≠ 0) (hc1 : c ≠ 1) :
    (v.or (.int 1)).isInt c = v.isInt c := by
  unfold JsVal.or
  cases h : v.truthy
  · rw [isInt_of_falsy h hc]
    simp [JsVal.isInt, JsVal.int, JsNum.isInt, JsNum.ofInt]
    exact fun h1 => hc1 h1.symm
  · simp

theorem teamRecord_truthy (props : List (String × JsVal)) (id : String) :
    (teamRecord props id).truthy = hasSpecies ((lookup id props).getD .undefined) := by
  unfold teamRecord
  cases h : hasSpecies ((lookup id props).getD .undefined) <;> simp [h, JsVal.truthy]

theorem standalone_extractTeamData_eq (props : List (String × JsVal)) (ids : List String)
    (hteam : lookup "__team" props = some (.arr (ids.map JsVal.str))) :
    Standalone.extractTeamData (.obj props) =
      .ok (((ids.map (teamRecord props)).filter JsVal.truthy).filter
        fun r => !(propOf r "status").isInt 5) := by
  have hget : getProp (.obj props) "__team" = .ok (.arr (ids.map JsVal.str)) := by
    simp [getProp, hteam]
  unfold Standalone.extractTeamData
  simp only [hget, bind, Except.bind, JsVal.or, JsVal.truthy, if_true, mapE_map]
  rw [mapE_ok (teamRecord props) ids fun id _ => standalone_teamEntry_eq props id]
  simp only []
  apply filterE_ok
  intro r hr
  have hn := not_nullish_of_truthy (List.mem_filter.mp hr).2
  simp [getProp_of_not_nullish hn, pure, Except.pure]

theorem teamRecord_of_entry {props : List (String × JsVal)} {id : String} {entry : JsVal}
    (h : lookup id props = some entry) (hs : hasSpecies entry = true) :
    propOf (teamRecord props id) "locationId" = .str id ∧
    propOf (teamRecord props id) "pokemon" = propOf entry "pokemon" ∧
    propOf (teamRecord props id) "status" = (propOf entry "status").or (.int 1) := by
  simp [teamRecord, h, hs, propOf, getProp, lookup]

theorem teamRecord_kept (props : List (String × JsVal)) (id : String) :
    ((teamRecord props id).truthy && !(propOf (teamRecord props id) "status").isInt 5) =
      teamEligible props id := by
  rw [teamRecord_truthy]
  unfold teamEligible
  cases h : lookup id props with
  | none => simp [hasSpecies_of_falsy, JsVal.truthy]
  | some entry =>
    cases hs : hasSpecies entry
    · simp [hs]
    · simp [hs, (teamRecord_of_entry h hs).2.2, or_isInt, statusIs]

theorem team_forall₂ (props : List (String × JsVal)) (ids : List String) :
    List.Forall₂
      (fun id r => ∃ entry, lookup id props = some entry ∧ listedAs r id ∧
        propOf r "pokemon" = propOf entry "pokemon")
      (ids.filter (teamEligible props))
      ((ids.map (teamRecord props)).filter
        fun r => r.truthy && !(propOf r "status").isInt 5) := by
  induction ids with
  | nil => exact List.Forall₂.nil
  | cons id ids ih =>
    have hk := teamRecord_kept props id
    rw [List.map_cons, List.filter_cons, List.filter_cons]
    cases he : teamEligible props id
    · rw [he] at hk
      simp only [hk]
      exact ih
    · rw [he] at hk
      simp only [hk, if_true]
      refine List.Forall₂.cons ?_ ih
      unfold teamEligible at he
      cases h : lookup id props with
      | none => simp [h] at he
      | some entry =>
        have hs : hasSpecies entry = true := by
          rw [h] at he
          simp only [Bool.and_eq_true] at he
          exact he.1
        have hr := teamRecord_of_entry h hs
        exact ⟨entry, rfl, hr.1, hr.2.1⟩

/-- C1: for a snapshot whose `__team` is a list of location ids, the standalone
server's `extractTeamData` returns, in the order of `__team` and with duplicates kept,
exactly one record for each listed id whose map entry exists, has a species and is not
at status 5; every other listed id contributes nothing. -/
theorem standalone_team_is_live_listed_ids (props : List (String × JsVal)) (ids : List String)
    (hteam : lookup "__team" props = some (.arr (ids.map JsVal.str))) :
    ∃ rs, Standalone.extractTeamData (.obj props) = .ok rs ∧
      List.Forall₂
        (fun id r => ∃ entry, lookup id props = some entry ∧ listedAs r id ∧
          propOf r "pokemon" = propOf entry "pokemon")
        (ids.filter (teamEligible props)) rs := by
  refine ⟨_, standalone_extractTeamData_eq props ids hteam, ?_⟩
  rw [List.filter_filter]
  have h := team_forall₂ props ids
  simpa [Bool.and_comm] using h

/-- Witness of C1 on the sample snapshot: `a` is kept, the dead `b` is dropped, and the
missed `c` is kept. -/
theorem standalone_team_is_live_listed_ids_witness :
    lookup "__team" sampleSnapshot = some (.arr (["a", "b", "c"].map JsVal.str)) ∧
    ∃ rs, Standalone.extractTeamData (.obj sampleSnapshot) = .ok rs ∧
      List.Forall₂
        (fun id r => ∃ entry, lookup id sampleSnapshot = some entry ∧ listedAs r id ∧
          propOf r "pokemon" = propOf entry "pokemon")
        (["a", "b", "c"].filter (teamEligible sampleSnapshot)) rs :=
  ⟨rfl, standalone_team_is_live_listed_ids sampleSnapshot ["a", "b", "c"] rfl⟩

/-- C2 (the code departs from the claim): on the spec's own example the query route's
`extractTeamData` returns two records, the second being the dead creature of location
`b`, whereas the standalone server returns the single record of `a`. -/
theorem route_team_keeps_dead_member :
    (∃ ra rb, Route.extractTeamData deadInTeam = .ok [ra, rb] ∧
      listedAs ra "a" ∧ listedAs rb "b" ∧ (propOf rb "status").isInt 5 = true) ∧
    (∃ ra, Standalone.extractTeamData deadInTeam = .ok [ra] ∧ listedAs ra "a") :=
  ⟨⟨_, _, rfl, rfl, rfl, rfl⟩, ⟨_, rfl, rfl⟩⟩

theorem mapE_forall₂ {α β : Type} {f : α → Except JsError β} (R : α → β → Prop) :
    ∀ xs : List α, (∀ x ∈ xs, ∃ y, f x = .ok y ∧ R x y) →
      ∃ ys, mapE f xs = .ok ys ∧ List.Forall₂ R xs ys
  | [], _ => ⟨[], rfl, List.Forall₂.nil⟩
  | x :: xs, h => by
    obtain ⟨y, hy, hR⟩ := h x (List.mem_cons_self _ _)
    obtain ⟨ys, hys, hRs⟩ := mapE_forall₂ R xs fun z hz => h z (List.mem_cons_of_mem _ hz)
    exact ⟨y :: ys, by simp only [mapE, hy, hys], List.Forall₂.cons hR hRs⟩

/-- Membership transfers along a pointwise relation. -/
theorem exists_mem_of_forall₂ {α β : Type} {R : α → β → Prop} {P : β → Prop} {Q : α → Prop}
    (hPQ : ∀ x y, R x y → (P y ↔ Q x)) {xs : List α} {ys : List β}
    (h : List.Forall₂ R xs ys) : (∃ y ∈ ys, P y) ↔ ∃ x ∈ xs, Q x := by
  induction h with
  | nil => simp
  | cons hR _ ih =>
    simp only [List.exists_mem_cons_iff, ih, hPQ _ _ hR]

theorem listedAs_of_obj (id id' : String) (rest : List (String × JsVal)) :
    listedAs (.obj (("locationId", .str id) :: rest)) id' ↔ id = id' := by
  simp [listedAs, propOf, getProp, lookup]

theorem route_boxEntry_spec (e : String × JsVal) (h : e.2.nullish = false) :
    ∃ r, Route.boxEntry e.1 e.2 = .ok r ∧ ∀ id, listedAs r id ↔ e.1 = id := by
  unfold Route.boxEntry
  simp only [getProp_of_not_nullish h, bind, Except.bind, pure, Except.pure]
  exact ⟨_, rfl, fun id => listedAs_of_obj _ _ _⟩

theorem standalone_boxEntry_spec (e : String × JsVal) (h : e.2.nullish = false) :
    ∃ r, Standalone.boxEntry e.1 e.2 = .ok r ∧ ∀ id, listedAs r id ↔ e.1 = id := by
  unfold Standalone.boxEntry
  simp only [getProp_of_not_nullish h, bind, Except.bind, pure, Except.pure]
  exact ⟨_, rfl, fun id => listedAs_of_obj _ _ _⟩

/-- The entry's status is one of the `Available` codes 1, 2, 3, 6. -/
theorem availableIncludes_iff (entry : JsVal) :
    availableIncludes (propOf entry "status") = true ↔ statusAvailable entry := by
  simp [availableIncludes, NuzlockeGroups.Available, statusIs, statusAvailable]

theorem route_extractBoxData_spec (props : List (String × JsVal))
    (hrec : ∀ e ∈ props, e.2.nullish = false) :
    ∃ rs, Route.extractBoxData (.obj props) = .ok rs ∧
      List.Forall₂ (fun e r => ∀ id, listedAs r id ↔ e.1 = id)
        (props.filter fun e => hasSpecies e.2 && availableIncludes (propOf e.2 "status")) rs := by
  have h1 : filterE (fun e : String × JsVal => do return (← getProp e.2 "pokemon").truthy) props
      = .ok (props.filter fun e => hasSpecies e.2) :=
    filterE_ok _ props fun e he => by
      simp [getProp_of_not_nullish (hrec e he), hasSpecies, pure, Except.pure, bind, Except.bind]
  have h2 : filterE (fun e : String × JsVal => do
        return availableIncludes (← getProp e.2 "status")) (props.filter fun e => hasSpecies e.2)
      = .ok ((props.filter fun e => hasSpecies e.2).filter
          fun e => availableIncludes (propOf e.2 "status")) :=
    filterE_ok _ _ fun e he => by
      simp [getProp_of_not_nullish (hrec e (List.mem_filter.mp he).1), pure, Except.pure, bind,
        Except.bind]
  obtain ⟨rs, hrs, hR⟩ := mapE_forall₂ (f := fun e : String × JsVal => Route.boxEntry e.1 e.2)
    (fun e r => ∀ id, listedAs r id ↔ e.1 = id)
    ((props.filter fun e => hasSpecies e.2).filter fun e => availableIncludes (propOf e.2 "status"))
    fun e he => route_boxEntry_spec e (hrec e (List.mem_filter.mp (List.mem_filter.mp he).1).1)
  refine ⟨rs, ?_, ?_⟩
  · simp only [bind, Except.bind] at h1 h2
    unfold Route.extractBoxData
    simp only [objectEntries, bind, Except.bind, h1, h2, hrs]
  · rw [List.filter_filter] at hR
    simpa [Bool.and_comm] using hR

theorem standalone_extractBoxData_spec (props : List (String × JsVal))
    (hrec : ∀ e ∈ props, e.2.nullish = false) :
    ∃ rs, Standalone.extractBoxData (.obj props) = .ok rs ∧
      List.Forall₂ (fun e r => ∀ id, listedAs r id ↔ e.1 = id)
        (props.filter fun e => hasSpecies e.2 && availableIncludes (propOf e.2 "status")) rs := by
  have h1 : filterE (fun e : String × JsVal => do return (← getProp e.2 "pokemon").truthy) props
      = .ok (props.filter fun e => hasSpecies e.2) :=
    filterE_ok _ props fun e he => by
      simp [getProp_of_not_nullish (hrec e he), hasSpecies, pure, Except.pure, bind, Except.bind]
  have h2 : filterE (fun e : String × JsVal => do
        return availableIncludes (← getProp e.2 "status")) (props.filter fun e => hasSpecies e.2)
      = .ok ((props.filter fun e => hasSpecies e.2).filter
          fun e => availableIncludes (propOf e.2 "status")) :=
    filterE_ok _ _ fun e he => by
      simp [getProp_of_not_nullish (hrec e (List.mem_filter.mp he).1), pure, Except.pure, bind,
        Except.bind]
  obtain ⟨rs, hrs, hR⟩ := mapE_forall₂ (f := fun e : String × JsVal => Standalone.boxEntry e.1 e.2)
    (fun e r => ∀ id, listedAs r id ↔ e.1 = id)
    ((props.filter fun e => hasSpecies e.2).filter fun e => availableIncludes (propOf e.2 "status"))
    fun e he => standalone_boxEntry_spec e (hrec e (List.mem_filter.mp (List.mem_filter.mp he).1).1)
  refine ⟨rs, ?_, ?_⟩
  · simp only [bind, Except.bind] at h1 h2
    unfold Standalone.extractBoxData
    simp only [objectEntries, bind, Except.bind, h1, h2, hrs]
  · rw [List.filter_filter] at hR
    simpa [Bool.and_comm] using hR

/-- An entry is shown in the Box view: it has a species and an `Available` status. -/
theorem box_listing {props : List (String × JsVal)} {rs : List JsVal}
    (h : List.Forall₂ (fun (e : String × JsVal) r => ∀ id, listedAs r id ↔ e.1 = id)
      (props.filter fun e => hasSpecies e.2 && availableIncludes (propOf e.2 "status")) rs)
    (id : String) :
    (∃ r ∈ rs, listedAs r id) ↔
      ∃ entry, (id, entry) ∈ props ∧ hasSpecies entry = true ∧ statusAvailable entry := by
  rw [exists_mem_of_forall₂ (P := fun r => listedAs r id) (Q := fun e => e.1 = id)
    (fun e r hR => hR id) h]
  constructor
  · rintro ⟨⟨k, entry⟩, he, rfl⟩
    have := List.mem_filter.mp he
    simp only [Bool.and_eq_true, availableIncludes_iff] at this
    exact ⟨entry, this.1, this.2.1, this.2.2⟩
  · rintro ⟨entry, he, hs, hst⟩
    refine ⟨(id, entry), List.mem_filter.mpr ⟨he, ?_⟩, rfl⟩
    simp only [Bool.and_eq_true, availableIncludes_iff]
    exact ⟨hs, hst⟩

/-- C3: for a snapshot none of whose entries is null (in particular one whose entries
are records), a location id appears in the Box view, in the route handler and in the
standalone server alike, if and only if its map entry has a species and its status is
one of 1, 2, 3, 6. -/
theorem box_lists_exactly_available (props : List (String × JsVal))
    (hrec : ∀ e ∈ props, e.2.nullish = false) :
    ListsExactlyAvailable (Route.extractBoxData (.obj props)) props ∧
    ListsExactlyAvailable (Standalone.extractBoxData (.obj props)) props := by
  obtain ⟨rs, hrs, hR⟩ := route_extractBoxData_spec props hrec
  obtain ⟨rs', hrs', hR'⟩ := standalone_extractBoxData_spec props hrec
  exact ⟨⟨rs, hrs, box_listing hR⟩, ⟨rs', hrs', box_listing hR'⟩⟩

theorem sampleSnapshot_not_nullish : ∀ e ∈ sampleSnapshot, e.2.nullish = false := by
  intro e he
  simp only [sampleSnapshot, List.mem_cons, List.mem_singleton, List.not_mem_nil, or_false] at he
  rcases he with rfl | rfl | rfl | rfl <;> rfl

/-- Witness of C3 on the sample snapshot. -/
theorem box_lists_exactly_available_witness :
    (∀ e ∈ sampleSnapshot, e.2.nullish = false) ∧
    ListsExactlyAvailable (Route.extractBoxData (.obj sampleSnapshot)) sampleSnapshot ∧
    ListsExactlyAvailable (Standalone.extractBoxData (.obj sampleSnapshot)) sampleSnapshot :=
  ⟨sampleSnapshot_not_nullish,
    box_lists_exactly_available sampleSnapshot sampleSnapshot_not_nullish⟩

theorem deadTest_eq (e : String × JsVal) (h : e.2.nullish = false) :
    (do
      let species ← getProp e.2 "pokemon"
      if !species.truthy then return false
      return (← getProp e.2 "status").isInt 5 : Except JsError Bool) =
    .ok (hasSpecies e.2 && statusIs e.2 5) := by
  simp only [getProp_of_not_nullish h, bind, Except.bind, pure, Except.pure, hasSpecies, statusIs]
  cases (propOf e.2 "pokemon").truthy <;> simp

theorem standalone_deadEntry_spec (e : String × JsVal) (h : e.2.nullish = false) :
    ∃ r, Standalone.deadEntry e.1 e.2 = .ok r ∧ (∀ id, listedAs r id ↔ e.1 = id) ∧
      propOf r "death" = (propOf e.2 "death").or .null := by
  unfold Standalone.deadEntry
  simp only [getProp_of_not_nullish h, bind, Except.bind, pure, Except.pure]
  exact ⟨_, rfl, fun id => listedAs_of_obj _ _ _, by simp [propOf, getProp, lookup]⟩

theorem route_deadEntry_spec (e : String × JsVal) (h : e.2.nullish = false) :
    ∃ r, Route.deadEntry e.1 e.2 = .ok r ∧ (∀ id, listedAs r id ↔ e.1 = id) ∧
      propOf r "death" = .undefined := by
  unfold Route.deadEntry
  simp only [getProp_of_not_nullish h, bind, Except.bind, pure, Except.pure]
  exact ⟨_, rfl, fun id => listedAs_of_obj _ _ _, by simp [propOf, getProp, lookup]⟩

theorem standalone_extractDeadData_spec (props : List (String × JsVal))
    (hrec : ∀ e ∈ props, e.2.nullish = false) :
    ∃ rs, Standalone.extractDeadData (.obj props) = .ok rs ∧
      List.Forall₂ (fun e r => (∀ id, listedAs r id ↔ e.1 = id) ∧
          propOf r "death" = (propOf e.2 "death").or .null)
        (props.filter fun e => hasSpecies e.2 && statusIs e.2 5) rs := by
  have h1 := filterE_ok (fun e : String × JsVal => hasSpecies e.2 && statusIs e.2 5) props
    fun e he => deadTest_eq e (hrec e he)
  obtain ⟨rs, hrs, hR⟩ := mapE_forall₂
    (f := fun e : String × JsVal => Standalone.deadEntry e.1 e.2)
    (fun e r => (∀ id, listedAs r id ↔ e.1 = id) ∧
      propOf r "death" = (propOf e.2 "death").or .null)
    (props.filter fun e => hasSpecies e.2 && statusIs e.2 5)
    fun e he => standalone_deadEntry_spec e (hrec e (List.mem_filter.mp he).1)
  refine ⟨rs, ?_, hR⟩
  simp only [bind, Except.bind] at h1
  unfold Standalone.extractDeadData
  simp only [objectEntries, bind, Except.bind, h1, hrs]

theorem route_extractDeadData_spec (props : List (String × JsVal))
    (hrec : ∀ e ∈ props, e.2.nullish = false) :
    ∃ rs, Route.extractDeadData (.obj props) = .ok rs ∧
      List.Forall₂ (fun e r => (∀ id, listedAs r id ↔ e.1 = id) ∧
          propOf r "death" = .undefined)
        (props.filter fun e => hasSpecies e.2 && statusIs e.2 5) rs := by
  have h1 := filterE_ok (fun e : String × JsVal => hasSpecies e.2 && statusIs e.2 5) props
    fun e he => deadTest_eq e (hrec e he)
  obtain ⟨rs, hrs, hR⟩ := mapE_forall₂
    (f := fun e : String × JsVal => Route.deadEntry e.1 e.2)
    (fun e r => (∀ id, listedAs r id ↔ e.1 = id) ∧ propOf r "death" = .undefined)
    (props.filter fun e => hasSpecies e.2 && statusIs e.2 5)
    fun e he => route_deadEntry_spec e (hrec e (List.mem_filter.mp he).1)
  refine ⟨rs, ?_, hR⟩
  simp only [bind, Except.bind] at h1
  unfold Route.extractDeadData
  simp only [objectEntries, bind, Except.bind, h1, hrs]

/-- C4 (the code departs from the claim in the route handler): on the sample snapshot,
whose dead creature `b` has a `death` record, the route handler's Graveyard record of
`b` has no `death` field at all, while the standalone server's record carries the
`death` record verbatim. -/
theorem route_graveyard_drops_death_info :
    (∃ fields, Route.extractDeadData (.obj sampleSnapshot) = .ok [.obj fields] ∧
      listedAs (.obj fields) "b" ∧ lookup "death" fields = none) ∧
    (∃ r, Standalone.extractDeadData (.obj sampleSnapshot) = .ok [r] ∧ listedAs r "b" ∧
      propOf r "death" = .obj [("type", .str "boss")]) :=
  ⟨⟨_, rfl, rfl, rfl⟩, ⟨_, rfl, rfl, rfl⟩⟩

theorem isInt_unique {v : JsVal} {a b : Int} (ha : v.isInt a = true) (hb : v.isInt b = true) :
    a = b := by
  cases v with
  | num n =>
    cases n with
    | fin m k =>
      simp only [JsVal.isInt, JsNum.isInt, beq_iff_eq] at ha hb
      have hp : (10 : Int) ^ k ≠ 0 := pow_ne_zero _ (by norm_num)
      exact mul_right_cancel₀ hp (ha.symm.trans hb)
    | nan => simp [JsVal.isInt, JsNum.isInt] at ha
    | inf s => simp [JsVal.isInt, JsNum.isInt] at ha
  | _ => simp [JsVal.isInt] at ha

theorem not_available_of_status {entry : JsVal} {c : Int} (h : statusIs entry c = true)
    (hc : c ≠ 1 ∧ c ≠ 2 ∧ c ≠ 3 ∧ c ≠ 6) : ¬ statusAvailable entry := by
  rintro (h1 | h2 | h3 | h6)
  · exact hc.1 (isInt_unique h h1)
  · exact hc.2.1 (isInt_unique h h2)
  · exact hc.2.2.1 (isInt_unique h h3)
  · exact hc.2.2.2 (isInt_unique h h6)

theorem entry_unique {props : List (String × JsVal)} (hk : (props.map Prod.fst).Nodup)
    {k : String} {a b : JsVal} (ha : (k, a) ∈ props) (hb : (k, b) ∈ props) : a = b := by
  induction props with
  | nil => simp at ha
  | cons p ps ih =>
    rw [List.map_cons, List.nodup_cons] at hk
    rcases List.mem_cons.mp ha with rfl | ha' <;> rcases List.mem_cons.mp hb with hb' | hb'
    · exact (Prod.mk.inj hb').2.symm
    · exact absurd (List.mem_map_of_mem Prod.fst hb') hk.1
    · subst hb'
      exact absurd (List.mem_map_of_mem Prod.fst ha') hk.1
    · exact ih hk.2 ha' hb'

/-- An entry is shown in the Graveyard view: it has a species and status 5. -/
theorem dead_listing {props : List (String × JsVal)} {rs : List JsVal} {D : JsVal → JsVal → Prop}
    (h : List.Forall₂ (fun (e : String × JsVal) r => (∀ id, listedAs r id ↔ e.1 = id) ∧ D e.2 r)
      (props.filter fun e => hasSpecies e.2 && statusIs e.2 5) rs)
    (id : String) :
    Lists rs id ↔
      ∃ entry, (id, entry) ∈ props ∧ hasSpecies entry = true ∧ statusIs entry 5 = true := by
  unfold Lists
  rw [exists_mem_of_forall₂ (P := fun r => listedAs r id) (Q := fun e => e.1 = id)
    (fun e r hR => hR.1 id) h]
  constructor
  · rintro ⟨⟨k, entry⟩, he, rfl⟩
    have := List.mem_filter.mp he
    simp only [Bool.and_eq_true] at this
    exact ⟨entry, this.1, this.2.1, this.2.2⟩
  · rintro ⟨entry, he, hs, hst⟩
    refine ⟨(id, entry), List.mem_filter.mpr ⟨he, ?_⟩, rfl⟩
    simp only [Bool.and_eq_true]
    exact ⟨hs, hst⟩

theorem partition_of_listings {props : List (String × JsVal)}
    (hk : (props.map Prod.fst).Nodup) {bs ds : List JsVal}
    (hb : ∀ id, Lists bs id ↔
      ∃ entry, (id, entry) ∈ props ∧ hasSpecies entry = true ∧ statusAvailable entry)
    (hd : ∀ id, Lists ds id ↔
      ∃ entry, (id, entry) ∈ props ∧ hasSpecies entry = true ∧ statusIs entry 5 = true) :
    (∀ id entry, (id, entry) ∈ props → hasSpecies entry = true → statusIs entry 5 = true →
      Lists ds id ∧ ¬ Lists bs id) ∧
    (∀ id, Lists ds id → ∃ entry, (id, entry) ∈ props ∧ statusIs entry 5 = true) ∧
    (∀ id, ¬ (Lists bs id ∧ Lists ds id)) := by
  have hex : ∀ id, ¬ (Lists bs id ∧ Lists ds id) := by
    rintro id ⟨h1, h2⟩
    obtain ⟨e1, he1, -, hav⟩ := (hb id).mp h1
    obtain ⟨e2, he2, -, h5⟩ := (hd id).mp h2
    rw [entry_unique hk he1 he2] at hav
    exact not_available_of_status h5 (by decide) hav
  refine ⟨fun id entry he hs h5 => ?_, fun id h => ?_, hex⟩
  · have hin : Lists ds id := (hd id).mpr ⟨entry, he, hs, h5⟩
    exact ⟨hin, fun hbx => hex id ⟨hbx, hin⟩⟩
  · obtain ⟨e, he, -, h5⟩ := (hd id).mp h
    exact ⟨e, he, h5⟩

/-- C5: for a snapshot none of whose entries is null (in particular one whose entries
are records), in the route handler and in the standalone server alike, an entry with a
species and status 5 is in the Graveyard view and not in the Box view, the Graveyard
view holds only entries of status 5, and no location id is in both views. -/
theorem box_and_graveyard_partition (props : List (String × JsVal))
    (hk : (props.map Prod.fst).Nodup) (hrec : ∀ e ∈ props, e.2.nullish = false) :
    PartitionsBoxAndGraveyard (Route.extractBoxData (.obj props))
      (Route.extractDeadData (.obj props)) props ∧
    PartitionsBoxAndGraveyard (Standalone.extractBoxData (.obj props))
      (Standalone.extractDeadData (.obj props)) props := by
  obtain ⟨bs, hbs, hB⟩ := route_extractBoxData_spec props hrec
  obtain ⟨bs', hbs', hB'⟩ := standalone_extractBoxData_spec props hrec
  obtain ⟨ds, hds, hD⟩ := route_extractDeadData_spec props hrec
  obtain ⟨ds', hds', hD'⟩ := standalone_extractDeadData_spec props hrec
  exact ⟨⟨bs, ds, hbs, hds, partition_of_listings hk (box_listing hB)
      (dead_listing (D := fun _ r => propOf r "death" = .undefined) hD)⟩,
    ⟨bs', ds', hbs', hds', partition_of_listings hk (box_listing hB')
      (dead_listing (D := fun e r => propOf r "death" = (propOf e "death").or .null) hD')⟩⟩

/-- Witness of C5 on the sample snapshot. -/
theorem box_and_graveyard_partition_witness :
    (sampleSnapshot.map Prod.fst).Nodup ∧ (∀ e ∈ sampleSnapshot, e.2.nullish = false) ∧
    PartitionsBoxAndGraveyard (Route.extractBoxData (.obj sampleSnapshot))
      (Route.extractDeadData (.obj sampleSnapshot)) sampleSnapshot ∧
    PartitionsBoxAndGraveyard (Standalone.extractBoxData (.obj sampleSnapshot))
      (Standalone.extractDeadData (.obj sampleSnapshot)) sampleSnapshot :=
  ⟨by decide, sampleSnapshot_not_nullish,
    box_and_graveyard_partition sampleSnapshot (by decide) sampleSnapshot_not_nullish⟩

theorem route_extractTeamData_eq (props : List (String × JsVal)) (ids : List String)
    (hteam : lookup "__team" props = some (.arr (ids.map JsVal.str))) :
    Route.extractTeamData (.obj props) =
      .ok ((ids.map (teamRecord props)).filter JsVal.truthy) := by
  have hget : getProp (.obj props) "__team" = .ok (.arr (ids.map JsVal.str)) := by
    simp [getProp, hteam]
  unfold Route.extractTeamData
  simp only [hget, bind, Except.bind, JsVal.or, JsVal.truthy, if_true, mapE_map]
  rw [mapE_ok (teamRecord props) ids fun id _ => route_teamEntry_eq props id]
  rfl

theorem lookup_of_mem {props : List (String × JsVal)} (hk : (props.map Prod.fst).Nodup)
    {k : String} {v : JsVal} (h : (k, v) ∈ props) : lookup k props = some v := by
  induction props with
  | nil => simp at h
  | cons p ps ih =>
    obtain ⟨k', v'⟩ := p
    rw [List.map_cons, List.nodup_cons] at hk
    rcases List.mem_cons.mp h with heq | h'
    · obtain ⟨rfl, rfl⟩ := Prod.mk.inj heq
      simp [lookup]
    · have hne : k' ≠ k := by
        rintro rfl
        exact hk.1 (List.mem_map.mpr ⟨(k', v), h', rfl⟩)
      simp [lookup, hne, ih hk.2 h']

/-- The location ids listed by the records of the shared `team.map` callback that pass
a test `keep`. -/
theorem lists_teamRecords (props : List (String × JsVal)) (keep : JsVal → Bool)
    (ids : List String) (id : String) :
    Lists ((ids.map (teamRecord props)).filter fun r => r.truthy && keep r) id ↔
      id ∈ ids ∧ hasSpecies ((lookup id props).getD .undefined) = true ∧
        keep (teamRecord props id) = true := by
  unfold Lists
  constructor
  · rintro ⟨r, hr, hl⟩
    obtain ⟨hmem, hkeep⟩ := List.mem_filter.mp hr
    obtain ⟨id', hid', rfl⟩ := List.mem_map.mp hmem
    simp only [Bool.and_eq_true, teamRecord_truthy] at hkeep
    have hid : id' = id := by
      have hs := hkeep.1
      simp only [listedAs, teamRecord, hs, if_true] at hl
      simpa [propOf, getProp, lookup] using hl
    subst hid
    exact ⟨hid', hkeep.1, hkeep.2⟩
  · rintro ⟨hid, hs, hkeep⟩
    refine ⟨teamRecord props id, List.mem_filter.mpr ⟨List.mem_map_of_mem _ hid, ?_⟩, ?_⟩
    · simp [teamRecord_truthy, hs, hkeep]
    · simp [listedAs, teamRecord, hs, propOf, getProp, lookup]

/-- C6, as amended: for a snapshot with unique keys, no null entry and a `__team` list of
location ids, a creature whose status is 4 or 7 is in neither the Box nor the
Graveyard view, and is in the Team view exactly when its location id is listed in
`__team` and it has a species; this holds in the route handler and in the standalone
server. -/
theorem missed_or_trash_only_in_team (props : List (String × JsVal)) (ids : List String)
    (hteam : lookup "__team" props = some (.arr (ids.map JsVal.str)))
    (hk : (props.map Prod.fst).Nodup) (hrec : ∀ e ∈ props, e.2.nullish = false)
    (id : String) (entry : JsVal) (he : (id, entry) ∈ props)
    (hst : statusIs entry 4 = true ∨ statusIs entry 7 = true) :
    OnlyInTeamIfListed (Route.extractTeamData (.obj props)) (Route.extractBoxData (.obj props))
      (Route.extractDeadData (.obj props)) ids id entry ∧
    OnlyInTeamIfListed (Standalone.extractTeamData (.obj props))
      (Standalone.extractBoxData (.obj props)) (Standalone.extractDeadData (.obj props))
      ids id entry := by
  obtain ⟨bs, hbs, hB⟩ := route_extractBoxData_spec props hrec
  obtain ⟨bs', hbs', hB'⟩ := standalone_extractBoxData_spec props hrec
  obtain ⟨ds, hds, hD⟩ := route_extractDeadData_spec props hrec
  obtain ⟨ds', hds', hD'⟩ := standalone_extractDeadData_spec props hrec
  have hlk : (lookup id props).getD .undefined = entry := by rw [lookup_of_mem hk he]; rfl
  have hnav : ¬ statusAvailable entry := by
    rcases hst with h | h
    · exact not_available_of_status h (by decide)
    · exact not_available_of_status h (by decide)
  have hn5 : statusIs entry 5 = false := by
    cases h5 : statusIs entry 5
    · rfl
    · rcases hst with h | h
      · exact absurd (isInt_unique h h5) (by decide)
      · exact absurd (isInt_unique h h5) (by decide)
  have hbox : ∀ {rs : List JsVal},
      (∀ id, Lists rs id ↔
        ∃ entry, (id, entry) ∈ props ∧ hasSpecies entry = true ∧ statusAvailable entry) →
      ¬ Lists rs id := by
    intro rs h hl
    obtain ⟨e, hmem, -, hav⟩ := (h id).mp hl
    rw [entry_unique hk hmem he] at hav
    exact hnav hav
  have hdead : ∀ {rs : List JsVal},
      (∀ id, Lists rs id ↔
        ∃ entry, (id, entry) ∈ props ∧ hasSpecies entry = true ∧ statusIs entry 5 = true) →
      ¬ Lists rs id := by
    intro rs h hl
    obtain ⟨e, hmem, -, h5⟩ := (h id).mp hl
    rw [entry_unique hk hmem he, hn5] at h5
    exact Bool.noConfusion h5
  refine ⟨⟨_, bs, ds, route_extractTeamData_eq props ids hteam, hbs, hds, hbox (box_listing hB),
      hdead (dead_listing (D := fun _ r => propOf r "death" = .undefined) hD), ?_⟩,
    ⟨_, bs', ds', standalone_extractTeamData_eq props ids hteam, hbs', hds',
      hbox (box_listing hB'),
      hdead (dead_listing (D := fun e r => propOf r "death" = (propOf e "death").or .null) hD'),
      ?_⟩⟩
  · have h := lists_teamRecords props (fun _ => true) ids id
    simp only [Bool.and_true, and_true, hlk] at h
    exact h
  · rw [List.filter_filter]
    have h := lists_teamRecords props (fun r => !(propOf r "status").isInt 5) ids id
    have hstat : (propOf (teamRecord props id) "status").isInt 5 = true → hasSpecies entry = true →
        False := by
      intro h5 hs
      rw [(teamRecord_of_entry (lookup_of_mem hk he) hs).2.2, or_isInt _ (by decide) (by decide)]
        at h5
      rw [statusIs] at hn5
      rw [hn5] at h5
      exact Bool.noConfusion h5
    rw [hlk] at h
    have h' : Lists ((ids.map (teamRecord props)).filter
        fun r => (!(propOf r "status").isInt 5) && r.truthy) id ↔
        Lists ((ids.map (teamRecord props)).filter
          fun r => r.truthy && !(propOf r "status").isInt 5) id := by
      simp only [Bool.and_comm]
    rw [h', h]
    constructor
    · rintro ⟨h1, h2, -⟩
      exact ⟨h1, h2⟩
    · rintro ⟨h1, h2⟩
      refine ⟨h1, h2, ?_⟩
      cases h5 : (propOf (teamRecord props id) "status").isInt 5
      · rfl
      · exact (hstat h5 h2).elim

theorem sampleSnapshot_keys : (sampleSnapshot.map Prod.fst).Nodup := by decide

/-- Witness of C6 (amended) on the sample snapshot, for the missed creature `c`. -/
theorem missed_or_trash_only_in_team_witness :
    lookup "__team" sampleSnapshot = some (.arr (["a", "b", "c"].map JsVal.str)) ∧
    (sampleSnapshot.map Prod.fst).Nodup ∧ (∀ e ∈ sampleSnapshot, e.2.nullish = false) ∧
    ("c", JsVal.obj [("pokemon", .str "wurmple"), ("status", .int 4)]) ∈ sampleSnapshot ∧
    OnlyInTeamIfListed (Standalone.extractTeamData (.obj sampleSnapshot))
      (Standalone.extractBoxData (.obj sampleSnapshot))
      (Standalone.extractDeadData (.obj sampleSnapshot))
      ["a", "b", "c"] "c" (.obj [("pokemon", .str "wurmple"), ("status", .int 4)]) :=
  ⟨rfl, sampleSnapshot_keys, sampleSnapshot_not_nullish, by simp [sampleSnapshot],
    (missed_or_trash_only_in_team sampleSnapshot ["a", "b", "c"] rfl sampleSnapshot_keys
      sampleSnapshot_not_nullish "c" (.obj [("pokemon", .str "wurmple"), ("status", .int 4)])
      (by simp [sampleSnapshot]) (Or.inl rfl)).2⟩

/-- C6 refuted as stated: in the sample snapshot the creature of location `c` has
status 4 (Missed) and is listed in `__team`; the Team view of the standalone server and
that of the route handler both show it. -/
theorem missed_member_shown_in_team :
    statusIs ((lookup "c" sampleSnapshot).getD .undefined) 4 = true ∧
    (∃ ra rc, Standalone.extractTeamData (.obj sampleSnapshot) = .ok [ra, rc] ∧
      listedAs rc "c") ∧
    (∃ ra rb rc, Route.extractTeamData (.obj sampleSnapshot) = .ok [ra, rb, rc] ∧
      listedAs rc "c") :=
  ⟨rfl, ⟨_, _, rfl, rfl⟩, ⟨_, _, _, rfl, rfl⟩⟩

theorem splitChars_ne_nil (sep : Char) (cs : List Char) : splitChars sep cs ≠ [] := by
  cases cs with
  | nil => simp [splitChars]
  | cons c cs =>
    simp only [splitChars]
    split <;> split <;> simp

/-- The first piece is the text before the first separator; the other pieces are those
of the text after it. -/
theorem splitChars_eq (sep : Char) (cs : List Char) :
    splitChars sep cs = cs.takeWhile (· != sep) ::
      (match cs.dropWhile (· != sep) with
       | [] => []
       | _ :: rest => splitChars sep rest) := by
  induction cs with
  | nil => rfl
  | cons c cs ih =>
    by_cases hc : c = sep
    · subst hc
      cases h : splitChars c cs with
      | nil => exact absurd h (splitChars_ne_nil _ _)
      | cons w ws => simp [splitChars, h]
    · cases h : splitChars sep cs with
      | nil => exact absurd h (splitChars_ne_nil _ _)
      | cons w ws =>
        rw [h] at ih
        simp only [splitChars, h, hc, if_false]
        have hb : (c != sep) = true := by simpa using hc
        rw [List.takeWhile_cons, List.dropWhile_cons]
        simp only [hb, if_true]
        rw [List.cons.injEq] at ih
        rw [← ih.1, ← ih.2]

theorem takeWhile_append_sep {sep : Char} {a : List Char} (h : sep ∉ a) (b : List Char) :
    (a ++ sep :: b).takeWhile (· != sep) = a ∧ (a ++ sep :: b).dropWhile (· != sep) = sep :: b := by
  induction a with
  | nil => simp
  | cons c a ih =>
    have hc : (c != sep) = true := by
      have : sep ≠ c := fun h' => h (h' ▸ List.mem_cons_self _ _)
      simpa using fun h' => this h'.symm
    have ih' := ih fun hm => h (List.mem_cons_of_mem _ hm)
    simp [List.takeWhile_cons, List.dropWhile_cons, hc, ih'.1, ih'.2]

theorem takeWhile_of_not_mem {sep : Char} {a : List Char} (h : sep ∉ a) :
    a.takeWhile (· != sep) = a ∧ a.dropWhile (· != sep) = [] := by
  induction a with
  | nil => simp
  | cons c a ih =>
    have hc : (c != sep) = true := by
      have : sep ≠ c := fun h' => h (h' ▸ List.mem_cons_self _ _)
      simpa using fun h' => this h'.symm
    have ih' := ih fun hm => h (List.mem_cons_of_mem _ hm)
    simp [List.takeWhile_cons, List.dropWhile_cons, hc, ih'.1, ih'.2]

theorem splitChars_append {sep : Char} {a : List Char} (h : sep ∉ a) (b : List Char) :
    splitChars sep (a ++ sep :: b) = a :: splitChars sep b := by
  rw [splitChars_eq, (takeWhile_append_sep h b).1, (takeWhile_append_sep h b).2]

theorem splitChars_of_not_mem {sep : Char} {a : List Char} (h : sep ∉ a) :
    splitChars sep a = [a] := by
  rw [splitChars_eq, (takeWhile_of_not_mem h).1, (takeWhile_of_not_mem h).2]

theorem split_gt (t : String) :
    fieldAt (split '>' t) 0 = .str (createdPart t) ∧
    (fieldAt (split '>' t) 1).truthy = decide (updatedPart t ≠ "") ∧
    ((fieldAt (split '>' t) 1).truthy = true → fieldAt (split '>' t) 1 = .str (updatedPart t)) := by
  unfold split createdPart updatedPart
  rw [splitChars_eq]
  cases h : t.data.dropWhile (· != '>') with
  | nil => simp [fieldAt, JsVal.truthy]
  | cons c rest =>
    simp only [List.drop_succ_cons, List.drop_zero]
    rw [splitChars_eq]
    by_cases hu : (⟨List.takeWhile (fun x => x != '>') rest⟩ : String) = "" <;>
      simp [fieldAt, JsVal.truthy, hu]

theorem runEntry_data (id time name game settings attempts : String) :
    (runEntry id time name game settings attempts).data =
      id.data ++ '|' :: (time.data ++ '|' :: (name.data ++ '|' :: (game.data ++ '|' ::
        (settings.data ++ '|' :: attempts.data)))) := by
  simp [runEntry, String.data_append]

theorem setProp_nil (k : String) (v : JsVal) : setProp [] k v = [(k, v)] := by
  unfold setProp
  simp only [lookup]
  cases arrayIndex? k <;> rfl

/-- The reducer on an entry with at least the fields `id`, `time` and `name`. -/
theorem savedGame_ok (acc : List (String × JsVal)) (id time name decoded : String)
    (rest : List String) (hname : decodeURIComponent name = .ok decoded) :
    savedGame acc (id :: time :: name :: rest) =
      .ok (setProp acc id (savedRecord id time decoded (fieldAt rest 0) (fieldAt rest 1)
        ((JsVal.num (match rest.get? 2 with
          | some s => stringToNumber s
          | none => .fin 1 0)).or (.int 1)))) := by
  obtain ⟨hc, hu, hu'⟩ := split_gt time
  unfold savedGame savedRecord
  simp only [fieldAt, List.get?_cons_zero, List.get?_cons_succ, bind, Except.bind, pure,
    Except.pure, JsVal.toStr, hname]
  simp only [fieldAt] at hc hu hu'
  rw [hc]
  by_cases hup : updatedPart time = ""
  · simp only [hup, ne_eq, not_true_eq_false, decide_False] at hu
    simp only [hu, hup, if_true]
    cases rest.get? 2 <;> rfl
  · simp only [hup, ne_eq, not_false_eq_true, decide_True] at hu
    rw [hu' hu]
    simp only [JsVal.truthy, hup, if_false]
    have : (updatedPart time != "") = true := by simpa using hup
    simp only [this, if_true]
    cases rest.get? 2 <;> rfl

theorem split_runEntry (id time name game settings attempts : String)
    (h : ∀ f ∈ [id, time, name, game, settings], plainField f) (ha : plainField attempts) :
    split ',' (runEntry id time name game settings attempts) =
      [runEntry id time name game settings attempts] ∧
    split '|' (runEntry id time name game settings attempts) =
      [id, time, name, game, settings, attempts] := by
  have hid := h id (by simp)
  have htime := h time (by simp)
  have hnm := h name (by simp)
  have hgame := h game (by simp)
  have hset := h settings (by simp)
  constructor
  · unfold split
    rw [splitChars_of_not_mem]
    · rfl
    · rw [runEntry_data]
      simp [hid.1, htime.1, hnm.1, hgame.1, hset.1, ha.1]
  · unfold split
    rw [runEntry_data, splitChars_append hid.2, splitChars_append htime.2,
      splitChars_append hnm.2, splitChars_append hgame.2, splitChars_append hset.2,
      splitChars_of_not_mem ha.2]
    rfl

/-- C7, as amended: for a run-index entry `id|time|name|game|settings|attempts` whose
fields contain no comma or pipe and whose name percent-decodes to `decoded`,
`parseSavedGames` maps `id` to the record with that id, game and settings, the decoded
name, `created` the part of `time` before the first `>`, and `updated` the part between
the first `>` and the next one (or the end) when that part is not empty; when it is
empty, in particular when `time` has no `>`, the record has no `updated` field. -/
theorem parseSavedGames_runEntry (id time name game settings attempts decoded : String)
    (h : ∀ f ∈ [id, time, name, game, settings], plainField f) (ha : plainField attempts)
    (hname : decodeURIComponent name = .ok decoded) :
    parseSavedGames (runEntry id time name game settings attempts) =
      .ok (.obj [(id, savedRecord id time decoded (.str game) (.str settings)
        ((JsVal.num (stringToNumber attempts)).or (.int 1)))]) := by
  obtain ⟨h1, h2⟩ := split_runEntry id time name game settings attempts h ha
  have hlen : (runEntry id time name game settings attempts).data.length ≠ 0 := by
    rw [runEntry_data, List.length_append, List.length_cons]
    omega
  have hne : runEntry id time name game settings attempts ≠ "" := by
    intro h0
    rw [h0] at hlen
    exact hlen rfl
  unfold parseSavedGames
  rw [if_neg hne, h1]
  simp only [List.filter_cons, hlen, ne_eq, not_false_eq_true, decide_True,
    if_true, List.filter_nil, List.map_cons, List.map_nil, h2, reduceE, bind, Except.bind,
    savedGame_ok [] id time name decoded _ hname, setProp_nil, pure, Except.pure]
  simp only [fieldAt, List.get?_cons_zero, List.get?_cons_succ]

/-- Witness of C7 (amended), the example of the specification:
`"abc|1000>2000|My%20Run|emerald|cfg|3"`. -/
theorem parseSavedGames_runEntry_witness :
    (∀ f ∈ ["abc", "1000>2000", "My%20Run", "emerald", "cfg"], plainField f) ∧
    plainField "3" ∧ decodeURIComponent "My%20Run" = .ok "My Run" ∧
    parseSavedGames "abc|1000>2000|My%20Run|emerald|cfg|3" =
      .ok (.obj [("abc", .obj [("id", .str "abc"), ("created", .str "1000"),
        ("updated", .str "2000"), ("name", .str "My Run"), ("game", .str "emerald"),
        ("settings", .str "cfg"), ("attempts", .int 3)])]) :=
  ⟨by decide, by decide, rfl,
    parseSavedGames_runEntry "abc" "1000>2000" "My%20Run" "emerald" "cfg" "3" "My Run"
      (by decide) (by decide) rfl⟩

/-- C7 refuted as stated: in `"abc|1000>|My%20Run|emerald|cfg|3"` the time field
contains `>`, with nothing after it, and the record has no `updated` field (rather
than an `updated` equal to the empty part after `>`). -/
theorem empty_updated_part_is_dropped :
    '>' ∈ "1000>".data ∧
    parseSavedGames (runEntry "abc" "1000>" "My%20Run" "emerald" "cfg" "3") =
      .ok (.obj [("abc", .obj [("id", .str "abc"), ("created", .str "1000"),
        ("name", .str "My Run"), ("game", .str "emerald"), ("settings", .str "cfg"),
        ("attempts", .int 3)])]) :=
  ⟨by decide, rfl⟩

theorem not_ws_of_digit {c : Char} (h : c.isDigit = true) : isStrWhiteSpace c = false := by
  simp only [Char.isDigit, Bool.and_eq_true, decide_eq_true_eq] at h
  have h1 : 48 ≤ c.toNat := by
    have := h.1
    rw [ge_iff_le, UInt32.le_def] at this
    exact this
  have h2 : c.toNat ≤ 57 := by
    have := h.2
    rw [UInt32.le_def] at this
    exact this
  simp only [isStrWhiteSpace, Bool.decide_or, Bool.decide_and, Bool.or_eq_false_iff,
    decide_eq_false_iff_not, Bool.and_eq_false_iff]
  omega

theorem dropWhile_ws_of_digits {ds : List Char} (hd : ∀ c ∈ ds, c.isDigit = true) :
    ds.dropWhile isStrWhiteSpace = ds := by
  cases ds with
  | nil => rfl
  | cons d rest => simp [List.dropWhile_cons, not_ws_of_digit (hd d (List.mem_cons_self _ _))]

theorem trimWhiteSpace_digits {ds : List Char} (hd : ∀ c ∈ ds, c.isDigit = true) :
    trimWhiteSpace ds = ds := by
  unfold trimWhiteSpace
  rw [dropWhile_ws_of_digits hd, dropWhile_ws_of_digits fun c hc => hd c (List.mem_reverse.mp hc),
    List.reverse_reverse]

theorem takeWhile_digits {ds : List Char} (hd : ∀ c ∈ ds, c.isDigit = true) :
    ds.takeWhile Char.isDigit = ds ∧ ds.dropWhile Char.isDigit = [] := by
  induction ds with
  | nil => simp
  | cons d rest ih =>
    have h := ih fun c hc => hd c (List.mem_cons_of_mem _ hc)
    simp [List.takeWhile_cons, List.dropWhile_cons, hd d (List.mem_cons_self _ _), h.1, h.2]

theorem unsignedDecimal_digits {ds : List Char} (hne : ds ≠ [])
    (hd : ∀ c ∈ ds, c.isDigit = true) : unsignedDecimal? ds = some (digitsVal ds, 0) := by
  unfold unsignedDecimal?
  simp [(takeWhile_digits hd).1, (takeWhile_digits hd).2, hne, exponent?]

theorem log2Fuel_spec : ∀ fuel n : Nat, n ≤ fuel → 0 < n →
    2 ^ log2Fuel fuel n ≤ n ∧ n < 2 ^ (log2Fuel fuel n + 1)
  | 0, n, h, hpos => by omega
  | fuel + 1, n, h, hpos => by
    unfold log2Fuel
    by_cases h2 : n < 2
    · have : n = 1 := by omega
      subst this
      simp
    · rw [if_neg h2]
      have ih := log2Fuel_spec fuel (n / 2) (by omega) (by omega)
      rw [pow_succ, pow_succ]
      omega

theorem log2Floor_spec {n : Nat} (h : 0 < n) :
    2 ^ log2Floor n ≤ n ∧ n < 2 ^ (log2Floor n + 1) :=
  log2Fuel_spec n n (Nat.le_refl n) h

theorem normDec_mul_pow (n : Int) : ∀ j : Nat, normDec (n * 10 ^ j) j = .fin n 0
  | 0 => by simp [normDec]
  | j + 1 => by
    have h1 : (n * 10 ^ (j + 1)) % 10 = 0 := by
      rw [pow_succ, ← mul_assoc]
      exact Int.mul_emod_left _ _
    have h2 : (n * 10 ^ (j + 1)) / 10 = n * 10 ^ j := by
      rw [pow_succ, ← mul_assoc]
      exact Int.mul_ediv_cancel _ (by norm_num)
    rw [normDec, if_pos h1, h2, normDec_mul_pow n j]

/-- A positive integer below `2 ^ 53` is a double: the conversion is exact. -/
theorem roundToDouble_int {n : Nat} (hpos : 0 < n) (hlt : n < 2 ^ 53) :
    roundToDouble false n 1 = .fin n 0 := by
  obtain ⟨hlo, hhi⟩ := log2Floor_spec hpos
  have hL : log2Floor n ≤ 52 := by
    by_contra hc
    have : 2 ^ 53 ≤ 2 ^ log2Floor n := Nat.pow_le_pow_right (by norm_num) (by omega)
    omega
  have h1 : log2Floor 1 = 0 := rfl
  obtain ⟨j, hj⟩ : ∃ j, log2Floor n + j = 52 := ⟨52 - log2Floor n, by omega⟩
  have he0 : ((log2Floor n : Int) - ((0 : Nat) : Int) - 53) = -((j + 1 : Nat) : Int) := by
    push_cast
    omega
  have hq0 : 2 ^ 53 ≤ n * 2 ^ (j + 1) := by
    calc 2 ^ 53 = 2 ^ log2Floor n * 2 ^ (j + 1) := by rw [← pow_add]; congr 1; omega
      _ ≤ n * 2 ^ (j + 1) := Nat.mul_le_mul_right _ hlo
  unfold roundToDouble
  have hn0 : ¬ (n = 0 ∨ (1 : Nat) = 0) := by omega
  rw [if_neg hn0]
  simp only [h1, he0]
  have hneg : ¬ (0 : Int) ≤ -((j + 1 : Nat) : Int) := by push_cast; omega
  simp only [hneg, if_false, neg_neg, Int.toNat_ofNat, Nat.div_one, hq0, if_true]
  have he1 : max (-((j + 1 : Nat) : Int) + 1) (-1074) = -(j : Int) := by
    push_cast
    omega
  rw [he1]
  cases j with
  | zero =>
    simp only [Nat.cast_zero, neg_zero, le_refl, if_true, Int.toNat_zero, pow_zero, mul_one,
      Nat.div_one, Nat.mod_one, Nat.mul_zero]
    have h53 : ¬ (2 ^ 53 ≤ n) := by omega
    simp [h53]
  | succ i =>
    have hneg2 : ¬ (0 : Int) ≤ -((i + 1 : Nat) : Int) := by push_cast; omega
    simp only [hneg2, if_false, neg_neg, Int.toNat_ofNat, Nat.div_one, Nat.mod_one, Nat.mul_zero]
    have hc : ¬ (1 < 0 ∨ 0 = 1 ∧ n * 2 ^ (i + 1) % 2 = 1) := by omega
    simp only [hc, if_false, Bool.false_eq_true, one_mul]
    have : ((n * 2 ^ (i + 1) * 5 ^ (i + 1) : Nat) : Int) = (n : Int) * 10 ^ (i + 1) := by
      push_cast
      rw [mul_assoc, ← mul_pow]
      norm_num
    rw [this, normDec_mul_pow]

/-- The unary `+` on a decimal numeral: a non-empty string of digits converts to the
double nearest to the integer it denotes. -/
theorem stringToNumber_digits (s : String) (hne : s.data ≠ [])
    (hd : ∀ c ∈ s.data, c.isDigit = true) :
    stringToNumber s = roundToDouble false (digitsVal s.data) 1 := by
  unfold stringToNumber
  rw [trimWhiteSpace_digits hd]
  have hx : ∀ c : Char, c.isDigit = true →
      c ≠ 'x' ∧ c ≠ 'X' ∧ c ≠ 'o' ∧ c ≠ 'O' ∧ c ≠ 'b' ∧ c ≠ 'B' ∧ c ≠ '+' ∧ c ≠ '-' ∧ c ≠ 'I' := by
    intro c hc
    refine ⟨?_, ?_, ?_, ?_, ?_, ?_, ?_, ?_, ?_⟩ <;> (rintro rfl; revert hc; decide)
  split
  · exact absurd ‹_› hne
  case h_8 =>
    cases hs : s.data with
    | nil => exact absurd hs hne
    | cons d rest =>
      have hdd := hx d (hd d (hs ▸ List.mem_cons_self _ _))
      have hbody : (match d :: rest with
          | '+' :: r => (false, r)
          | '-' :: r => (true, r)
          | r => (false, r)) = (false, d :: rest) := by
        split
        · rename_i heq
          exact absurd (List.cons.inj heq).1 hdd.2.2.2.2.2.2.1
        · rename_i heq
          exact absurd (List.cons.inj heq).1 hdd.2.2.2.2.2.2.2.1
        · rfl
      have hinf : d :: rest ≠ "Infinity".data := by
        intro heq
        exact hdd.2.2.2.2.2.2.2.2 (List.cons.inj heq).1
      rw [hbody]
      simp only [hinf, if_false]
      rw [unsignedDecimal_digits (by simp) (hs ▸ hd)]
      have hnn : ¬ ((digitsVal (d :: rest) : Int) < 0) := by omega
      simp [mkDec, hnn]
  all_goals
    rename_i hs heq
    exact absurd (hd _ (heq ▸ List.mem_cons_of_mem _ (List.mem_cons_self _ _))) (by decide)

theorem savedRecord_attempts (id time decoded : String) (game settings attempts : JsVal) :
    propOf (savedRecord id time decoded game settings attempts) "attempts" = attempts := by
  unfold savedRecord
  by_cases hu : updatedPart time = "" <;> simp [hu, propOf, getProp, lookup]

theorem split_runEntryNoAttempts (id time name game settings : String)
    (h : ∀ f ∈ [id, time, name, game, settings], plainField f) :
    split ',' (runEntryNoAttempts id time name game settings) =
      [runEntryNoAttempts id time name game settings] ∧
    split '|' (runEntryNoAttempts id time name game settings) =
      [id, time, name, game, settings] ∧
    (runEntryNoAttempts id time name game settings).data.length ≠ 0 := by
  have hid := h id (by simp)
  have htime := h time (by simp)
  have hnm := h name (by simp)
  have hgame := h game (by simp)
  have hset := h settings (by simp)
  have hdata : (runEntryNoAttempts id time name game settings).data =
      id.data ++ '|' :: (time.data ++ '|' :: (name.data ++ '|' :: (game.data ++ '|' ::
        settings.data))) := by
    simp [runEntryNoAttempts, String.data_append]
  refine ⟨?_, ?_, ?_⟩
  · unfold split
    rw [splitChars_of_not_mem]
    · rfl
    · rw [hdata]
      simp [hid.1, htime.1, hnm.1, hgame.1, hset.1]
  · unfold split
    rw [hdata, splitChars_append hid.2, splitChars_append htime.2,
      splitChars_append hnm.2, splitChars_append hgame.2, splitChars_of_not_mem hset.2]
    rfl
  · rw [hdata, List.length_append, List.length_cons]
    omega

/-- The run index made of one non-empty segment. -/
theorem parseSavedGames_single (s : String) (fields : List String)
    (h1 : split ',' s = [s]) (h2 : split '|' s = fields) (hlen : s.data.length ≠ 0) :
    parseSavedGames s =
      match savedGame [] fields with
      | .ok acc => .ok (.obj acc)
      | .error e => .error e := by
  have hne : s ≠ "" := by
    intro h0
    rw [h0] at hlen
    exact hlen rfl
  unfold parseSavedGames
  rw [if_neg hne, h1]
  simp only [List.filter_cons, hlen, ne_eq, not_false_eq_true, decide_True,
    if_true, List.filter_nil, List.map_cons, List.map_nil, h2, reduceE, bind, Except.bind]
  cases savedGame [] fields <;> rfl

/-- C8, as amended: for a run-index entry that `parseSavedGames` accepts, the record's
`attempts` is 1 when the attempts field is omitted, and otherwise it is the number that
the unary `+` makes of the field (the double nearest to the numeral) when that number
is neither zero nor `NaN`, and 1 when it is; for a field that is the decimal numeral of
a positive integer below `2 ^ 53` it is that integer. -/
theorem attempts_is_field_value_or_one (id time name game settings decoded : String)
    (h : ∀ f ∈ [id, time, name, game, settings], plainField f)
    (hname : decodeURIComponent name = .ok decoded) :
    AttemptsOf (runEntryNoAttempts id time name game settings) id (.int 1) ∧
    ∀ attempts : String, plainField attempts →
      AttemptsOf (runEntry id time name game settings attempts) id
        (if (stringToNumber attempts).truthy then .num (stringToNumber attempts) else .int 1) ∧
      (attempts.data ≠ [] → (∀ c ∈ attempts.data, c.isDigit = true) →
        digitsVal attempts.data ≠ 0 → digitsVal attempts.data < 2 ^ 53 →
        AttemptsOf (runEntry id time name game settings attempts) id
          (.int (digitsVal attempts.data))) := by
  constructor
  · obtain ⟨h1, h2, hlen⟩ := split_runEntryNoAttempts id time name game settings h
    refine ⟨savedRecord id time decoded (.str game) (.str settings) (.int 1), ?_,
      savedRecord_attempts id time decoded _ _ _⟩
    rw [parseSavedGames_single _ _ h1 h2 hlen, savedGame_ok [] id time name decoded _ hname,
      setProp_nil]
    rfl
  · intro attempts ha
    obtain ⟨h1, h2⟩ := split_runEntry id time name game settings attempts h ha
    have hlen : (runEntry id time name game settings attempts).data.length ≠ 0 := by
      rw [runEntry_data, List.length_append, List.length_cons]
      omega
    have hgen : AttemptsOf (runEntry id time name game settings attempts) id
        (if (stringToNumber attempts).truthy then .num (stringToNumber attempts)
          else .int 1) := by
      refine ⟨savedRecord id time decoded (.str game) (.str settings)
          ((JsVal.num (stringToNumber attempts)).or (.int 1)), ?_,
        savedRecord_attempts id time decoded _ _ _⟩
      rw [parseSavedGames_single _ _ h1 h2 hlen, savedGame_ok [] id time name decoded _ hname,
        setProp_nil]
      simp only [fieldAt, List.get?_cons_zero, List.get?_cons_succ]
    refine ⟨hgen, fun hne hd hpos hlt => ?_⟩
    rw [stringToNumber_digits attempts hne hd,
      roundToDouble_int (Nat.pos_of_ne_zero hpos) hlt] at hgen
    have ht : (JsNum.fin (digitsVal attempts.data) 0).truthy = true := by
      simp [JsNum.truthy, hpos]
    rw [ht] at hgen
    exact hgen

/-- Witness of C8 (amended): with the fields of the specification's example, an omitted
attempts field gives 1, the field `3` gives 3, the field `9007199254740993`
(`2 ^ 53 + 1`) gives the double 9007199254740992, and the field `1e-400`, which
converts to zero, gives 1. -/
theorem attempts_is_field_value_or_one_witness :
    (∀ f ∈ ["abc", "1000>2000", "My%20Run", "emerald", "cfg"], plainField f) ∧
    decodeURIComponent "My%20Run" = .ok "My Run" ∧
    AttemptsOf (runEntryNoAttempts "abc" "1000>2000" "My%20Run" "emerald" "cfg") "abc" (.int 1) ∧
    (plainField "3" ∧ "3".data ≠ [] ∧ (∀ c ∈ "3".data, c.isDigit = true) ∧
      digitsVal "3".data ≠ 0 ∧ digitsVal "3".data < 2 ^ 53 ∧
      AttemptsOf (runEntry "abc" "1000>2000" "My%20Run" "emerald" "cfg" "3") "abc" (.int 3)) ∧
    (plainField "9007199254740993" ∧
      AttemptsOf (runEntry "abc" "1000>2000" "My%20Run" "emerald" "cfg" "9007199254740993")
        "abc" (.int 9007199254740992)) ∧
    (plainField "1e-400" ∧
      AttemptsOf (runEntry "abc" "1000>2000" "My%20Run" "emerald" "cfg" "1e-400") "abc"
        (.int 1)) := by
  have h := attempts_is_field_value_or_one "abc" "1000>2000" "My%20Run" "emerald" "cfg"
    "My Run" (by decide) rfl
  have hsmall : stringToNumber "1e-400" = .fin 0 0 := by decide!
  have h3 := (h.2 "1e-400" (by decide)).1
  rw [hsmall] at h3
  exact ⟨by decide, rfl, h.1,
    ⟨by decide, by decide, by decide, by decide, by decide,
      (h.2 "3" (by decide)).2 (by decide) (by decide) (by decide) (by decide)⟩,
    ⟨by decide, (h.2 "9007199254740993" (by decide)).1⟩,
    ⟨by decide, h3⟩⟩

/-- C8 refuted as stated: the attempts field `"-3"` gives `attempts = -3` and the field
`"2.5"` gives `attempts = 25 / 10`, not 1; neither is a positive integer. -/
theorem negative_and_fractional_attempts_kept :
    AttemptsOf (runEntry "abc" "1000" "My%20Run" "emerald" "cfg" "-3") "abc"
      (.num (.fin (-3) 0)) ∧
    AttemptsOf (runEntry "abc" "1000" "My%20Run" "emerald" "cfg" "2.5") "abc"
      (.num (.fin 25 1)) :=
  ⟨⟨_, rfl, rfl⟩, ⟨_, rfl, rfl⟩⟩

theorem lookup_replaceProp (k : String) (v : JsVal) (k' : String) :
    ∀ ps : List (String × JsVal), lookup k' (replaceProp k v ps) =
      if k' = k then (lookup k ps).map (fun _ => v) else lookup k' ps
  | [] => by simp [replaceProp, lookup]
  | (k1, v1) :: ps => by
    have ih := lookup_replaceProp k v k' ps
    by_cases h1 : k1 = k
    · subst h1
      by_cases h2 : k1 = k'
      · simp [replaceProp, lookup, h2]
      · have h2' : ¬ k' = k1 := fun h => h2 h.symm
        simp [replaceProp, lookup, h2, h2']
    · by_cases h2 : k' = k
      · subst h2
        simp only [replaceProp, lookup, h1, if_false, ih, if_true]
      · simp only [replaceProp, lookup, h1, if_false, ih, h2]

theorem lookup_insertIndexKey (i : Nat) (k : String) (v : JsVal) (k' : String) :
    ∀ ps : List (String × JsVal), lookup k ps = none →
      lookup k' (insertIndexKey i k v ps) = if k' = k then some v else lookup k' ps
  | [], _ => by simp [insertIndexKey, lookup, eq_comm]
  | (k1, v1) :: ps, h => by
    have hk1 : k1 ≠ k := by
      intro h1
      simp [lookup, h1] at h
    have hps : lookup k ps = none := by simpa [lookup, hk1] using h
    have ih := lookup_insertIndexKey i k v k' ps hps
    unfold insertIndexKey
    by_cases h2 : k' = k
    · subst h2
      split
      · split
        · simp only [lookup, hk1, if_false, ih, if_true]
        · simp [lookup]
      · simp [lookup]
    · have h2' : ¬ k = k' := fun h => h2 h.symm
      split
      · split
        · simp only [lookup, ih, h2, if_false]
        · simp only [lookup, h2', h2, if_false]
      · simp only [lookup, h2', h2, if_false]

theorem lookup_append_single (k : String) (v : JsVal) (k' : String) :
    ∀ ps : List (String × JsVal), lookup k ps = none →
      lookup k' (ps ++ [(k, v)]) = if k' = k then some v else lookup k' ps
  | [], _ => by simp [lookup, eq_comm]
  | (k1, v1) :: ps, h => by
    have hk1 : k1 ≠ k := by
      intro h1
      simp [lookup, h1] at h
    have hps : lookup k ps = none := by simpa [lookup, hk1] using h
    have ih := lookup_append_single k v k' ps hps
    by_cases h2 : k' = k
    · subst h2
      simp only [List.cons_append, lookup, hk1, if_false, List.append_eq, ih, if_true]
    · simp only [List.cons_append, lookup, List.append_eq, ih, h2, if_false]

/-- Reading a property after `setProp`. -/
theorem lookup_setProp (acc : List (String × JsVal)) (k : String) (v : JsVal) (k' : String) :
    lookup k' (setProp acc k v) = if k' = k then some v else lookup k' acc := by
  unfold setProp
  cases h : lookup k acc with
  | some w =>
    simp only [lookup_replaceProp, h, Option.map_some']
  | none =>
    simp only
    cases arrayIndex? k with
    | some i => exact lookup_insertIndexKey i k v k' acc h
    | none => exact lookup_append_single k v k' acc h

theorem savedGame_decoded (acc : List (String × JsVal)) (id time : String)
    (rest : List String) :
    (∀ d, decodeURIComponent (nameText (id :: time :: rest)) = .ok d →
      ∃ r, savedGame acc (id :: time :: rest) = .ok (setProp acc id r) ∧
        propOf r "id" = .str id) ∧
    (∀ e, decodeURIComponent (nameText (id :: time :: rest)) = .error e →
      savedGame acc (id :: time :: rest) = .error e) := by
  cases rest with
  | nil =>
    have hn : nameText [id, time] = "undefined" := rfl
    rw [hn]
    constructor
    · intro d hd
      unfold savedGame
      simp only [hd, bind, Except.bind, pure, Except.pure, fieldAt, List.get?_cons_zero,
        List.get?_cons_succ, List.get?_nil, JsVal.toStr]
      exact ⟨_, rfl, by simp [propOf, getProp, lookup]⟩
    · intro e hd
      unfold savedGame
      simp only [hd, bind, Except.bind, pure, Except.pure, fieldAt, List.get?_cons_zero,
        List.get?_cons_succ, List.get?_nil, JsVal.toStr]
  | cons name rest =>
    have hn : nameText (id :: time :: name :: rest) = name := rfl
    rw [hn]
    constructor
    · intro d hd
      unfold savedGame
      simp only [hd, bind, Except.bind, pure, Except.pure, fieldAt, List.get?_cons_zero,
        List.get?_cons_succ, JsVal.toStr]
      exact ⟨_, rfl, by simp [propOf, getProp, lookup]⟩
    · intro e hd
      unfold savedGame
      simp only [hd, bind, Except.bind, pure, Except.pure, fieldAt, List.get?_cons_zero,
        List.get?_cons_succ, JsVal.toStr]

theorem savedGame_accepted (acc : List (String × JsVal)) (fields : List String)
    (h : acceptedFields fields = true) :
    ∃ r, savedGame acc fields = .ok (setProp acc (fields.head?.getD "") r) ∧
      propOf r "id" = .str (fields.head?.getD "") := by
  match fields, h with
  | [], h => simp [acceptedFields] at h
  | [id], h => simp [acceptedFields] at h
  | id :: time :: rest, h =>
    cases hd : decodeURIComponent (nameText (id :: time :: rest)) with
    | ok d => exact (savedGame_decoded acc id time rest).1 d hd
    | error e => simp [acceptedFields, hd] at h

theorem savedGame_rejected (acc : List (String × JsVal)) (fields : List String)
    (hne : fields ≠ []) (h : acceptedFields fields = false) :
    ∃ e, savedGame acc fields = .error e := by
  match fields, hne, h with
  | [id], _, _ => exact ⟨.typeError, rfl⟩
  | id :: time :: rest, _, h =>
    cases hd : decodeURIComponent (nameText (id :: time :: rest)) with
    | ok d => simp [acceptedFields, hd] at h
    | error e => exact ⟨e, (savedGame_decoded acc id time rest).2 e hd⟩

/-- The property list holds, under the key `k`, a record whose `id` is `k`. -/
theorem reduceE_accepted : ∀ (L : List (List String)) (acc : List (String × JsVal)),
    (∀ fs ∈ L, acceptedFields fs = true) →
    ∃ acc', reduceE savedGame acc L = .ok acc' ∧
      (∀ k, (∃ r, lookup k acc = some r ∧ propOf r "id" = .str k) →
        ∃ r, lookup k acc' = some r ∧ propOf r "id" = .str k) ∧
      (∀ fs ∈ L, ∃ r, lookup (fs.head?.getD "") acc' = some r ∧
        propOf r "id" = .str (fs.head?.getD ""))
  | [], acc, _ => ⟨acc, rfl, fun _ h => h, fun _ h => absurd h (List.not_mem_nil _)⟩
  | fs :: L, acc, h => by
    obtain ⟨r, hr, hid⟩ := savedGame_accepted acc fs (h fs (List.mem_cons_self _ _))
    obtain ⟨acc', hacc', hkeep, hall⟩ := reduceE_accepted L (setProp acc (fs.head?.getD "") r)
      fun gs hgs => h gs (List.mem_cons_of_mem _ hgs)
    have hstep : ∀ k, (∃ r, lookup k acc = some r ∧ propOf r "id" = .str k) →
        ∃ r', lookup k (setProp acc (fs.head?.getD "") r) = some r' ∧
          propOf r' "id" = .str k := by
      rintro k ⟨r0, hr0, hid0⟩
      rw [lookup_setProp]
      by_cases hk : k = fs.head?.getD ""
      · rw [if_pos hk, hk]
        exact ⟨r, rfl, hid⟩
      · rw [if_neg hk]
        exact ⟨r0, hr0, hid0⟩
    refine ⟨acc', by simp only [reduceE, hr, hacc'], fun k hk => hkeep k (hstep k hk), ?_⟩
    intro gs hgs
    rcases List.mem_cons.mp hgs with rfl | hgs'
    · apply hkeep
      rw [lookup_setProp, if_pos rfl]
      exact ⟨r, rfl, hid⟩
    · exact hall gs hgs'

theorem reduceE_rejected : ∀ (L : List (List String)) (acc : List (String × JsVal)),
    (∀ fs ∈ L, fs ≠ []) → (∃ fs ∈ L, acceptedFields fs = false) →
    ∃ e, reduceE savedGame acc L = .error e
  | [], _, _, h => by
    obtain ⟨fs, hfs, -⟩ := h
    exact absurd hfs (List.not_mem_nil _)
  | fs :: L, acc, hne, h => by
    cases hfs : acceptedFields fs with
    | false =>
      obtain ⟨e, he⟩ := savedGame_rejected acc fs (hne fs (List.mem_cons_self _ _)) hfs
      exact ⟨e, by simp only [reduceE, he]⟩
    | true =>
      obtain ⟨r, hr, -⟩ := savedGame_accepted acc fs hfs
      obtain ⟨gs, hgs, hbad⟩ := h
      have hgs' : gs ∈ L := by
        rcases List.mem_cons.mp hgs with rfl | h'
        · rw [hfs] at hbad
          exact Bool.noConfusion hbad
        · exact h'
      obtain ⟨e, he⟩ := reduceE_rejected L (setProp acc (fs.head?.getD "") r)
        (fun ks hks => hne ks (List.mem_cons_of_mem _ hks)) ⟨gs, hgs', hbad⟩
      exact ⟨e, by simp only [reduceE, hr, he]⟩

theorem parseSavedGames_eq (s : String) :
    parseSavedGames s =
      match reduceE savedGame [] ((segments s).map (split '|')) with
      | .ok acc => .ok (.obj acc)
      | .error e => .error e := by
  unfold parseSavedGames
  by_cases hs : s = ""
  · subst hs
    rfl
  · simp only [hs, if_false, segments, bind, Except.bind, pure, Except.pure]
    cases reduceE savedGame [] _ <;> rfl

/-- C9, as amended: `parseSavedGames` either succeeds for the whole run index or fails
for the whole run index. When every non-empty comma-delimited segment contains a `|`
and has a name that percent-decodes, the result is a mapping that holds, under the id
of every such segment, a record with that id. As soon as one non-empty segment has no
`|` or a name with malformed percent-encoding, the call raises and there is no result
at all. -/
theorem parseSavedGames_all_or_nothing (s : String) :
    ((∀ seg ∈ segments s, accepted seg = true) →
      ∃ acc, parseSavedGames s = .ok (.obj acc) ∧
        ∀ seg ∈ segments s, ∃ r, lookup (segmentId seg) acc = some r ∧
          propOf r "id" = .str (segmentId seg)) ∧
    ((∃ seg ∈ segments s, accepted seg = false) → ∃ e, parseSavedGames s = .error e) := by
  rw [parseSavedGames_eq]
  constructor
  · intro h
    obtain ⟨acc, hacc, -, hall⟩ := reduceE_accepted ((segments s).map (split '|')) []
      (by
        intro fs hfs
        obtain ⟨seg, hseg, rfl⟩ := List.mem_map.mp hfs
        exact h seg hseg)
    refine ⟨acc, by rw [hacc], fun seg hseg => ?_⟩
    exact hall (split '|' seg) (List.mem_map_of_mem _ hseg)
  · rintro ⟨seg, hseg, hbad⟩
    obtain ⟨e, he⟩ := reduceE_rejected ((segments s).map (split '|')) []
      (by
        intro fs hfs
        obtain ⟨seg', -, rfl⟩ := List.mem_map.mp hfs
        unfold split
        simp [splitChars_ne_nil])
      ⟨split '|' seg, List.mem_map_of_mem _ hseg, hbad⟩
    exact ⟨e, by rw [he]⟩

/-- Witness of C9 (amended): an index with two accepted segments and an empty one
parses, and an index with a segment without `|` raises. -/
theorem parseSavedGames_all_or_nothing_witness :
    (∀ seg ∈ segments "abc|1000|My%20Run|emerald|cfg|3,,b|2|n", accepted seg = true) ∧
    (∃ acc, parseSavedGames "abc|1000|My%20Run|emerald|cfg|3,,b|2|n" = .ok (.obj acc) ∧
      ∀ seg ∈ segments "abc|1000|My%20Run|emerald|cfg|3,,b|2|n",
        ∃ r, lookup (segmentId seg) acc = some r ∧ propOf r "id" = .str (segmentId seg)) ∧
    (∃ seg ∈ segments "abc|1000|My%20Run|emerald|cfg|3,nopipe", accepted seg = false) ∧
    (∃ e, parseSavedGames "abc|1000|My%20Run|emerald|cfg|3,nopipe" = .error e) :=
  ⟨by decide,
    (parseSavedGames_all_or_nothing "abc|1000|My%20Run|emerald|cfg|3,,b|2|n").1 (by decide),
    ⟨"nopipe", by decide, by decide⟩,
    (parseSavedGames_all_or_nothing "abc|1000|My%20Run|emerald|cfg|3,nopipe").2
      ⟨"nopipe", by decide, by decide⟩⟩

/-- C9 refuted as stated: a run index whose second segment has no `|` makes
`parseSavedGames` raise a TypeError, and one whose second segment has the name
`%E0%A4%A` makes it raise a URIError; the record of the well-formed first segment is
not returned. -/
theorem malformed_segment_fails_whole_parse :
    parseSavedGames "abc|1000>2000|My%20Run|emerald|cfg|3,nopipe" = .error .typeError ∧
    parseSavedGames "abc|1000>2000|My%20Run|emerald|cfg|3,b|1|%E0%A4%A|emerald|cfg|1" =
      .error .uriError :=
  ⟨rfl, rfl⟩

theorem mapE_exists {α β : Type} {f : α → Except JsError β} (xs : List α)
    (h : ∀ x ∈ xs, ∃ y, f x = .ok y) : ∃ ys, mapE f xs = .ok ys := by
  obtain ⟨ys, hys, -⟩ := mapE_forall₂ (fun _ _ => True) xs fun x hx =>
    (h x hx).imp fun _ hy => ⟨hy, trivial⟩
  exact ⟨ys, hys⟩

theorem route_bossEntry_ok (boss : JsVal) (h : boss.nullish = false) :
    ∃ r, Route.bossEntry boss = .ok r := by
  unfold Route.bossEntry
  simp only [getProp_of_not_nullish h, bind, Except.bind, pure, Except.pure]
  exact ⟨_, rfl⟩

theorem standalone_bossEntry_ok (boss : JsVal) (h : boss.nullish = false) :
    ∃ r, Standalone.bossEntry boss = .ok r := by
  unfold Standalone.bossEntry
  simp only [getProp_of_not_nullish h, bind, Except.bind, pure, Except.pure]
  exact ⟨_, rfl⟩

theorem team_returns (props : List (String × JsVal))
    (h : (propOf (.obj props) "__team").truthy = false ∨
      ∃ ids : List String, lookup "__team" props = some (.arr (ids.map JsVal.str))) :
    (∃ rs, Route.extractTeamData (.obj props) = .ok rs) ∧
    (∃ rs, Standalone.extractTeamData (.obj props) = .ok rs) := by
  rcases h with hf | ⟨ids, hids⟩
  · have hget : getProp (.obj props) "__team" = .ok (propOf (.obj props) "__team") :=
rfl
    constructor
    · unfold Route.extractTeamData
      simp only [hget, bind, Except.bind, JsVal.or, hf, pure, Except.pure]
      exact ⟨_, rfl⟩
    · unfold Standalone.extractTeamData
      simp only [hget, bind, Except.bind, JsVal.or, hf, pure, Except.pure]
      exact ⟨_, rfl⟩
  · exact ⟨⟨_, route_extractTeamData_eq props ids hids⟩,
      ⟨_, standalone_extractTeamData_eq props ids hids⟩⟩

theorem bosses_return (props : List (String × JsVal))
    (h : (propOf (.obj props) "__teams").truthy = false ∨
      ∃ bosses : List JsVal, lookup "__teams" props = some (.arr bosses) ∧
        ∀ b ∈ bosses, b.nullish = false) :
    (∃ rs, Route.extractBossTeams (.obj props) = .ok rs) ∧
    (∃ rs, Standalone.extractBossTeams (.obj props) = .ok rs) := by
  have hget : getProp (.obj props) "__teams" = .ok (propOf (.obj props) "__teams") := rfl
  rcases h with hf | ⟨bosses, hb, hnn⟩
  · constructor
    · unfold Route.extractBossTeams
      simp only [hget, bind, Except.bind, JsVal.or, hf]
      exact ⟨_, rfl⟩
    · unfold Standalone.extractBossTeams
      simp only [hget, bind, Except.bind, JsVal.or, hf]
      exact ⟨_, rfl⟩
  · have hp : propOf (.obj props) "__teams" = .arr bosses := by
      rw [propOf_obj, hb]; rfl
    constructor
    · unfold Route.extractBossTeams
      simp only [hget, hp, bind, Except.bind, JsVal.or, JsVal.truthy, if_true]
      exact mapE_exists bosses fun b hbm => route_bossEntry_ok b (hnn b hbm)
    · unfold Standalone.extractBossTeams
      simp only [hget, hp, bind, Except.bind, JsVal.or, JsVal.truthy, if_true]
      exact mapE_exists bosses fun b hbm => standalone_bossEntry_ok b (hnn b hbm)

/-- C10, as amended: `readGameData` returns `{}` for empty text and for text that
`JSON.parse` rejects, and on `{}` every view returns the empty sequence; on a result
that is a mapping without null entries, whose `__team` is falsy or a list of location
ids and whose `__teams` is falsy or a list without null elements, each of the four
views (in both files) returns a sequence. -/
theorem views_return_on_well_shaped (s : String) :
    ((s = "" ∨ ∃ e, JSON.parse s = .error e) → readGameData (.str s) = .obj []) ∧
    ViewsEmpty (.obj []) ∧
    (∀ props, readGameData (.str s) = .obj props → WellShaped props →
      ViewsReturn (.obj props)) := by
  refine ⟨?_, ⟨rfl, rfl, rfl, rfl, rfl, rfl, rfl, rfl⟩, ?_⟩
  · rintro (rfl | ⟨e, he⟩)
    · rfl
    · unfold readGameData
      by_cases ht : (JsVal.str s).truthy = true
      · simp [ht, he]
      · simp [ht]
  · rintro props - ⟨hrec, hteam, hteams⟩
    obtain ⟨b1, hb1, -⟩ := route_extractBoxData_spec props hrec
    obtain ⟨b2, hb2, -⟩ := standalone_extractBoxData_spec props hrec
    obtain ⟨d1, hd1, -⟩ := route_extractDeadData_spec props hrec
    obtain ⟨d2, hd2, -⟩ := standalone_extractDeadData_spec props hrec
    exact ⟨(team_returns props hteam).1, ⟨b1, hb1⟩, ⟨d1, hd1⟩, (bosses_return props hteams).1,
      (team_returns props hteam).2, ⟨b2, hb2⟩, ⟨d2, hd2⟩, (bosses_return props hteams).2⟩

/-- Witness of C10 (amended): text that is not JSON, and the text of a small
well-shaped snapshot. -/
theorem views_return_on_well_shaped_witness :
    ((∃ e, JSON.parse "\x7boops" = .error e) ∧ readGameData (.str "\x7boops") = .obj []) ∧
    (readGameData (.str "\x7b\"__team\":[\"a\"],\"a\":\x7b\"pokemon\":\"mudkip\",\"status\":1\x7d\x7d") =
        .obj [("__team", .arr [.str "a"]),
          ("a", .obj [("pokemon", .str "mudkip"), ("status", .int 1)])] ∧
      WellShaped [("__team", .arr [.str "a"]),
          ("a", .obj [("pokemon", .str "mudkip"), ("status", .int 1)])] ∧
      ViewsReturn (.obj [("__team", .arr [.str "a"]),
          ("a", .obj [("pokemon", .str "mudkip"), ("status", .int 1)])])) := by
  have hshape : WellShaped [("__team", .arr [.str "a"]),
      ("a", .obj [("pokemon", .str "mudkip"), ("status", .int 1)])] := by
    refine ⟨?_, Or.inr ⟨["a"], rfl⟩, Or.inl rfl⟩
    intro e he
    simp only [List.mem_cons, List.mem_singleton, List.not_mem_nil, or_false] at he
    rcases he with rfl | rfl <;> rfl
  exact ⟨⟨⟨_, rfl⟩, (views_return_on_well_shaped "\x7boops").1 (Or.inr ⟨_, rfl⟩)⟩,
    rfl, hshape,
    (views_return_on_well_shaped
      "\x7b\"__team\":[\"a\"],\"a\":\x7b\"pokemon\":\"mudkip\",\"status\":1\x7d\x7d").2.2 _ rfl hshape⟩

/-- C10 refuted as stated: `readGameData("null")` is `null`, on which
`extractTeamData`, `extractBoxData`, `extractDeadData` and `extractBossTeams` all raise
a TypeError; an object with a null entry makes the Box and Graveyard views raise, and
one with a `__team` that is not a list makes the Team view raise. -/
theorem views_raise_on_json_null :
    readGameData (.str "null") = .null ∧
    Route.extractTeamData (readGameData (.str "null")) = .error .typeError ∧
    Route.extractBoxData (readGameData (.str "null")) = .error .typeError ∧
    Route.extractDeadData (readGameData (.str "null")) = .error .typeError ∧
    Route.extractBossTeams (readGameData (.str "null")) = .error .typeError ∧
    Standalone.extractTeamData (readGameData (.str "null")) = .error .typeError ∧
    Standalone.extractBoxData (readGameData (.str "\x7b\"a\":null\x7d")) = .error .typeError ∧
    Standalone.extractDeadData (readGameData (.str "\x7b\"a\":null\x7d")) = .error .typeError ∧
    Standalone.extractTeamData (readGameData (.str "\x7b\"__team\":\"x\"\x7d")) =
      .error .typeError :=
  ⟨rfl, rfl, rfl, rfl, rfl, rfl, rfl, rfl, rfl⟩

theorem hex4_hexDigit : ∀ n, n < 32 →
    JSON.hex4? '0' '0' (JSON.hexDigit (n / 16)) (JSON.hexDigit (n % 16)) = some n := by
  decide

theorem unescape_simple (e x : Char) (rest s r : List Char) (he : e ≠ 'u')
    (hx : JSON.escape? e = some x) (h : unescape rest = some (s, r)) :
    unescape ('\\' :: e :: rest) = some (x :: s, r) := by
  rw [unescape.eq_def]
  simp [he, hx, h]

theorem unescape_hex (h1 h2 h3 h4 : Char) (n : Nat) (rest s r : List Char)
    (hn : JSON.hex4? h1 h2 h3 h4 = some n) (h : unescape rest = some (s, r)) :
    unescape ('\\' :: 'u' :: h1 :: h2 :: h3 :: h4 :: rest) = some (Char.ofNat n :: s, r) := by
  rw [unescape.eq_def]
  simp [hn, h]

theorem unescape_plain (c : Char) (rest s r : List Char) (hq : c ≠ '"') (hb : c ≠ '\\')
    (h : unescape rest = some (s, r)) : unescape (c :: rest) = some (c :: s, r) := by
  rw [unescape.eq_def]
  simp [hq, hb, h]

theorem char_of_toNat {c : Char} {n : Nat} (h : c.toNat = n) : c = Char.ofNat n := by
  rw [← h, Char.ofNat_toNat]

theorem unescape_escapeChar (c : Char) (rest s r : List Char)
    (h : unescape rest = some (s, r)) :
    unescape (JSON.escapeChar c ++ rest) = some (c :: s, r) := by
  unfold JSON.escapeChar
  split
  · subst_vars
    exact unescape_simple _ _ _ _ _ (by decide) rfl h
  split
  · subst_vars
    exact unescape_simple _ _ _ _ _ (by decide) rfl h
  split
  · rename_i hc
    rw [char_of_toNat hc]
    exact unescape_simple _ _ _ _ _ (by decide) rfl h
  split
  · rename_i hc
    rw [char_of_toNat hc]
    exact unescape_simple _ _ _ _ _ (by decide) rfl h
  split
  · rename_i hc
    rw [char_of_toNat hc]
    exact unescape_simple _ _ _ _ _ (by decide) rfl h
  split
  · rename_i hc
    rw [char_of_toNat hc]
    exact unescape_simple _ _ _ _ _ (by decide) rfl h
  split
  · rename_i hc
    rw [char_of_toNat hc]
    exact unescape_simple _ _ _ _ _ (by decide) rfl h
  split
  · rename_i hlt
    have hc := unescape_hex '0' '0' (JSON.hexDigit (c.toNat / 16)) (JSON.hexDigit (c.toNat % 16))
      c.toNat rest s r (hex4_hexDigit c.toNat hlt) h
    rw [Char.ofNat_toNat] at hc
    exact hc
  · exact unescape_plain c rest s r ‹_› ‹_› h

/-- Reading back the escaped text of a string, closed by a quote, gives the string and
what follows the quote. -/
theorem unescape_escape (cs rest : List Char) :
    unescape (JSON.escape cs ++ '"' :: rest) = some (cs, rest) := by
  induction cs with
  | nil =>
    rw [JSON.escape, List.nil_append, unescape.eq_def]
    simp
  | cons c cs ih =>
    rw [JSON.escape, List.append_assoc]
    exact unescape_escapeChar c _ cs rest ih

/-- Escaped texts followed by a quote determine the string and the rest. -/
theorem escape_cancel {a b r r' : List Char}
    (h : JSON.escape a ++ '"' :: r = JSON.escape b ++ '"' :: r') : a = b ∧ r = r' := by
  have h1 := unescape_escape a r
  rw [h, unescape_escape b r'] at h1
  have h2 := Option.some.inj h1
  exact ⟨(Prod.mk.inj h2).1.symm, (Prod.mk.inj h2).2.symm⟩

theorem fingerprint_eq (a b : String) :
    fingerprint a b = .str ⟨"\x7b\"gameData\":\"".data ++ (JSON.escape a.data ++
      '"' :: (",\"savesData\":\"".data ++ (JSON.escape b.data ++ '"' :: ['}'])))⟩ := by
  simp [fingerprint, JSON.stringify, JSON.serialize, JSON.serializeMembers, JSON.commaJoin,
    JSON.quote, JSON.escape, JSON.escapeChar]

theorem fingerprint_inj {a b a' b' : String} (h : fingerprint a b = fingerprint a' b') :
    a = a' ∧ b = b' := by
  rw [fingerprint_eq, fingerprint_eq] at h
  have h1 := congrArg String.data (JsVal.str.inj h)
  simp only at h1
  have h2 := List.append_cancel_left h1
  obtain ⟨ha, h3⟩ := escape_cancel h2
  have h4 := List.append_cancel_left h3
  obtain ⟨hb, -⟩ := escape_cancel h4
  exact ⟨String.ext ha, String.ext hb⟩

theorem strictEq_fingerprint (a b a' b' : String) :
    strictEq (fingerprint a b) (fingerprint a' b') = true ↔ a = a' ∧ b = b' := by
  constructor
  · intro h
    apply fingerprint_inj
    rw [fingerprint_eq, fingerprint_eq] at h ⊢
    simp only [strictEq, beq_iff_eq] at h
    rw [h]
  · rintro ⟨rfl, rfl⟩
    rw [fingerprint_eq]
    simp [strictEq]

/-- C14: the change fingerprint `JSON.stringify({ gameData, savesData })` of two raw
strings is a function of them that is injective: two fingerprints are equal, and are
found equal by `===`, if and only if both raw strings are equal. -/
theorem fingerprint_deterministic_and_injective (a b a' b' : String) :
    (fingerprint a b = fingerprint a' b' ↔ a = a' ∧ b = b') ∧
    (strictEq (fingerprint a b) (fingerprint a' b') = true ↔ a = a' ∧ b = b') := by
  refine ⟨⟨fingerprint_inj, ?_⟩, strictEq_fingerprint a b a' b'⟩
  rintro ⟨rfl, rfl⟩
  rfl

open Bridge

theorem window_of_data {browser : Browser} {data : GameData}
    (h : getCurrentGameData browser = some data) : browser.window = true := by
  unfold getCurrentGameData at h
  cases hw : browser.window
  · simp [hw] at h
  · rfl

theorem syncData_no_data (browser : Browser) (serverUrl : String) (outcome : FetchOutcome)
    (lastDataHash : JsVal) (h : getCurrentGameData browser = none) :
    syncData browser serverUrl outcome lastDataHash = (lastDataHash, none) := by
  simp only [syncData, h]

theorem syncData_data (browser : Browser) (serverUrl : String) (outcome : FetchOutcome)
    (lastDataHash : JsVal) (data : GameData) (h : getCurrentGameData browser = some data) :
    syncData browser serverUrl outcome lastDataHash =
      if strictEq (fingerprint data.gameData data.savesData) lastDataHash then
        (lastDataHash, none)
      else (fingerprint data.gameData data.savesData,
        some { url := serverUrl ++ "/api/update-data",
               body := fingerprint data.gameData data.savesData }) := by
  have hw := window_of_data h
  simp only [syncData, h, sendToStandaloneServer, hw, fingerprint]
  cases outcome with
  | ok b => cases b <;> simp
  | notOk => simp
  | rejected => simp

/-- The value of `lastDataHash` that stands for the payload last pushed. -/
theorem strictEq_fingerprint_null (a b : String) : strictEq (fingerprint a b) .null = false := by
  rw [fingerprint_eq]
  rfl

theorem strictEq_hashOf (p : String × String) (last : Option (String × String)) :
    strictEq (fingerprint p.1 p.2) (hashOf last) = decide (last = some p) := by
  cases last with
  | none => simp [hashOf, strictEq_fingerprint_null]
  | some q =>
    have h := strictEq_fingerprint p.1 p.2 q.1 q.2
    by_cases hq : q = p
    · subst hq
      simp [hashOf, h]
    · have hne : ¬ (p.1 = q.1 ∧ p.2 = q.2) := fun hh => hq (Prod.ext hh.1.symm hh.2.symm)
      have hf : strictEq (fingerprint p.1 p.2) (fingerprint q.1 q.2) = false := by
        cases hs : strictEq (fingerprint p.1 p.2) (fingerprint q.1 q.2)
        · rfl
        · exact absurd (h.mp hs) hne
      simp [hashOf, hf, hq]

theorem syncTicks_spec (serverUrl : String) :
    ∀ (ticks : List (Browser × FetchOutcome)) (last : Option (String × String)),
      (syncTicks serverUrl (hashOf last) ticks).map Option.isSome =
        pushesSpec last (ticks.map fun t => payloadOf t.1) ∧
      List.Forall₂
        (fun (t : Browser × FetchOutcome) out => ∀ push, out = some push →
          ∃ p, payloadOf t.1 = some p ∧ CarriesPayload serverUrl p push)
        ticks (syncTicks serverUrl (hashOf last) ticks)
  | [], _ => ⟨rfl, List.Forall₂.nil⟩
  | (browser, outcome) :: ticks, last => by
    cases hd : getCurrentGameData browser with
    | none =>
      have hp : payloadOf browser = none := by simp [payloadOf, hd]
      obtain ⟨ih1, ih2⟩ := syncTicks_spec serverUrl ticks last
      simp only [syncTicks, syncData_no_data _ _ _ _ hd, List.map_cons, hp, pushesSpec,
        Option.isSome_none, ih1, true_and]
      refine List.Forall₂.cons ?_ ih2
      intro push h
      cases h
    | some data =>
      have hp : payloadOf browser = some (data.gameData, data.savesData) := by
        simp [payloadOf, hd]
      have hs := strictEq_hashOf (data.gameData, data.savesData) last
      simp only at hs
      by_cases hl : last = some (data.gameData, data.savesData)
      · subst hl
        obtain ⟨ih1, ih2⟩ := syncTicks_spec serverUrl ticks (some (data.gameData, data.savesData))
        simp only [decide_True] at hs
        simp only [syncTicks, syncData_data _ _ _ _ data hd, hs, if_true,
          List.map_cons, hp, pushesSpec, Option.isSome_none, ih1, true_and]
        refine List.Forall₂.cons ?_ ih2
        intro push h
        cases h
      · obtain ⟨ih1, ih2⟩ := syncTicks_spec serverUrl ticks (some (data.gameData, data.savesData))
        simp only [hl, decide_False] at hs
        simp only [hashOf] at ih1 ih2
        simp only [syncTicks, syncData_data _ _ _ _ data hd, hs, Bool.false_eq_true, if_false,
          List.map_cons, hp, pushesSpec, hl, Option.isSome_some, ih1, true_and]
        refine List.Forall₂.cons ?_ ih2
        intro push hpush
        refine ⟨(data.gameData, data.savesData), hp, ?_⟩
        rw [← Option.some.inj hpush]
        exact ⟨rfl, rfl⟩

/-- C15: over any sequence of auto-sync ticks, a tick issues a push exactly when it
finds raw data and its raw payload differs from the payload of the most recent earlier
tick that pushed (the first tick with data always pushes); a tick issues at most one
push, which carries that tick's payload; a tick without raw data issues no push and
leaves the remembered fingerprint as it is. -/
theorem auto_sync_pushes_once_per_change (serverUrl : String)
    (ticks : List (Browser × FetchOutcome)) :
    (startStandaloneSync serverUrl ticks).map Option.isSome =
      pushesSpec none (ticks.map fun t => payloadOf t.1) ∧
    List.Forall₂
      (fun (t : Browser × FetchOutcome) out => ∀ push, out = some push →
        ∃ p, payloadOf t.1 = some p ∧ CarriesPayload serverUrl p push)
      ticks (startStandaloneSync serverUrl ticks) ∧
    (∀ (browser : Browser) (outcome : FetchOutcome) (lastDataHash : JsVal),
      payloadOf browser = none →
      syncData browser serverUrl outcome lastDataHash = (lastDataHash, none)) := by
  obtain ⟨h1, h2⟩ := syncTicks_spec serverUrl ticks none
  refine ⟨h1, h2, ?_⟩
  intro browser outcome lastDataHash hp
  apply syncData_no_data
  cases hd : getCurrentGameData browser with
  | none => rfl
  | some data => simp [payloadOf, hd] at hp

/-- Witness of C15: five ticks (a payload, the same payload, no data, the same payload
again, a changed payload) push on the first and on the last tick only. -/
theorem auto_sync_pushes_once_per_change_witness :
    payloadOf emptyBrowser = none ∧
    (startStandaloneSync "http://localhost:5174"
      [(browserWith "\x7b\x7d" "a|1|n", .ok true), (browserWith "\x7b\x7d" "a|1|n", .notOk),
       (emptyBrowser, .rejected), (browserWith "\x7b\x7d" "a|1|n", .ok true),
       (browserWith "\x7b\x7d" "a|1>2|n", .ok true)]).map Option.isSome =
      [true, false, false, false, true] ∧
    syncData emptyBrowser "http://localhost:5174" .rejected (.str "h") = (.str "h", none) :=
  ⟨rfl,
    (auto_sync_pushes_once_per_change "http://localhost:5174"
      [(browserWith "\x7b\x7d" "a|1|n", .ok true), (browserWith "\x7b\x7d" "a|1|n", .notOk),
       (emptyBrowser, .rejected), (browserWith "\x7b\x7d" "a|1|n", .ok true),
       (browserWith "\x7b\x7d" "a|1>2|n", .ok true)]).1.trans (by decide),
    (auto_sync_pushes_once_per_change "http://localhost:5174" []).2.2 emptyBrowser .rejected
      (.str "h") rfl⟩

open Bridge

theorem stringify_obj (props : List (String × JsVal)) :
    JSON.stringify (.obj props) = .str (serialized props) := by
  simp [JSON.stringify, JSON.serialize, serialized]

theorem strictEq_str_lastDataOf (text : String) (last : Option String) :
    strictEq (.str text) (lastDataOf last) = decide (last = some text) := by
  cases last with
  | none => simp [lastDataOf, strictEq]
  | some t =>
    by_cases h : t = text
    · simp [lastDataOf, strictEq, h]
    · have h' : ¬ text = t := fun hh => h hh.symm
      simp [lastDataOf, strictEq, h, h']

theorem checkForUpdates_null (lastData : JsVal) :
    checkForUpdates lastData (.ok .null) = (lastData, []) := rfl

theorem checkForUpdates_obj (lastData : JsVal) (props : List (String × JsVal)) :
    checkForUpdates lastData (.ok (.obj props)) =
      if strictEq (.str (serialized props)) lastData then (lastData, [])
      else (.str (serialized props), delivery props) := by
  simp only [checkForUpdates, JsVal.truthy, stringify_obj, delivery]
  cases strictEq (.str (serialized props)) lastData <;> simp

theorem observed_none : observed none = .null := rfl

theorem observed_some (props : List (String × JsVal)) : observed (some props) = .obj props := rfl

theorem observe_spec : ∀ (obs : List (Option (List (String × JsVal)))) (last : Option String),
    observe (lastDataOf last) (obs.map fun o => .ok (observed o)) = deliveriesSpec last obs
  | [], _ => rfl
  | none :: rest, last => by
    simp only [List.map_cons, observe, observed_none, checkForUpdates_null, deliveriesSpec,
      observe_spec rest last]
  | some props :: rest, last => by
    have hs := strictEq_str_lastDataOf (serialized props) last
    by_cases hl : last = some (serialized props)
    · subst hl
      have ih := observe_spec rest (some (serialized props))
      simp only [decide_True] at hs
      simp only [List.map_cons, observe, observed_some, checkForUpdates_obj, hs, if_true,
        deliveriesSpec, ih]
    · simp only [hl, decide_False] at hs
      have ih := observe_spec rest (some (serialized props))
      simp only [lastDataOf] at ih
      simp only [List.map_cons, observe, observed_some, checkForUpdates_obj, hs,
        Bool.false_eq_true, if_false, deliveriesSpec, hl, ih]

/-- C16: over any sequence of observations of a fresh emitter, an observation
dispatches events exactly when it is not `null` and its serialized data differs from
the data last delivered (so the first observation that is not `null` dispatches); it
then dispatches `dataUpdate`, `teamUpdate` and `statsUpdate`, once each and in that
order, and records the new serialized data; an observation equal to the last delivered
one, and a `null` observation, dispatch nothing and leave the recorded data as it
is. -/
theorem emitter_delivers_once_per_change (obs : List (Option (List (String × JsVal)))) :
    observe .null (obs.map fun o => .ok (observed o)) = deliveriesSpec none obs ∧
    (∀ (lastData : JsVal) (props : List (String × JsVal)),
      checkForUpdates lastData (.ok (observed (some props))) =
        if strictEq (.str (serialized props)) lastData then (lastData, [])
        else (.str (serialized props),
          [.custom "dataUpdate" (.obj props),
           .custom "teamUpdate" (propOf (.obj props) "team"),
           .custom "statsUpdate" (propOf (.obj props) "stats")])) ∧
    (∀ lastData : JsVal, checkForUpdates lastData (.ok (observed none)) = (lastData, [])) :=
  ⟨observe_spec obs none, fun lastData props => checkForUpdates_obj lastData props,
    fun lastData => checkForUpdates_null lastData⟩

theorem filterE_ok_inv {α : Type} {p : α → Except JsError Bool} :
    ∀ {xs r : List α}, filterE p xs = .ok r → ∀ x ∈ xs, ∃ b, p x = .ok b
  | [], _, _, x, hx => absurd hx (List.not_mem_nil _)
  | y :: ys, r, h, x, hx => by
    simp only [filterE] at h
    cases hy : p y with
    | error e => simp [hy] at h
    | ok b =>
      cases hys : filterE p ys with
      | error e => simp [hy, hys] at h
      | ok rest =>
        rcases List.mem_cons.mp hx with rfl | hx'
        · exact ⟨b, hy⟩
        · exact filterE_ok_inv hys x hx'

theorem mapE_length {α β : Type} {f : α → Except JsError β} :
    ∀ {xs : List α} {ys : List β}, mapE f xs = .ok ys → ys.length = xs.length
  | [], ys, h => by
    simp only [mapE, Except.ok.injEq] at h
    subst h
    rfl
  | x :: xs, ys, h => by
    simp only [mapE] at h
    cases hx : f x with
    | error e => simp [hx] at h
    | ok y =>
      cases hxs : mapE f xs with
      | error e => simp [hx, hxs] at h
      | ok rest =>
        simp only [hx, hxs, Except.ok.injEq] at h
        rw [← h, List.length_cons, List.length_cons, mapE_length hxs]

theorem not_nullish_of_getProp {v x : JsVal} {k : String} (h : getProp v k = .ok x) :
    v.nullish = false := by
  cases v <;> first | rfl | simp [getProp] at h

theorem not_nullish_of_entries {v : JsVal} {es : List (String × JsVal)}
    (h : objectEntries v = .ok es) : v.nullish = false := by
  cases v <;> first | rfl | simp [objectEntries] at h

theorem or_arr_not_nullish (v : JsVal) : (v.or (.arr [])).nullish = false := by
  unfold JsVal.or
  cases h : v.truthy
  · rfl
  · simpa using not_nullish_of_truthy h

/-- What a successful Box extraction tells: the entries of the snapshot, none of which is
null, and the number of records, which is the number of entries with a species and an
`Available` status. -/
theorem route_box_inv {data : JsVal} {bs : List JsVal}
    (h : Route.extractBoxData data = .ok bs) :
    ∃ es, objectEntries data = .ok es ∧ (∀ e ∈ es, e.2.nullish = false) ∧
      bs.length = (es.filter fun e =>
        hasSpecies e.2 && availableIncludes (propOf e.2 "status")).length := by
  unfold Route.extractBoxData at h
  simp only [bind, Except.bind] at h
  split at h
  · cases h
  rename_i es hes
  split at h
  · cases h
  rename_i A h1
  have hnn : ∀ e ∈ es, e.2.nullish = false := by
    intro e he
    obtain ⟨b, hb⟩ := filterE_ok_inv h1 e he
    cases hg : getProp e.2 "pokemon" with
    | error err => simp [hg] at hb
    | ok v => exact not_nullish_of_getProp hg
  have hA : A = es.filter fun e => hasSpecies e.2 := by
    rw [filterE_ok (fun e => hasSpecies e.2) es (by
      intro e he
      simp [getProp_of_not_nullish (hnn e he), hasSpecies, pure, Except.pure])] at h1
    exact (Except.ok.inj h1).symm
  split at h
  · cases h
  rename_i B h2
  have hB : B = A.filter fun e => availableIncludes (propOf e.2 "status") := by
    rw [filterE_ok (fun e => availableIncludes (propOf e.2 "status")) A (by
      intro e he
      rw [hA] at he
      simp [getProp_of_not_nullish (hnn e (List.mem_filter.mp he).1), pure, Except.pure])] at h2
    exact (Except.ok.inj h2).symm
  refine ⟨es, hes, hnn, ?_⟩
  rw [mapE_length h, hB, hA, List.filter_filter]
  simp [Bool.and_comm]

theorem standalone_box_inv {data : JsVal} {bs : List JsVal}
    (h : Standalone.extractBoxData data = .ok bs) :
    ∃ es, objectEntries data = .ok es ∧ (∀ e ∈ es, e.2.nullish = false) ∧
      bs.length = (es.filter fun e =>
        hasSpecies e.2 && availableIncludes (propOf e.2 "status")).length := by
  unfold Standalone.extractBoxData at h
  simp only [bind, Except.bind] at h
  split at h
  · cases h
  rename_i es hes
  split at h
  · cases h
  rename_i A h1
  have hnn : ∀ e ∈ es, e.2.nullish = false := by
    intro e he
    obtain ⟨b, hb⟩ := filterE_ok_inv h1 e he
    cases hg : getProp e.2 "pokemon" with
    | error err => simp [hg] at hb
    | ok v => exact not_nullish_of_getProp hg
  have hA : A = es.filter fun e => hasSpecies e.2 := by
    rw [filterE_ok (fun e => hasSpecies e.2) es (by
      intro e he
      simp [getProp_of_not_nullish (hnn e he), hasSpecies, pure, Except.pure])] at h1
    exact (Except.ok.inj h1).symm
  split at h
  · cases h
  rename_i B h2
  have hB : B = A.filter fun e => availableIncludes (propOf e.2 "status") := by
    rw [filterE_ok (fun e => availableIncludes (propOf e.2 "status")) A (by
      intro e he
      rw [hA] at he
      simp [getProp_of_not_nullish (hnn e (List.mem_filter.mp he).1), pure, Except.pure])] at h2
    exact (Except.ok.inj h2).symm
  refine ⟨es, hes, hnn, ?_⟩
  rw [mapE_length h, hB, hA, List.filter_filter]
  simp [Bool.and_comm]

theorem caughtTest_eq {p : JsVal} (h : p.nullish = false) :
    caughtTest p = .ok (hasSpecies p && availableIncludes (propOf p "status")) := by
  simp only [caughtTest, getProp_of_not_nullish h, bind, Except.bind, pure, Except.pure,
    hasSpecies, availableIncludes, NuzlockeGroups.Available]
  cases (propOf p "pokemon").truthy <;> simp

/-- The `totalCaught` filter keeps as many values as there are entries with a species
and an `Available` status. -/
theorem caught_count {data : JsVal} {es : List (String × JsVal)}
    (hes : objectEntries data = .ok es) (hnn : ∀ e ∈ es, e.2.nullish = false) :
    ∃ vs cs, objectValues data = .ok vs ∧ filterE caughtTest vs = .ok cs ∧
      cs.length = (es.filter fun e =>
        hasSpecies e.2 && availableIncludes (propOf e.2 "status")).length := by
  refine ⟨es.map fun e => e.2, (es.map fun e => e.2).filter fun p =>
    hasSpecies p && availableIncludes (propOf p "status"), ?_, ?_, ?_⟩
  · simp only [objectValues, hes, bind, Except.bind, pure, Except.pure, Functor.map,
      Except.map]
  · apply filterE_ok
    intro p hp
    obtain ⟨e, he, rfl⟩ := List.mem_map.mp hp
    exact caughtTest_eq (hnn e he)
  · rw [List.filter_map, List.length_map]
    rfl

theorem route_statsBody_eq {data : JsVal} {bs ds : List JsVal}
    (hb : Route.extractBoxData data = .ok bs) (hd : Route.extractDeadData data = .ok ds) :
    Route.statsBody data = .ok (.obj [
      ("teamCount", propOf ((propOf data "__team").or (.arr [])) "length"),
      ("boxCount", .int bs.length),
      ("deadCount", .int ds.length),
      ("totalCaught", .int bs.length)]) := by
  obtain ⟨es, hes, hnn, hlen⟩ := route_box_inv hb
  obtain ⟨vs, cs, hvs, hcs, hclen⟩ := caught_count hes hnn
  have hn := not_nullish_of_entries hes
  simp only [Route.statsBody, getProp_of_not_nullish hn,
    getProp_of_not_nullish (or_arr_not_nullish _), hb, hd, hvs, hcs, bind, Except.bind, pure,
    Except.pure, hclen, hlen]

theorem standalone_statsBody_eq {data : JsVal} {bs ds : List JsVal}
    (hb : Standalone.extractBoxData data = .ok bs)
    (hd : Standalone.extractDeadData data = .ok ds) :
    Standalone.statsBody data = .ok (.obj [
      ("teamCount", propOf ((propOf data "__team").or (.arr [])) "length"),
      ("boxCount", .int bs.length),
      ("deadCount", .int ds.length),
      ("totalCaught", .int bs.length)]) := by
  obtain ⟨es, hes, hnn, hlen⟩ := standalone_box_inv hb
  obtain ⟨vs, cs, hvs, hcs, hclen⟩ := caught_count hes hnn
  have hn := not_nullish_of_entries hes
  simp only [Standalone.statsBody, getProp_of_not_nullish hn,
    getProp_of_not_nullish (or_arr_not_nullish _), hb, hd, hvs, hcs, bind, Except.bind, pure,
    Except.pure, hclen, hlen]

/-- With both headers present and a request that resolves to a run, `GET` answers what
the `switch` statement answers, and the status-500 reply when the `switch` raises. -/
theorem route_GET_resolved {gameId : Option String} {g s : String} {id md : JsVal}
    (param : Option String) (hg : g ≠ "") (hs : s ≠ "") (h : Route.Resolves gameId s id md) :
    Route.GET gameId param (some g) (some s) =
      match Route.switchEndpoint id md (readGameData (.str g)) (endpointOf param) with
      | .ok reply => reply
      | .error e => .internalError e := by
  obtain ⟨savesData, keys, hp, hk, rfl, hl, ht⟩ := h
  have hg' : (optStr (some g)).truthy = true := by simpa [optStr, JsVal.truthy] using hg
  have hs' : (optStr (some s)).truthy = true := by simpa [optStr, JsVal.truthy] using hs
  simp only [Route.GET, hg', hs', Bool.not_true, Bool.or_self, Bool.false_eq_true,
    if_false, Option.getD_some, Route.tryBlock, hp, hk, hl, ht, bind, Except.bind, pure,
    Except.pure]

/-- The value of `response` for a request that resolves to a run is what the `switch`
statement gives. -/
theorem standalone_response_resolved {rt : Standalone.RealTimeData} {id md : JsVal}
    (param : Option String) (h : Standalone.Resolves rt id md) :
    Standalone.response rt param =
      Standalone.switchEndpoint rt id md
        (readGameData (rt.gameData.or Standalone.fallbackGameData)) (endpointOf param) := by
  obtain ⟨savesData, keys, hp, hk, rfl, hl, -⟩ := h
  simp only [Standalone.response, hp, hk, hl, bind, Except.bind]

theorem getProp_of_nullish {v : JsVal} (h : v.nullish = true) (k : String) :
    getProp v k = .error .typeError := by
  cases v <;> first | rfl | simp [JsVal.nullish] at h

theorem route_team_of_nullish {data : JsVal} (h : data.nullish = true) :
    Route.extractTeamData data = .error .typeError := by
  unfold Route.extractTeamData
  simp only [getProp_of_nullish h, bind, Except.bind]

theorem standalone_team_of_nullish {data : JsVal} (h : data.nullish = true) :
    Standalone.extractTeamData data = .error .typeError := by
  unfold Standalone.extractTeamData
  simp only [getProp_of_nullish h, bind, Except.bind]

theorem route_statusBody_eq (id : JsVal) {md data : JsVal} {team box dead : List JsVal}
    (hmd : md.nullish = false) (hT : Route.extractTeamData data = .ok team)
    (hB : Route.extractBoxData data = .ok box) (hD : Route.extractDeadData data = .ok dead) :
    Route.statusBody id md data = .ok (.obj [
      ("gameId", id),
      ("gameName", propOf md "name"),
      ("gameVersion", propOf md "game"),
      ("created", propOf md "created"),
      ("updated", propOf md "updated"),
      ("attempts", propOf md "attempts"),
      ("team", .arr team),
      ("teamCount", propOf ((propOf data "__team").or (.arr [])) "length"),
      ("boxCount", .int box.length),
      ("deadCount", .int dead.length),
      ("starter", (propOf data "__starter").or (.str "unknown"))]) := by
  obtain ⟨es, hes, -, -⟩ := route_box_inv hB
  have hn := not_nullish_of_entries hes
  simp only [Route.statusBody, getProp_of_not_nullish hmd, getProp_of_not_nullish hn,
    getProp_of_not_nullish (or_arr_not_nullish _), hT, hB, hD, bind, Except.bind,
    pure, Except.pure]

theorem standalone_statusBody_eq (rt : Standalone.RealTimeData) (id : JsVal) {md data : JsVal}
    {team box dead : List JsVal} (hmd : md.nullish = false)
    (hT : Standalone.extractTeamData data = .ok team)
    (hB : Standalone.extractBoxData data = .ok box)
    (hD : Standalone.extractDeadData data = .ok dead) :
    Standalone.statusBody rt id md data = .ok (.obj [
      ("gameId", id),
      ("gameName", propOf md "name"),
      ("gameVersion", propOf md "game"),
      ("created", propOf md "created"),
      ("updated", propOf md "updated"),
      ("attempts", propOf md "attempts"),
      ("team", .arr team),
      ("teamCount", propOf ((propOf data "__team").or (.arr [])) "length"),
      ("boxCount", .int box.length),
      ("deadCount", .int dead.length),
      ("starter", (propOf data "__starter").or (.str "unknown")),
      ("_meta", Standalone.metaInfo rt)]) := by
  obtain ⟨es, hes, -, -⟩ := standalone_box_inv hB
  have hn := not_nullish_of_entries hes
  simp only [Standalone.statusBody, getProp_of_not_nullish hmd, getProp_of_not_nullish hn,
    getProp_of_not_nullish (or_arr_not_nullish _), hT, hB, hD, bind, Except.bind,
    pure, Except.pure]

/-- The object of `case 'status'` in +server.js: the `catch` block is reached when a
view raises, and otherwise the object holds the run's fields, the Team sequence and
the three counts. -/
theorem route_statusBody_cases (id : JsVal) {md : JsVal} (data : JsVal)
    (hmd : md.nullish = false) :
    (∃ e, Route.statusBody id md data = .error e) ∨
    ∃ team box dead, Route.extractTeamData data = .ok team ∧
      Route.extractBoxData data = .ok box ∧ Route.extractDeadData data = .ok dead ∧
      Route.statusBody id md data = .ok (.obj [
        ("gameId", id),
        ("gameName", propOf md "name"),
        ("gameVersion", propOf md "game"),
        ("created", propOf md "created"),
        ("updated", propOf md "updated"),
        ("attempts", propOf md "attempts"),
        ("team", .arr team),
        ("teamCount", propOf ((propOf data "__team").or (.arr [])) "length"),
        ("boxCount", .int box.length),
        ("deadCount", .int dead.length),
        ("starter", (propOf data "__starter").or (.str "unknown"))]) := by
  cases hn : data.nullish
  case true =>
    left
    refine ⟨.typeError, ?_⟩
    simp only [Route.statusBody, getProp_of_not_nullish hmd, route_team_of_nullish hn, bind,
      Except.bind]
  case false =>
    cases hT : Route.extractTeamData data with
    | error e =>
      left
      refine ⟨e, ?_⟩
      simp only [Route.statusBody, getProp_of_not_nullish hmd, hT, bind, Except.bind]
    | ok team =>
      cases hB : Route.extractBoxData data with
      | error e =>
        left
        refine ⟨e, ?_⟩
        simp only [Route.statusBody, getProp_of_not_nullish hmd, getProp_of_not_nullish hn,
          getProp_of_not_nullish (or_arr_not_nullish _), hT, hB, bind, Except.bind]
      | ok box =>
        cases hD : Route.extractDeadData data with
        | error e =>
          left
          refine ⟨e, ?_⟩
          simp only [Route.statusBody, getProp_of_not_nullish hmd, getProp_of_not_nullish hn,
            getProp_of_not_nullish (or_arr_not_nullish _), hT, hB, hD, bind, Except.bind]
        | ok dead =>
          right
          exact ⟨team, box, dead, rfl, rfl, rfl, route_statusBody_eq id hmd hT hB hD⟩

/-- The object of `case 'status'` in standalone-server.js: as in +server.js, with the
field `_meta` appended. -/
theorem standalone_statusBody_cases (rt : Standalone.RealTimeData) (id : JsVal) {md : JsVal}
    (data : JsVal) (hmd : md.nullish = false) :
    (∃ e, Standalone.statusBody rt id md data = .error e) ∨
    ∃ team box dead, Standalone.extractTeamData data = .ok team ∧
      Standalone.extractBoxData data = .ok box ∧
      Standalone.extractDeadData data = .ok dead ∧
      Standalone.statusBody rt id md data = .ok (.obj [
        ("gameId", id),
        ("gameName", propOf md "name"),
        ("gameVersion", propOf md "game"),
        ("created", propOf md "created"),
        ("updated", propOf md "updated"),
        ("attempts", propOf md "attempts"),
        ("team", .arr team),
        ("teamCount", propOf ((propOf data "__team").or (.arr [])) "length"),
        ("boxCount", .int box.length),
        ("deadCount", .int dead.length),
        ("starter", (propOf data "__starter").or (.str "unknown")),
        ("_meta", Standalone.metaInfo rt)]) := by
  cases hn : data.nullish
  case true =>
    left
    refine ⟨.typeError, ?_⟩
    simp only [Standalone.statusBody, getProp_of_not_nullish hmd, standalone_team_of_nullish hn,
      bind, Except.bind]
  case false =>
    cases hT : Standalone.extractTeamData data with
    | error e =>
      left
      refine ⟨e, ?_⟩
      simp only [Standalone.statusBody, getProp_of_not_nullish hmd, hT, bind, Except.bind]
    | ok team =>
      cases hB : Standalone.extractBoxData data with
      | error e =>
        left
        refine ⟨e, ?_⟩
        simp only [Standalone.statusBody, getProp_of_not_nullish hmd,
          getProp_of_not_nullish hn, getProp_of_not_nullish (or_arr_not_nullish _), hT, hB,
          bind, Except.bind]
      | ok box =>
        cases hD : Standalone.extractDeadData data with
        | error e =>
          left
          refine ⟨e, ?_⟩
          simp only [Standalone.statusBody, getProp_of_not_nullish hmd,
            getProp_of_not_nullish hn, getProp_of_not_nullish (or_arr_not_nullish _), hT, hB,
            hD, bind, Except.bind]
        | ok dead =>
          right
          exact ⟨team, box, dead, rfl, rfl, rfl, standalone_statusBody_eq rt id hmd hT hB hD⟩

theorem route_switch_status (id md data : JsVal) :
    Route.switchEndpoint id md data "status" =
      match Route.statusBody id md data with
      | .ok object => .ok (.json 200 object)
      | .error e => .error e := by
  simp [Route.switchEndpoint, Route.endpointBody]

theorem standalone_switch_status (rt : Standalone.RealTimeData) (id md data : JsVal) :
    Standalone.switchEndpoint rt id md data "status" = Standalone.statusBody rt id md data := by
  simp [Standalone.switchEndpoint]

/-- C11, as amended: for a request that resolves to an existing run and asks for
`status` (also by default), the reply of the query route is the status-500 reply when
a view raises, and otherwise status 200 with exactly the fields gameId, gameName,
gameVersion, created, updated, attempts, team, teamCount, boxCount, deadCount,
starter, where `team` is the Team sequence and the counts are the lengths of the Box
and Graveyard views: the Team sequence is part of the reply, and no `box` or `dead`
list is. On a well-shaped snapshot the reply has status 200. The same holds for the
value that the standalone server builds, which ends with the field `_meta`. -/
theorem status_reply_is_summary_with_team (param : Option String)
    (hstatus : endpointOf param = "status") :
    (∀ (gameId : Option String) (g s : String) (id md : JsVal), g ≠ "" → s ≠ "" →
      Route.Resolves gameId s id md →
      ((∃ e, Route.GET gameId param (some g) (some s) = .internalError e) ∨
        ∃ team box dead, Route.extractTeamData (readGameData (.str g)) = .ok team ∧
          Route.extractBoxData (readGameData (.str g)) = .ok box ∧
          Route.extractDeadData (readGameData (.str g)) = .ok dead ∧
          Route.GET gameId param (some g) (some s) = .json 200 (.obj [
            ("gameId", id),
            ("gameName", propOf md "name"),
            ("gameVersion", propOf md "game"),
            ("created", propOf md "created"),
            ("updated", propOf md "updated"),
            ("attempts", propOf md "attempts"),
            ("team", .arr team),
            ("teamCount",
              propOf ((propOf (readGameData (.str g)) "__team").or (.arr [])) "length"),
            ("boxCount", .int box.length),
            ("deadCount", .int dead.length),
            ("starter", (propOf (readGameData (.str g)) "__starter").or (.str "unknown"))])) ∧
      (∀ props, readGameData (.str g) = .obj props → WellShaped props →
        ∃ body, Route.GET gameId param (some g) (some s) = .json 200 body)) ∧
    (∀ (rt : Standalone.RealTimeData) (id md : JsVal), Standalone.Resolves rt id md →
      ((∃ e, Standalone.response rt param = .error e) ∨
        ∃ team box dead,
          Standalone.extractTeamData
            (readGameData (rt.gameData.or Standalone.fallbackGameData)) = .ok team ∧
          Standalone.extractBoxData
            (readGameData (rt.gameData.or Standalone.fallbackGameData)) = .ok box ∧
          Standalone.extractDeadData
            (readGameData (rt.gameData.or Standalone.fallbackGameData)) = .ok dead ∧
          Standalone.response rt param = .ok (.obj [
            ("gameId", id),
            ("gameName", propOf md "name"),
            ("gameVersion", propOf md "game"),
            ("created", propOf md "created"),
            ("updated", propOf md "updated"),
            ("attempts", propOf md "attempts"),
            ("team", .arr team),
            ("teamCount",
              propOf ((propOf (readGameData (rt.gameData.or Standalone.fallbackGameData))
                "__team").or (.arr [])) "length"),
            ("boxCount", .int box.length),
            ("deadCount", .int dead.length),
            ("starter",
              (propOf (readGameData (rt.gameData.or Standalone.fallbackGameData))
                "__starter").or (.str "unknown")),
            ("_meta", Standalone.metaInfo rt)])) ∧
      (∀ props, readGameData (rt.gameData.or Standalone.fallbackGameData) = .obj props →
        WellShaped props → ∃ body, Standalone.response rt param = .ok body)) := by
  constructor
  · intro gameId g s id md hg hs hres
    have hmd : md.nullish = false := by
      obtain ⟨_, _, _, _, _, _, ht⟩ := hres
      exact not_nullish_of_truthy ht
    rw [route_GET_resolved param hg hs hres, hstatus, route_switch_status]
    constructor
    · rcases route_statusBody_cases id (readGameData (.str g)) hmd with
        ⟨e, he⟩ | ⟨team, box, dead, hT, hB, hD, hbody⟩
      · exact Or.inl ⟨e, by rw [he]⟩
      · exact Or.inr ⟨team, box, dead, hT, hB, hD, by rw [hbody]⟩
    · rintro props hprops ⟨hrec, hteam, -⟩
      obtain ⟨team, hT⟩ := (team_returns props hteam).1
      obtain ⟨box, hB, -⟩ := route_extractBoxData_spec props hrec
      obtain ⟨dead, hD, -⟩ := route_extractDeadData_spec props hrec
      rw [← hprops] at hT hB hD
      exact ⟨_, by rw [route_statusBody_eq id hmd hT hB hD]⟩
  · intro rt id md hres
    have hmd : md.nullish = false := by
      obtain ⟨_, _, _, _, _, _, ht⟩ := hres
      exact not_nullish_of_truthy ht
    rw [standalone_response_resolved param hres, hstatus, standalone_switch_status]
    constructor
    · rcases standalone_statusBody_cases rt id
          (readGameData (rt.gameData.or Standalone.fallbackGameData)) hmd with
        ⟨e, he⟩ | ⟨team, box, dead, hT, hB, hD, hbody⟩
      · exact Or.inl ⟨e, he⟩
      · exact Or.inr ⟨team, box, dead, hT, hB, hD, hbody⟩
    · rintro props hprops ⟨hrec, hteam, -⟩
      obtain ⟨team, hT⟩ := (team_returns props hteam).2
      obtain ⟨box, hB, -⟩ := standalone_extractBoxData_spec props hrec
      obtain ⟨dead, hD, -⟩ := standalone_extractDeadData_spec props hrec
      rw [← hprops] at hT hB hD
      exact ⟨_, standalone_statusBody_eq rt id hmd hT hB hD⟩

theorem sampleGame_wellShaped : WellShaped sampleGame := by
  refine ⟨?_, Or.inr ⟨["a"], rfl⟩, Or.inl rfl⟩
  intro e he
  simp only [sampleGame, List.mem_cons, List.mem_singleton, List.not_mem_nil, or_false] at he
  rcases he with rfl | rfl <;> rfl

theorem sample_route_resolves :
    Route.Resolves none sampleSavesText (.str "abc") sampleRun :=
  ⟨_, _, rfl, rfl, rfl, rfl, rfl⟩

theorem sample_standalone_resolves :
    Standalone.Resolves sampleRealTime (.str "abc") sampleRun :=
  ⟨_, _, rfl, rfl, rfl, rfl, rfl⟩

/-- Witness of C11 (amended): the sample request, without an endpoint parameter, gets a
status-200 reply from the query route and a response from the standalone server. -/
theorem status_reply_is_summary_with_team_witness :
    endpointOf none = "status" ∧
    (sampleGameText ≠ "" ∧ sampleSavesText ≠ "" ∧
      Route.Resolves none sampleSavesText (.str "abc") sampleRun ∧
      readGameData (.str sampleGameText) = .obj sampleGame ∧ WellShaped sampleGame ∧
      ∃ body, Route.GET none none (some sampleGameText) (some sampleSavesText) =
        .json 200 body) ∧
    (Standalone.Resolves sampleRealTime (.str "abc") sampleRun ∧
      readGameData (sampleRealTime.gameData.or Standalone.fallbackGameData) = .obj sampleGame ∧
      ∃ body, Standalone.response sampleRealTime none = .ok body) :=
  ⟨rfl,
    ⟨by decide, by decide, sample_route_resolves, rfl, sampleGame_wellShaped,
      ((status_reply_is_summary_with_team none rfl).1 none sampleGameText sampleSavesText
        (.str "abc") sampleRun (by decide) (by decide) sample_route_resolves).2
        sampleGame rfl sampleGame_wellShaped⟩,
    ⟨sample_standalone_resolves, rfl,
      ((status_reply_is_summary_with_team none rfl).2 sampleRealTime (.str "abc") sampleRun
        sample_standalone_resolves).2 sampleGame rfl sampleGame_wellShaped⟩⟩

/-- C11 refuted as stated: the `status` reply to the sample request holds the Team
sequence under `team`, here the record of the creature of location `a`, in the query
route and in the standalone server. -/
theorem status_reply_carries_team_list :
    (∃ body r,
      Route.GET none (some "status") (some sampleGameText) (some sampleSavesText) =
        .json 200 body ∧
      propOf body "team" = .arr [r] ∧ listedAs r "a") ∧
    (∃ body r, Standalone.response sampleRealTime (some "status") = .ok body ∧
      propOf body "team" = .arr [r] ∧ listedAs r "a") :=
  ⟨⟨_, _, rfl, rfl, rfl⟩, ⟨_, _, rfl, rfl, rfl⟩⟩

theorem endpointOf_some {tag : String} (h : tag ≠ "") : endpointOf (some tag) = tag := by
  simp [endpointOf, h]

theorem route_endpointBody_none {tag : String} (h : tag ∉ endpointTags) (id md data : JsVal) :
    Route.endpointBody id md data tag = none := by
  simp only [endpointTags, List.mem_cons, List.mem_singleton, List.not_mem_nil, or_false,
    not_or] at h
  obtain ⟨h1, h2, h3, h4, h5, h6⟩ := h
  simp [Route.endpointBody, h1, h2, h3, h4, h5, h6]

theorem route_endpointBody_some {tag : String} (h : tag ∈ endpointTags) (id md data : JsVal) :
    ∃ body, Route.endpointBody id md data tag = some body := by
  simp only [endpointTags, List.mem_cons, List.mem_singleton, List.not_mem_nil, or_false] at h
  rcases h with rfl | rfl | rfl | rfl | rfl | rfl <;> exact ⟨_, by simp [Route.endpointBody]; rfl⟩

/-- C13, as amended: for a request to the query route that carries both payloads and
resolves to an existing run, an endpoint parameter that is not empty and is not one of
status, team, box, dead, bosses, full gets the status-400 reply with error
"Invalid endpoint" and the list of the six tags in that order; an absent or empty
endpoint parameter is answered as `status` is; and each of the six tags gets a
status-200 reply, or the status-500 reply when a view raises, never that error. -/
theorem invalid_endpoint_lists_valid_tags (gameId : Option String) (g s : String)
    (id md : JsVal) (hg : g ≠ "") (hs : s ≠ "") (hres : Route.Resolves gameId s id md) :
    (∀ tag, tag ≠ "" → tag ∉ endpointTags →
      Route.GET gameId (some tag) (some g) (some s) = .json 400 (.obj [
        ("error", .str "Invalid endpoint"),
        ("availableEndpoints", .arr [.str "status", .str "team", .str "box", .str "dead",
          .str "bosses", .str "full"])])) ∧
    Route.GET gameId none (some g) (some s) =
      Route.GET gameId (some "status") (some g) (some s) ∧
    Route.GET gameId (some "") (some g) (some s) =
      Route.GET gameId (some "status") (some g) (some s) ∧
    (∀ tag ∈ endpointTags,
      (∃ body, Route.GET gameId (some tag) (some g) (some s) = .json 200 body) ∨
      ∃ e, Route.GET gameId (some tag) (some g) (some s) = .internalError e) := by
  refine ⟨?_, ?_, ?_, ?_⟩
  · intro tag hne hnot
    rw [route_GET_resolved (some tag) hg hs hres, endpointOf_some hne]
    simp only [Route.switchEndpoint, route_endpointBody_none hnot]
  · rw [route_GET_resolved none hg hs hres, route_GET_resolved (some "status") hg hs hres]
    rfl
  · rw [route_GET_resolved (some "") hg hs hres, route_GET_resolved (some "status") hg hs hres]
    rfl
  · intro tag htag
    have hne : tag ≠ "" := by
      rintro rfl
      simp [endpointTags] at htag
    obtain ⟨body, hbody⟩ := route_endpointBody_some htag id md (readGameData (.str g))
    rw [route_GET_resolved (some tag) hg hs hres, endpointOf_some hne]
    simp only [Route.switchEndpoint, hbody]
    cases body with
    | ok object => exact Or.inl ⟨object, rfl⟩
    | error e => exact Or.inr ⟨e, rfl⟩

/-- Witness of C13 (amended): the sample request with the endpoint `bogus`. -/
theorem invalid_endpoint_lists_valid_tags_witness :
    sampleGameText ≠ "" ∧ sampleSavesText ≠ "" ∧
    Route.Resolves none sampleSavesText (.str "abc") sampleRun ∧
    "bogus" ≠ "" ∧ "bogus" ∉ endpointTags ∧
    Route.GET none (some "bogus") (some sampleGameText) (some sampleSavesText) =
      .json 400 (.obj [
        ("error", .str "Invalid endpoint"),
        ("availableEndpoints", .arr [.str "status", .str "team", .str "box", .str "dead",
          .str "bosses", .str "full"])]) :=
  ⟨by decide, by decide, sample_route_resolves, by decide, by decide,
    (invalid_endpoint_lists_valid_tags none sampleGameText sampleSavesText (.str "abc")
      sampleRun (by decide) (by decide) sample_route_resolves).1 "bogus" (by decide)
      (by decide)⟩

/-- C13 refuted as stated: the empty endpoint parameter (`?endpoint=`) is not one of
the six tags, and the sample request that carries it gets the status-200 reply of
`status`, not the status-400 reply. -/
theorem empty_endpoint_is_served_as_status :
    "" ∉ endpointTags ∧
    Route.Resolves none sampleSavesText (.str "abc") sampleRun ∧
    ∃ body r,
      Route.GET none (some "") (some sampleGameText) (some sampleSavesText) =
        .json 200 body ∧
      propOf body "gameName" = .str "My Run" ∧ propOf body "team" = .arr [r] ∧
      propOf body "boxCount" = .int 1 :=
  ⟨by decide, ⟨_, _, rfl, rfl, rfl, rfl, rfl⟩, _, _, rfl, rfl, rfl, rfl⟩

/-- The field `stats` of the object of `case 'full'` in +server.js is the object that
`statsBody` builds. -/
theorem route_fullBody_stats {id md data body : JsVal}
    (h : Route.fullBody id md data = .ok body) :
    ∃ stats, Route.statsBody data = .ok stats ∧ propOf body "stats" = stats := by
  unfold Route.fullBody at h
  simp only [bind, Except.bind, pure, Except.pure] at h
  iterate 11 (split at h <;> first | (cases h; done) | skip)
  cases h
  exact ⟨_, by assumption, rfl⟩

/-- The field `stats` of the object of `case 'full'` in standalone-server.js is the
object that `statsBody` builds. -/
theorem standalone_fullBody_stats {rt : Standalone.RealTimeData} {id md data body : JsVal}
    (h : Standalone.fullBody rt id md data = .ok body) :
    ∃ stats, Standalone.statsBody data = .ok stats ∧ propOf body "stats" = stats := by
  unfold Standalone.fullBody at h
  simp only [bind, Except.bind, pure, Except.pure] at h
  iterate 11 (split at h <;> first | (cases h; done) | skip)
  cases h
  exact ⟨_, by assumption, rfl⟩

theorem availableIncludes_eq (entry : JsVal) :
    availableIncludes (propOf entry "status") =
      (statusIs entry 1 || statusIs entry 2 || statusIs entry 3 || statusIs entry 6) := by
  simp [availableIncludes, NuzlockeGroups.Available, statusIs, Bool.or_assoc]

/-- C12, as amended: over a snapshot without null entries the `stats` object of
`full` is built in both files, and its `totalCaught` is the number of map entries that
have a species and whose status is 1, 2, 3 or 6 (an entry with such a status and no
species is not counted); the `stats` field of every `full` reply is that object. -/
theorem total_caught_counts_entries_with_species (props : List (String × JsVal))
    (hrec : ∀ e ∈ props, e.2.nullish = false) :
    (∃ stats, Route.statsBody (.obj props) = .ok stats ∧
      propOf stats "totalCaught" = .int (props.filter fun e => hasSpecies e.2 &&
        (statusIs e.2 1 || statusIs e.2 2 || statusIs e.2 3 || statusIs e.2 6)).length ∧
      ∀ id md body, Route.fullBody id md (.obj props) = .ok body →
        propOf body "stats" = stats) ∧
    (∃ stats, Standalone.statsBody (.obj props) = .ok stats ∧
      propOf stats "totalCaught" = .int (props.filter fun e => hasSpecies e.2 &&
        (statusIs e.2 1 || statusIs e.2 2 || statusIs e.2 3 || statusIs e.2 6)).length ∧
      ∀ rt id md body, Standalone.fullBody rt id md (.obj props) = .ok body →
        propOf body "stats" = stats) := by
  have hfilter : (props.filter fun e => hasSpecies e.2 &&
      (statusIs e.2 1 || statusIs e.2 2 || statusIs e.2 3 || statusIs e.2 6)) =
      props.filter fun e => hasSpecies e.2 && availableIncludes (propOf e.2 "status") := by
    congr 1
    funext e
    rw [availableIncludes_eq]
  rw [hfilter]
  constructor
  · obtain ⟨box, hB, -⟩ := route_extractBoxData_spec props hrec
    obtain ⟨dead, hD, -⟩ := route_extractDeadData_spec props hrec
    obtain ⟨es, hes, -, hlen⟩ := route_box_inv hB
    cases hes
    refine ⟨_, route_statsBody_eq hB hD, ?_, ?_⟩
    · rw [← hlen]
      rfl
    · intro id md body hbody
      obtain ⟨stats, hstats, hs⟩ := route_fullBody_stats hbody
      rw [route_statsBody_eq hB hD] at hstats
      cases hstats
      exact hs
  · obtain ⟨box, hB, -⟩ := standalone_extractBoxData_spec props hrec
    obtain ⟨dead, hD, -⟩ := standalone_extractDeadData_spec props hrec
    obtain ⟨es, hes, -, hlen⟩ := standalone_box_inv hB
    cases hes
    refine ⟨_, standalone_statsBody_eq hB hD, ?_, ?_⟩
    · rw [← hlen]
      rfl
    · intro rt id md body hbody
      obtain ⟨stats, hstats, hs⟩ := standalone_fullBody_stats hbody
      rw [standalone_statsBody_eq hB hD] at hstats
      cases hstats
      exact hs

/-- C17: over a snapshot without null entries (in particular one whose entries are
records) the Box view and the `stats` object of `full` are built, in both files, and
`totalCaught` and `boxCount` are both the length of the Box view; the `stats` field
of every `full` reply is that object. -/
theorem total_caught_equals_box_count (props : List (String × JsVal))
    (hrec : ∀ e ∈ props, e.2.nullish = false) :
    (∃ box stats, Route.extractBoxData (.obj props) = .ok box ∧
      Route.statsBody (.obj props) = .ok stats ∧
      propOf stats "boxCount" = .int box.length ∧
      propOf stats "totalCaught" = propOf stats "boxCount" ∧
      ∀ id md body, Route.fullBody id md (.obj props) = .ok body →
        propOf body "stats" = stats) ∧
    (∃ box stats, Standalone.extractBoxData (.obj props) = .ok box ∧
      Standalone.statsBody (.obj props) = .ok stats ∧
      propOf stats "boxCount" = .int box.length ∧
      propOf stats "totalCaught" = propOf stats "boxCount" ∧
      ∀ rt id md body, Standalone.fullBody rt id md (.obj props) = .ok body →
        propOf body "stats" = stats) := by
  constructor
  · obtain ⟨box, hB, -⟩ := route_extractBoxData_spec props hrec
    obtain ⟨dead, hD, -⟩ := route_extractDeadData_spec props hrec
    refine ⟨box, _, hB, route_statsBody_eq hB hD, rfl, rfl, ?_⟩
    intro id md body hbody
    obtain ⟨stats, hstats, hs⟩ := route_fullBody_stats hbody
    rw [route_statsBody_eq hB hD] at hstats
    cases hstats
    exact hs
  · obtain ⟨box, hB, -⟩ := standalone_extractBoxData_spec props hrec
    obtain ⟨dead, hD, -⟩ := standalone_extractDeadData_spec props hrec
    refine ⟨box, _, hB, standalone_statsBody_eq hB hD, rfl, rfl, ?_⟩
    intro rt id md body hbody
    obtain ⟨stats, hstats, hs⟩ := standalone_fullBody_stats hbody
    rw [standalone_statsBody_eq hB hD] at hstats
    cases hstats
    exact hs

theorem mixedEntries_records : ∀ e ∈ mixedEntries, e.2.nullish = false := by
  intro e he
  simp only [mixedEntries, List.mem_cons, List.mem_singleton, List.not_mem_nil, or_false] at he
  rcases he with rfl | rfl | rfl <;> rfl

/-- Witness of C12 (amended): of the three entries of `mixedEntries`, two have the
status 1 and one of these has a species; `totalCaught` is 1 in both files. -/
theorem total_caught_counts_entries_with_species_witness :
    (∀ e ∈ mixedEntries, e.2.nullish = false) ∧
    (∃ stats, Route.statsBody (.obj mixedEntries) = .ok stats ∧
      propOf stats "totalCaught" = .int 1) ∧
    (∃ stats, Standalone.statsBody (.obj mixedEntries) = .ok stats ∧
      propOf stats "totalCaught" = .int 1) := by
  obtain ⟨⟨s1, h1, c1, -⟩, ⟨s2, h2, c2, -⟩⟩ :=
    total_caught_counts_entries_with_species mixedEntries mixedEntries_records
  exact ⟨mixedEntries_records, ⟨s1, h1, c1⟩, ⟨s2, h2, c2⟩⟩

/-- C12 refuted as stated: the snapshot of `specieslessText` has one entry, whose
status is 1 and which has no species, and the `full` reply to it has `totalCaught` 0 in
the query route and in the standalone server. -/
theorem total_caught_skips_entry_without_species :
    readGameData (.str specieslessText) = .obj [("x", .obj [("status", .int 1)])] ∧
    statusIs (.obj [("status", .int 1)]) 1 = true ∧
    (∃ body,
      Route.GET none (some "full") (some specieslessText) (some sampleSavesText) =
        .json 200 body ∧
      propOf (propOf body "stats") "totalCaught" = .int 0) ∧
    (∃ body, Standalone.response specieslessRealTime (some "full") = .ok body ∧
      propOf (propOf body "stats") "totalCaught" = .int 0) :=
  ⟨rfl, rfl, ⟨_, rfl, rfl⟩, ⟨_, rfl, rfl⟩⟩

/-- Witness of C17: on `mixedEntries` the Box view has one record, and `boxCount` and
`totalCaught` are both 1, in both files. -/
theorem total_caught_equals_box_count_witness :
    (∀ e ∈ mixedEntries, e.2.nullish = false) ∧
    (∃ box stats, Route.extractBoxData (.obj mixedEntries) = .ok box ∧
      Route.statsBody (.obj mixedEntries) = .ok stats ∧ box.length = 1 ∧
      propOf stats "boxCount" = .int 1 ∧ propOf stats "totalCaught" = .int 1) ∧
    (∃ box stats, Standalone.extractBoxData (.obj mixedEntries) = .ok box ∧
      Standalone.statsBody (.obj mixedEntries) = .ok stats ∧ box.length = 1 ∧
      propOf stats "boxCount" = .int 1 ∧ propOf stats "totalCaught" = .int 1) := by
  obtain ⟨⟨b1, s1, hb1, hs1, c1, t1, -⟩, ⟨b2, s2, hb2, hs2, c2, t2, -⟩⟩ :=
    total_caught_equals_box_count mixedEntries mixedEntries_records
  have l1 : b1.length = 1 := by
    have h : Route.extractBoxData (.obj mixedEntries) = .ok _ := rfl
    rw [h] at hb1
    cases hb1
    rfl
  have l2 : b2.length = 1 := by
    have h : Standalone.extractBoxData (.obj mixedEntries) = .ok _ := rfl
    rw [h] at hb2
    cases hb2
    rfl
  rw [l1] at c1
  rw [l2] at c2
  exact ⟨mixedEntries_records, ⟨b1, s1, hb1, hs1, l1, c1, t1.trans c1⟩,
    ⟨b2, s2, hb2, hs2, l2, c2, t2.trans c2⟩⟩

end Nuzlocke
